import Mathlib

/-!
# RoboSense RS32 / RSBP packet decoders

A shallow embedding of `decoder_RS32.hpp` and `decoder_RSBP.hpp`
(`DecoderRS32`, `DecoderRSBP`: `decodeMsopPkt`, `decodeDifopPkt`, `getLidarTime`,
`initTable`) and theorems about the embedded functions.

Conventions of the embedding.

* A packet is the packed C struct the code casts the byte pointer to; a field holds
  the unsigned integer the host reads from it (`Fin 2^w`), a fixed-size C array is a
  function on `Fin n`.  Fields the decoders never read are left out.
* C `int` values are `Int`; C `%` on `int` is `Int.tmod` (remainder with the sign of
  the dividend), C `/` on non-negative integers is `Nat` division.
* A `float`/`double` is either the literal `NAN` or a finite value; finite values
  are rationals and arithmetic on them is exact (rounding is not modelled).  The cast
  `(int)x` truncates toward zero.
* The decoder object is a record of the `DecoderBase` members the two files use;
  a member function updates the record and returns it next to its result.
* `decoder_base.hpp` is not part of the sources at hand: its macros, tables and member
  functions are either parameters (`DecoderBaseOps`, the trigonometric tables) or
  modelled from the specification, and are marked so.
-/

namespace robosense.lidar

/-! ## Machine types -/

abbrev U8 := Fin 256
abbrev U16 := Fin 65536
abbrev U64 := Fin 18446744073709551616

/-- A C floating-point value as the decoders produce it: the literal `NAN`, or a finite
value.  Finite values are exact rationals. -/
inductive CFloat where
  | NAN : CFloat
  | fin (q : ℚ) : CFloat
deriving DecidableEq

/-- The test `std::isnan`. -/
def CFloat.isnan : CFloat → Bool
  | .NAN => true
  | .fin _ => false

/-- The C cast `(int)x` of a finite floating-point value: truncation toward zero. -/
def toInt (q : ℚ) : Int := Int.tdiv q.num (q.den : Int)

/-- Modelled from the spec: the macro `RS_SWAP_SHORT` of decoder_base.hpp, which is not
among the sources.  "All multi-byte numeric fields inside packets are big-endian ...
Every u16 read must byteswap": the two bytes of a 16-bit field are exchanged. -/
def RS_SWAP_SHORT (x : U16) : Nat := x.val % 256 * 256 + x.val / 256

/-- Modelled from the spec: the constant `RS_RESOLUTION` of decoder_base.hpp, which is
not among the sources.  "Distance units: raw_u16 × 0.005 metres." -/
def RS_RESOLUTION : ℚ := 5 / 1000

/-! ## Types declared in decoder_base.hpp -/

/-- The two results the decoders return. -/
inductive RSDecoderResult where
  | DECODE_OK
  | WRONG_PKT_HEADER
deriving DecidableEq

inductive RSEchoMode where
  | ECHO_DUAL
  | ECHO_STRONGEST
  | ECHO_LAST
deriving DecidableEq

/-- The fields of `RSDecoderParam` that the decoders and the specification name. -/
structure RSDecoderParam where
  max_distance : ℚ
  min_distance : ℚ
  start_angle : ℚ
  end_angle : ℚ
  use_lidar_clock : Bool

/-- One channel of a block: `{uint16_t distance; uint8_t intensity}`. -/
structure RSChannel where
  distance : U16
  intensity : U8

/-- The calendar timestamp of the MSOP header. -/
structure RSTimestampYMD where
  year : U8
  month : U8
  day : U8
  hour : U8
  minute : U8
  second : U8
  ms : U16
  us : U16

/-- The fields of `RSMsopHeader` that the decoders read. -/
structure RSMsopHeader where
  id : U64
  timestamp : RSTimestampYMD
  temp_raw : U16

/-- The fields of `std::tm` that `getLidarTime` fills in. -/
structure Tm where
  tm_year : Int
  tm_mon : Int
  tm_mday : Int
  tm_hour : Int
  tm_min : Int
  tm_sec : Int

/-- Modelled from the spec: the trigger bookkeeping of `DecoderBase`, "optional angle +
timestamp of last trigger crossing". -/
abbrev TriggerState := Option (Int × ℚ)

/-- An output point.  `ring` is `none` until `setRing` writes it. -/
structure Point where
  x : CFloat
  y : CFloat
  z : CFloat
  intensity : CFloat
  ring : Option Int
deriving DecidableEq

/-- The members of `DecoderBase` that the two decoders read or write.  Both constructors
set `angle_file_index_ = 32` and nothing else writes it, so the two calibration lists are
arrays of 32 entries. -/
structure DecoderBase where
  param_ : RSDecoderParam
  echo_mode_ : RSEchoMode
  pkts_per_frame_ : Nat
  rpm_ : Nat
  current_temperature_ : ℚ
  start_angle_ : Int
  end_angle_ : Int
  angle_flag_ : Bool
  difop_flag_ : Bool
  trigger_flag_ : Bool
  trigger_state_ : TriggerState
  vert_angle_list_ : Fin 32 → ℚ
  hori_angle_list_ : Fin 32 → ℚ
  cos_lookup_table_ : Int → ℚ
  sin_lookup_table_ : Int → ℚ

/-- The member functions of `DecoderBase` and the library calls that the decoders use
and whose code is not among the sources; they are parameters of the embedding.
`checkTriggerAngle` acts on the trigger bookkeeping only. -/
structure DecoderBaseOps where
  computeTemperature : U16 → ℚ
  checkTriggerAngle : Int → ℚ → TriggerState → TriggerState
  getTime : ℚ
  mktime : Tm → ℚ
  calculateTimeYMD : RSMsopHeader → ℚ

/-- The value both constructors give `angle_file_index_`. -/
abbrev angle_file_index_ : Nat := 32

/-- The quotient `a / b` of two non-negative C integers; `none` stands for the undefined
behaviour of a zero divisor. -/
def idiv (a b : Nat) : Option Nat := if b = 0 then none else some (a / b)

/-- The library function `ceil`, on a finite value. -/
def ceil (x : ℚ) : ℚ := ((⌈x⌉ : Int) : ℚ)

/-- The result of the decoder call `decodeMsopPkt`: the returned code, the decoder
afterwards, the caller's point buffer afterwards and the two out-parameters. -/
structure MsopOut where
  result : RSDecoderResult
  decoder : DecoderBase
  vec : List Point
  height : Int
  azimuth : Int

/-- Modelled from the spec: `DecoderBase::azimuthCalibration`, whose code is not among the
sources.  "corrected_azimuth = wrap(raw_azimuth_channel + hori_cal[channel])", the sum
"kept as floating point until the final wrap", and the wrap is
"((x mod 36000) + 36000) mod 36000". -/
def azimuthCalibration (s : DecoderBase) (azimuth : ℚ) (channel : Fin 32) : Int :=
  Int.tmod (Int.tmod (toInt (azimuth + s.hori_angle_list_ channel)) 36000 + 36000) 36000

/-! ## Packets (both files declare the same layout) -/

/-- The struct `RS32MsopBlock` / `RSBPMsopBlock`. -/
structure MsopBlock where
  id : U16
  azimuth : U16
  channels : Fin 32 → RSChannel

/-- The fields of `RS32MsopPkt` / `RSBPMsopPkt` that the decoders read. -/
structure MsopPkt where
  header : RSMsopHeader
  blocks : Fin 12 → MsopBlock

/-- The fields of `RS32DifopPkt` / `RSBPDifopPkt` that the decoders read. -/
structure DifopPkt where
  id : U64
  rpm : U16
  return_mode : U8
  pitch_cali : Fin 96 → U8
  yaw_cali : Fin 96 → U8

/-- The sign update of the calibration loop: `if (lsb == 0) neg = 1; else if (lsb == 1)
neg = -1;` and otherwise `neg` keeps the value it had. -/
def updNeg (lsb : U8) (neg : Int) : Int :=
  if lsb.val = 0 then 1 else if lsb.val = 1 then -1 else neg

/-- The test on the first three bytes of `pitch_cali` that clears `angle_flag`. -/
def caliEmpty (p_ver_cali : Fin 96 → U8) : Bool :=
  ((p_ver_cali 0).val = 0x00 || (p_ver_cali 0).val = 0xFF) &&
  ((p_ver_cali 1).val = 0x00 || (p_ver_cali 1).val = 0xFF) &&
  ((p_ver_cali 2).val = 0x00 || (p_ver_cali 2).val = 0xFF)

/-- The local variables and the two lists that the calibration loop carries from one
iteration to the next. -/
structure CaliLoop where
  neg : Int
  vert : Fin 32 → ℚ
  hori : Fin 32 → ℚ

/-! ## decoder_RS32.hpp -/

namespace RS32

def RS32_CHANNELS_PER_BLOCK : Nat := 32
def RS32_BLOCKS_PER_PKT : Nat := 12
def RS32_MSOP_ID : U64 := 0xA050A55A0A05AA55
def RS32_BLOCK_ID : U16 := 0xEEFF
def RS32_DIFOP_ID : U64 := 0x555511115A00FFA5
def RS32_CHANNEL_TOFFSET : ℚ := 3
def RS32_FIRING_TDURATION : ℚ := 50
def RS32_PKT_RATE : Nat := 1500
def RS32_RX : ℚ := 3997 / 100000
def RS32_RY : ℚ := -1087 / 100000
def RS32_RZ : ℚ := 0

/-- The constructor body, after `DecoderBase(param)`: the two clamps on the distance
window. -/
def DecoderRS32 (s : DecoderBase) : DecoderBase :=
  let p := s.param_
  let p := if p.max_distance > 200 then { p with max_distance := 200 } else p
  let p := if p.min_distance < 4 / 10 ∨ p.min_distance > p.max_distance
           then { p with min_distance := 4 / 10 } else p
  { s with param_ := p }

def getLidarTime (ops : DecoderBaseOps) (pkt : MsopPkt) : ℚ :=
  let t := pkt.header.timestamp
  ops.mktime { tm_year := (t.year.val : Int) + 100, tm_mon := (t.month.val : Int) - 1,
               tm_mday := t.day.val, tm_hour := t.hour.val, tm_min := t.minute.val,
               tm_sec := t.second.val }
    + (RS_SWAP_SHORT t.ms : ℚ) / 1000 + (RS_SWAP_SHORT t.us : ℚ) / 1000000

/-- The value of `azi_diff` for block `blk_idx` (lines 182-204), before the conversion
to `float`. -/
def aziDiff (s : DecoderBase) (pkt : MsopPkt) (blk_idx : Fin 12) : Int :=
  let cur_azi : Int := RS_SWAP_SHORT (pkt.blocks blk_idx).azimuth
  if s.echo_mode_ = RSEchoMode.ECHO_DUAL then
    if h : blk_idx.val < RS32_BLOCKS_PER_PKT - 2 then
      Int.tmod (36000 + (RS_SWAP_SHORT (pkt.blocks ⟨blk_idx.val + 2, by
        simp only [RS32_BLOCKS_PER_PKT] at h; omega⟩).azimuth : Int) - cur_azi) 36000
    else
      Int.tmod (36000 + cur_azi - (RS_SWAP_SHORT (pkt.blocks ⟨blk_idx.val - 2, by
        omega⟩).azimuth : Int)) 36000
  else
    if h : blk_idx.val < RS32_BLOCKS_PER_PKT - 1 then
      Int.tmod (36000 + (RS_SWAP_SHORT (pkt.blocks ⟨blk_idx.val + 1, by
        simp only [RS32_BLOCKS_PER_PKT] at h; omega⟩).azimuth : Int) - cur_azi) 36000
    else
      Int.tmod (36000 + cur_azi - (RS_SWAP_SHORT (pkt.blocks ⟨blk_idx.val - 1, by
        omega⟩).azimuth : Int)) 36000

/-- The body of the channel loop (lines 208-240): the point of channel `channel_idx`
of block `blk_idx`. -/
def channelPoint (s : DecoderBase) (pkt : MsopPkt) (blk_idx : Fin 12)
    (channel_idx : Fin 32) : Point :=
  let cur_azi : Int := RS_SWAP_SHORT (pkt.blocks blk_idx).azimuth
  let azi_diff : ℚ := (aziDiff s pkt blk_idx : ℚ)
  let azimuth_channel : ℚ := (cur_azi : ℚ) +
    (azi_diff * RS32_CHANNEL_TOFFSET * ((channel_idx.val % 16 : Nat) : ℚ) / RS32_FIRING_TDURATION)
  let azimuth_final := azimuthCalibration s azimuth_channel channel_idx
  let distance : Int := RS_SWAP_SHORT ((pkt.blocks blk_idx).channels channel_idx).distance
  let distance_cali : ℚ := (distance : ℚ) * RS_RESOLUTION
  let angle_horiz_ori := Int.tmod (toInt (azimuth_channel + 36000)) 36000
  let angle_vert :=
    Int.tmod (Int.tmod (toInt (s.vert_angle_list_ channel_idx)) 36000 + 36000) 36000
  if (distance_cali ≤ s.param_.max_distance ∧ distance_cali ≥ s.param_.min_distance) ∧
      ((s.angle_flag_ = true ∧ azimuth_final ≥ s.start_angle_ ∧ azimuth_final ≤ s.end_angle_) ∨
       (s.angle_flag_ = false ∧
        (azimuth_final ≥ s.start_angle_ ∨ azimuth_final ≤ s.end_angle_)))
  then
    let intensity : CFloat :=
      CFloat.fin (((pkt.blocks blk_idx).channels channel_idx).intensity.val : ℚ)
    { x := CFloat.fin
        (distance_cali * s.cos_lookup_table_ angle_vert * s.cos_lookup_table_ azimuth_final +
          RS32_RX * s.cos_lookup_table_ angle_horiz_ori),
      y := CFloat.fin
        (-distance_cali * s.cos_lookup_table_ angle_vert * s.sin_lookup_table_ azimuth_final -
          RS32_RX * s.sin_lookup_table_ angle_horiz_ori),
      z := CFloat.fin (distance_cali * s.sin_lookup_table_ angle_vert + RS32_RZ),
      intensity := if intensity.isnan then CFloat.fin 0 else intensity,
      ring := none }
  else
    { x := CFloat.NAN, y := CFloat.NAN, z := CFloat.NAN, intensity := CFloat.NAN,
      ring := none }

/-- The block loop (lines 175-243) over the blocks still to visit: a block whose `id` is
not `RS32_BLOCK_ID` ends the loop, any other block appends its 32 points in channel
order.  The loop bounds `RS32_BLOCKS_PER_PKT` and `RS32_CHANNELS_PER_BLOCK` are the sizes
12 and 32 of the two arrays. -/
def blockLoop (s : DecoderBase) (pkt : MsopPkt) : List (Fin 12) → List Point → List Point
  | [], vec => vec
  | blk_idx :: rest, vec =>
    if (pkt.blocks blk_idx).id ≠ RS32_BLOCK_ID then vec
    else blockLoop s pkt rest
      ((List.finRange 32).foldl
        (fun v channel_idx => v ++ [channelPoint s pkt blk_idx channel_idx]) vec)

/-- The function `DecoderRS32::decodeMsopPkt`.  `height` is written before the header
test; `azimuth` keeps the caller's value when the header is wrong. -/
def decodeMsopPkt (ops : DecoderBaseOps) (s : DecoderBase) (pkt : MsopPkt)
    (vec : List Point) (azimuth : Int) : MsopOut :=
  let height : Int := 32
  if pkt.header.id ≠ RS32_MSOP_ID then
    { result := RSDecoderResult.WRONG_PKT_HEADER, decoder := s, vec := vec,
      height := height, azimuth := azimuth }
  else
    let s := { s with current_temperature_ := ops.computeTemperature pkt.header.temp_raw }
    let first_azimuth : Int := RS_SWAP_SHORT (pkt.blocks 0).azimuth
    let s :=
      if s.trigger_flag_ then
        if s.param_.use_lidar_clock then
          { s with trigger_state_ :=
              ops.checkTriggerAngle first_azimuth (getLidarTime ops pkt) s.trigger_state_ }
        else
          { s with trigger_state_ :=
              ops.checkTriggerAngle first_azimuth ops.getTime s.trigger_state_ }
      else s
    { result := RSDecoderResult.DECODE_OK, decoder := s,
      vec := blockLoop s pkt (List.finRange 12) vec,
      height := height, azimuth := first_azimuth }

/-- One iteration of the calibration loop (lines 296-323). -/
def caliStep (pkt : DifopPkt) (st : CaliLoop) (i : Fin 32) : CaliLoop :=
  let p_ver_cali := pkt.pitch_cali
  let p_hori_cali := pkt.yaw_cali
  let lsb := p_ver_cali ⟨i.val * 3, by omega⟩
  let mid := p_ver_cali ⟨i.val * 3 + 1, by omega⟩
  let msb := p_ver_cali ⟨i.val * 3 + 2, by omega⟩
  let neg := updNeg lsb st.neg
  let vert := Function.update st.vert i
    ((((mid.val * 256 + msb.val : Nat) : Int) * neg : Int) * (1 / 10 : ℚ))
  let lsb := p_hori_cali ⟨i.val * 3, by omega⟩
  let mid := p_hori_cali ⟨i.val * 3 + 1, by omega⟩
  let msb := p_hori_cali ⟨i.val * 3 + 2, by omega⟩
  let neg := updNeg lsb neg
  let hori := Function.update st.hori i
    ((((mid.val * 256 + msb.val : Nat) : Int) * neg : Int) * (1 / 10 : ℚ))
  { neg := neg, vert := vert, hori := hori }

/-- The function `DecoderRS32::decodeDifopPkt`.  The quotient in the `pkts_per_frame_`
assignment is a quotient of integers, taken before `ceil` is applied. -/
def decodeDifopPkt (s : DecoderBase) (pkt : DifopPkt) :
    Option (RSDecoderResult × DecoderBase) :=
  if pkt.id ≠ RS32_DIFOP_ID then
    some (RSDecoderResult.WRONG_PKT_HEADER, s)
  else
    let s := { s with rpm_ := RS_SWAP_SHORT pkt.rpm }
    let s :=
      if pkt.return_mode.val = 0x00 then { s with echo_mode_ := RSEchoMode.ECHO_DUAL }
      else if pkt.return_mode.val = 0x01 then
        { s with echo_mode_ := RSEchoMode.ECHO_STRONGEST }
      else if pkt.return_mode.val = 0x02 then { s with echo_mode_ := RSEchoMode.ECHO_LAST }
      else s
    match (if s.echo_mode_ = RSEchoMode.ECHO_DUAL
           then idiv (2 * RS32_PKT_RATE * 60) s.rpm_
           else idiv (RS32_PKT_RATE * 60) s.rpm_) with
    | none => none
    | some q =>
      let s := { s with pkts_per_frame_ := (toInt (ceil (q : ℚ))).toNat }
      let s :=
        if ¬ s.difop_flag_ then
          let angle_flag := !caliEmpty pkt.pitch_cali
          if angle_flag then
            let st := (List.finRange 32).foldl (caliStep pkt)
              { neg := 1, vert := s.vert_angle_list_, hori := s.hori_angle_list_ }
            { s with vert_angle_list_ := st.vert, hori_angle_list_ := st.hori,
                     difop_flag_ := true }
          else s
        else s
      some (RSDecoderResult.DECODE_OK, s)

end RS32

/-! ## decoder_RSBP.hpp -/

namespace RSBP

def RSBP_MSOP_ID : U64 := 0xA050A55A0A05AA55
def RSBP_DIFOP_ID : U64 := 0x555511115A00FFA5
def RSBP_BLOCK_ID : U16 := 0xEEFF
def RSBP_BLOCKS_PER_PKT : Nat := 12
def RSBP_CHANNELS_PER_BLOCK : Nat := 32
def RSBP_CHANNEL_TOFFSET : ℚ := 3
def RSBP_FIRING_TDURATION : ℚ := 50
def RSBP_PKT_RATE : Nat := 1500
def RSBP_RX : ℚ := 1473 / 100000
def RSBP_RY : ℚ := 85 / 10000
def RSBP_RZ : ℚ := 9427 / 100000

/-- The table `beam_ring_table_` as `initTable` fills it. -/
def initTable : Fin 32 → Int :=
  ![31, 28, 27, 25, 23, 21, 19, 17, 30, 29, 26, 24, 22, 20, 18, 16,
    15, 13, 11, 9, 7, 5, 3, 1, 14, 12, 10, 8, 6, 4, 2, 0]

/-- The member `beam_ring_table_`; the constructor calls `initTable` and nothing else
writes the table. -/
def beam_ring_table_ : Fin 32 → Int := initTable

/-- The constructor body, after `DecoderBase(param)`: the two clamps on the distance
window. -/
def DecoderRSBP (s : DecoderBase) : DecoderBase :=
  let p := s.param_
  let p := if p.max_distance > 100 then { p with max_distance := 100 } else p
  let p := if p.min_distance < 1 / 10 ∨ p.min_distance > p.max_distance
           then { p with min_distance := 1 / 10 } else p
  { s with param_ := p }

def getLidarTime (ops : DecoderBaseOps) (pkt : MsopPkt) : ℚ :=
  ops.calculateTimeYMD pkt.header

/-- The value of `azi_diff` for block `blk_idx` (lines 177-199), before the conversion
to `float`. -/
def aziDiff (s : DecoderBase) (pkt : MsopPkt) (blk_idx : Fin 12) : Int :=
  let cur_azi : Int := RS_SWAP_SHORT (pkt.blocks blk_idx).azimuth
  if s.echo_mode_ = RSEchoMode.ECHO_DUAL then
    if h : blk_idx.val < RSBP_BLOCKS_PER_PKT - 2 then
      Int.tmod (36000 + (RS_SWAP_SHORT (pkt.blocks ⟨blk_idx.val + 2, by
        simp only [RSBP_BLOCKS_PER_PKT] at h; omega⟩).azimuth : Int) - cur_azi) 36000
    else
      Int.tmod (36000 + cur_azi - (RS_SWAP_SHORT (pkt.blocks ⟨blk_idx.val - 2, by
        omega⟩).azimuth : Int)) 36000
  else
    if h : blk_idx.val < RSBP_BLOCKS_PER_PKT - 1 then
      Int.tmod (36000 + (RS_SWAP_SHORT (pkt.blocks ⟨blk_idx.val + 1, by
        simp only [RSBP_BLOCKS_PER_PKT] at h; omega⟩).azimuth : Int) - cur_azi) 36000
    else
      Int.tmod (36000 + cur_azi - (RS_SWAP_SHORT (pkt.blocks ⟨blk_idx.val - 1, by
        omega⟩).azimuth : Int)) 36000

/-- The body of the channel loop (lines 202-234): the point of channel `channel_idx`
of block `blk_idx`. -/
def channelPoint (s : DecoderBase) (pkt : MsopPkt) (blk_idx : Fin 12)
    (channel_idx : Fin 32) : Point :=
  let cur_azi : Int := RS_SWAP_SHORT (pkt.blocks blk_idx).azimuth
  let azi_diff : ℚ := (aziDiff s pkt blk_idx : ℚ)
  let azi_channel_ori : ℚ := (cur_azi : ℚ) +
    (azi_diff * RSBP_CHANNEL_TOFFSET * ((channel_idx.val % 16 : Nat) : ℚ) / RSBP_FIRING_TDURATION)
  let azi_channel_final := azimuthCalibration s azi_channel_ori channel_idx
  let distance : ℚ :=
    ((RS_SWAP_SHORT ((pkt.blocks blk_idx).channels channel_idx).distance : Int) : ℚ) *
      RS_RESOLUTION
  let angle_horiz := Int.tmod (toInt (azi_channel_ori + 36000)) 36000
  let angle_vert :=
    Int.tmod (Int.tmod (toInt (s.vert_angle_list_ channel_idx)) 36000 + 36000) 36000
  if (distance ≤ s.param_.max_distance ∧ distance ≥ s.param_.min_distance) ∧
      ((s.angle_flag_ = true ∧ azi_channel_final ≥ s.start_angle_ ∧
          azi_channel_final ≤ s.end_angle_) ∨
       (s.angle_flag_ = false ∧
        (azi_channel_final ≥ s.start_angle_ ∨ azi_channel_final ≤ s.end_angle_)))
  then
    let x : ℚ :=
      distance * s.cos_lookup_table_ angle_vert * s.cos_lookup_table_ azi_channel_final +
        RSBP_RX * s.cos_lookup_table_ angle_horiz
    let y : ℚ :=
      -distance * s.cos_lookup_table_ angle_vert * s.sin_lookup_table_ azi_channel_final -
        RSBP_RX * s.sin_lookup_table_ angle_horiz
    let z : ℚ := distance * s.sin_lookup_table_ angle_vert + RSBP_RZ
    let intensity : ℚ := (((pkt.blocks blk_idx).channels channel_idx).intensity.val : ℚ)
    { x := CFloat.fin x, y := CFloat.fin y, z := CFloat.fin z,
      intensity := CFloat.fin intensity, ring := some (beam_ring_table_ channel_idx) }
  else
    { x := CFloat.NAN, y := CFloat.NAN, z := CFloat.NAN, intensity := CFloat.fin 0,
      ring := some (-1) }

/-- The block loop (lines 170-237) over the blocks still to visit: a block whose `id` is
not `RSBP_BLOCK_ID` ends the loop, any other block appends its 32 points in channel
order.  The loop bounds `RSBP_BLOCKS_PER_PKT` and `RSBP_CHANNELS_PER_BLOCK` are the sizes
12 and 32 of the two arrays. -/
def blockLoop (s : DecoderBase) (pkt : MsopPkt) : List (Fin 12) → List Point → List Point
  | [], vec => vec
  | blk_idx :: rest, vec =>
    if (pkt.blocks blk_idx).id ≠ RSBP_BLOCK_ID then vec
    else blockLoop s pkt rest
      ((List.finRange 32).foldl
        (fun v channel_idx => v ++ [channelPoint s pkt blk_idx channel_idx]) vec)

/-- The function `DecoderRSBP::decodeMsopPkt`.  `height` is written before the header
test; `azimuth` keeps the caller's value when the header is wrong. -/
def decodeMsopPkt (ops : DecoderBaseOps) (s : DecoderBase) (pkt : MsopPkt)
    (vec : List Point) (azimuth : Int) : MsopOut :=
  let height : Int := RSBP_CHANNELS_PER_BLOCK
  if pkt.header.id ≠ RSBP_MSOP_ID then
    { result := RSDecoderResult.WRONG_PKT_HEADER, decoder := s, vec := vec,
      height := height, azimuth := azimuth }
  else
    let s := { s with current_temperature_ := ops.computeTemperature pkt.header.temp_raw }
    let first_azimuth : Int := RS_SWAP_SHORT (pkt.blocks 0).azimuth
    let s :=
      if s.trigger_flag_ then
        if s.param_.use_lidar_clock then
          { s with trigger_state_ :=
              ops.checkTriggerAngle first_azimuth (getLidarTime ops pkt) s.trigger_state_ }
        else
          { s with trigger_state_ :=
              ops.checkTriggerAngle first_azimuth ops.getTime s.trigger_state_ }
      else s
    { result := RSDecoderResult.DECODE_OK, decoder := s,
      vec := blockLoop s pkt (List.finRange 12) vec,
      height := height, azimuth := first_azimuth }

/-- One iteration of the calibration loop (lines 288-315). -/
def caliStep (pkt : DifopPkt) (st : CaliLoop) (i : Fin 32) : CaliLoop :=
  let p_ver_cali := pkt.pitch_cali
  let p_hori_cali := pkt.yaw_cali
  let lsb := p_ver_cali ⟨i.val * 3, by omega⟩
  let mid := p_ver_cali ⟨i.val * 3 + 1, by omega⟩
  let msb := p_ver_cali ⟨i.val * 3 + 2, by omega⟩
  let neg := updNeg lsb st.neg
  let vert := Function.update st.vert i
    (((((mid.val * 256 + msb.val : Nat) : Int) * neg : Int)) : ℚ)
  let lsb := p_hori_cali ⟨i.val * 3, by omega⟩
  let mid := p_hori_cali ⟨i.val * 3 + 1, by omega⟩
  let msb := p_hori_cali ⟨i.val * 3 + 2, by omega⟩
  let neg := updNeg lsb neg
  let hori := Function.update st.hori i
    (((((mid.val * 256 + msb.val : Nat) : Int) * neg : Int)) : ℚ)
  { neg := neg, vert := vert, hori := hori }

/-- The function `DecoderRSBP::decodeDifopPkt`.  The member `rpm_` is not assigned; the
quotient in the `pkts_per_frame_` assignment is a quotient of integers, taken before
`ceil` is applied. -/
def decodeDifopPkt (s : DecoderBase) (pkt : DifopPkt) :
    Option (RSDecoderResult × DecoderBase) :=
  if pkt.id ≠ RSBP_DIFOP_ID then
    some (RSDecoderResult.WRONG_PKT_HEADER, s)
  else
    let s :=
      if pkt.return_mode.val = 0x00 then { s with echo_mode_ := RSEchoMode.ECHO_DUAL }
      else if pkt.return_mode.val = 0x01 then
        { s with echo_mode_ := RSEchoMode.ECHO_STRONGEST }
      else if pkt.return_mode.val = 0x02 then { s with echo_mode_ := RSEchoMode.ECHO_LAST }
      else s
    match (if s.echo_mode_ = RSEchoMode.ECHO_DUAL
           then idiv (2 * RSBP_PKT_RATE * 60) (RS_SWAP_SHORT pkt.rpm)
           else idiv (RSBP_PKT_RATE * 60) (RS_SWAP_SHORT pkt.rpm)) with
    | none => none
    | some q =>
      let s := { s with pkts_per_frame_ := (toInt (ceil (q : ℚ))).toNat }
      let s :=
        if ¬ s.difop_flag_ then
          let angle_flag := !caliEmpty pkt.pitch_cali
          if angle_flag then
            let st := (List.finRange angle_file_index_).foldl (caliStep pkt)
              { neg := 1, vert := s.vert_angle_list_, hori := s.hori_angle_list_ }
            { s with vert_angle_list_ := st.vert, hori_angle_list_ := st.hori,
                     difop_flag_ := true }
          else s
        else s
      some (RSDecoderResult.DECODE_OK, s)

end RSBP

/-! ## The two entry points, by model -/

/-- The two sensor models. -/
inductive Model where
  | RS32
  | RSBP
deriving DecidableEq

def Model.MSOP_ID : Model → U64
  | .RS32 => RS32.RS32_MSOP_ID
  | .RSBP => RSBP.RSBP_MSOP_ID

def Model.DIFOP_ID : Model → U64
  | .RS32 => RS32.RS32_DIFOP_ID
  | .RSBP => RSBP.RSBP_DIFOP_ID

def Model.BLOCK_ID : Model → U16
  | .RS32 => RS32.RS32_BLOCK_ID
  | .RSBP => RSBP.RSBP_BLOCK_ID

/-- The entry point `decode_msop`: `decodeMsopPkt` of the model's decoder. -/
def decode_msop : Model → DecoderBaseOps → DecoderBase → MsopPkt → List Point → Int → MsopOut
  | .RS32 => RS32.decodeMsopPkt
  | .RSBP => RSBP.decodeMsopPkt

/-- The entry point `decode_difop`: `decodeDifopPkt` of the model's decoder. -/
def decode_difop : Model → DecoderBase → DifopPkt → Option (RSDecoderResult × DecoderBase)
  | .RS32 => RS32.decodeDifopPkt
  | .RSBP => RSBP.decodeDifopPkt

/-- The point the model's channel loop emits for one channel of one block. -/
def Model.channelPoint : Model → DecoderBase → MsopPkt → Fin 12 → Fin 32 → Point
  | .RS32 => RS32.channelPoint
  | .RSBP => RSBP.channelPoint

/-! ## Quantities the statements are about -/

/-- The number of leading blocks of the packet whose `id` is the model's block
identifier `0xEEFF`. -/
def validBlocks (m : Model) (pkt : MsopPkt) : Nat :=
  ((List.finRange 12).takeWhile (fun b => decide ((pkt.blocks b).id = m.BLOCK_ID))).length

/-- The points of the decoded blocks in the order of emission: for each leading valid
block, in block order, the points of its 32 channels in channel order. -/
def decodedPoints (m : Model) (s : DecoderBase) (pkt : MsopPkt) : List Point :=
  ((List.finRange 12).takeWhile (fun b => decide ((pkt.blocks b).id = m.BLOCK_ID))).flatMap
    (fun b => (List.finRange 32).map (m.channelPoint s pkt b))

/-- The integer `azi_diff` of the model's block loop. -/
def Model.aziDiff : Model → DecoderBase → MsopPkt → Fin 12 → Int
  | .RS32 => RS32.aziDiff
  | .RSBP => RSBP.aziDiff

/-- The per-channel azimuth before horizontal calibration (`azimuth_channel` in
decoder_RS32.hpp, `azi_channel_ori` in decoder_RSBP.hpp): the block azimuth plus
`azi_diff * 3 * (c % 16) / 50`. -/
def channelAzimuth (m : Model) (s : DecoderBase) (pkt : MsopPkt) (b : Fin 12)
    (c : Fin 32) : ℚ :=
  (((RS_SWAP_SHORT (pkt.blocks b).azimuth : Nat) : Int) : ℚ) +
    ((m.aziDiff s pkt b : ℚ) * 3 * ((c.val % 16 : Nat) : ℚ) / 50)

/-- The distance of a channel as read from the packet, before scaling. -/
def rawDistance (pkt : MsopPkt) (b : Fin 12) (c : Fin 32) : Nat :=
  RS_SWAP_SHORT ((pkt.blocks b).channels c).distance

/-- The admission test of the channel loop, as the code writes it. -/
def admitted (m : Model) (s : DecoderBase) (pkt : MsopPkt) (b : Fin 12) (c : Fin 32) : Prop :=
  (((rawDistance pkt b c : Int) : ℚ) * RS_RESOLUTION ≤ s.param_.max_distance ∧
    ((rawDistance pkt b c : Int) : ℚ) * RS_RESOLUTION ≥ s.param_.min_distance) ∧
  ((s.angle_flag_ = true ∧
      azimuthCalibration s (channelAzimuth m s pkt b c) c ≥ s.start_angle_ ∧
      azimuthCalibration s (channelAzimuth m s pkt b c) c ≤ s.end_angle_) ∨
   (s.angle_flag_ = false ∧
      (azimuthCalibration s (channelAzimuth m s pkt b c) c ≥ s.start_angle_ ∨
       azimuthCalibration s (channelAzimuth m s pkt b c) c ≤ s.end_angle_)))

/-- The translation `Rx` the model's projection uses. -/
def Model.RX : Model → ℚ
  | .RS32 => RS32.RS32_RX
  | .RSBP => RSBP.RSBP_RX

/-- The translation `Rz` the model's projection uses. -/
def Model.RZ : Model → ℚ
  | .RS32 => RS32.RS32_RZ
  | .RSBP => RSBP.RSBP_RZ

/-- The point the model emits for a rejected channel. -/
def Model.rejected : Model → Point
  | .RS32 => { x := CFloat.NAN, y := CFloat.NAN, z := CFloat.NAN, intensity := CFloat.NAN,
               ring := none }
  | .RSBP => { x := CFloat.NAN, y := CFloat.NAN, z := CFloat.NAN, intensity := CFloat.fin 0,
               ring := some (-1) }

/-- The ring the model writes into an admitted point of channel `c`: RS32 writes none. -/
def Model.ring : Model → Fin 32 → Option Int
  | .RS32, _ => none
  | .RSBP, c => some (RSBP.beam_ring_table_ c)

/-- The sign byte of channel `i` in a calibration region (offset `3 i`). -/
def signByte (cali : Fin 96 → U8) (i : Fin 32) : U8 := cali ⟨i.val * 3, by omega⟩

/-- The magnitude `mid * 256 + msb` of channel `i` in a calibration region (the bytes at
offsets `3 i + 1` and `3 i + 2`). -/
def magnitude (cali : Fin 96 → U8) (i : Fin 32) : Nat :=
  (cali ⟨i.val * 3 + 1, by omega⟩).val * 256 + (cali ⟨i.val * 3 + 2, by omega⟩).val

/-- What one iteration of the calibration loop does to the variable `neg`: the update for
the pitch group, then the update for the yaw group. -/
def negStep (pkt : DifopPkt) (neg : Int) (i : Fin 32) : Int :=
  updNeg (signByte pkt.yaw_cali i) (updNeg (signByte pkt.pitch_cali i) neg)

/-- The value of `neg` on entry to iteration `i` of the calibration loop. -/
def negIn (pkt : DifopPkt) (i : Fin 32) : Int :=
  ((List.finRange 32).take i.val).foldl (negStep pkt) 1

/-- The value of `neg` when `vert_angle_list_[i]` is assigned. -/
def pitchNeg (pkt : DifopPkt) (i : Fin 32) : Int :=
  updNeg (signByte pkt.pitch_cali i) (negIn pkt i)

/-- The value of `neg` when `hori_angle_list_[i]` is assigned. -/
def yawNeg (pkt : DifopPkt) (i : Fin 32) : Int :=
  updNeg (signByte pkt.yaw_cali i) (pitchNeg pkt i)

/-- The factor applied to a parsed calibration value before it is stored: `0.1f` in
decoder_RS32.hpp, none in decoder_RSBP.hpp. -/
def Model.caliScale : Model → ℚ
  | .RS32 => 1 / 10
  | .RSBP => 1

/-- One iteration of the calibration loop with the stored value scaled by `scale`. -/
def caliStepS (scale : ℚ) (pkt : DifopPkt) (st : CaliLoop) (i : Fin 32) : CaliLoop :=
  { neg := negStep pkt st.neg i
    vert := Function.update st.vert i
      ((((magnitude pkt.pitch_cali i : Nat) : Int) *
        updNeg (signByte pkt.pitch_cali i) st.neg : Int) * scale)
    hori := Function.update st.hori i
      ((((magnitude pkt.yaw_cali i : Nat) : Int) * negStep pkt st.neg i : Int) * scale) }

/-- The vertical list the calibration loop of the model leaves behind. -/
def loadedVert (m : Model) (pkt : DifopPkt) : Fin 32 → ℚ :=
  fun i => ((((magnitude pkt.pitch_cali i : Nat) : Int) * pitchNeg pkt i : Int) : ℚ) *
    m.caliScale

/-- The horizontal list the calibration loop of the model leaves behind. -/
def loadedHori (m : Model) (pkt : DifopPkt) : Fin 32 → ℚ :=
  fun i => ((((magnitude pkt.yaw_cali i : Nat) : Int) * yawNeg pkt i : Int) : ℚ) *
    m.caliScale

/-- The echo mode after the `switch` on `return_mode`. -/
def echoAfter (return_mode : U8) (old : RSEchoMode) : RSEchoMode :=
  if return_mode.val = 0x00 then RSEchoMode.ECHO_DUAL
  else if return_mode.val = 0x01 then RSEchoMode.ECHO_STRONGEST
  else if return_mode.val = 0x02 then RSEchoMode.ECHO_LAST
  else old

/-- The decoder that `decode_difop` leaves behind for a packet with valid magic and a
non-zero rpm field, field by field: `rpm_` is assigned by the RS32 decoder only; the
packets-per-frame count is the integer quotient; the calibration lists are replaced, and
the flag set, when the flag was clear and the pitch region does not look empty. -/
def difopAfter (m : Model) (s : DecoderBase) (pkt : DifopPkt) : DecoderBase :=
  { s with
    rpm_ := (match m with
      | .RS32 => RS_SWAP_SHORT pkt.rpm
      | .RSBP => s.rpm_)
    echo_mode_ := echoAfter pkt.return_mode s.echo_mode_
    pkts_per_frame_ :=
      (if echoAfter pkt.return_mode s.echo_mode_ = RSEchoMode.ECHO_DUAL
        then 2 * 1500 * 60 else 1500 * 60) / RS_SWAP_SHORT pkt.rpm
    vert_angle_list_ :=
      if s.difop_flag_ = false ∧ caliEmpty pkt.pitch_cali = false then loadedVert m pkt
      else s.vert_angle_list_
    hori_angle_list_ :=
      if s.difop_flag_ = false ∧ caliEmpty pkt.pitch_cali = false then loadedHori m pkt
      else s.hori_angle_list_
    difop_flag_ := s.difop_flag_ || !caliEmpty pkt.pitch_cali }

/-- The per-model convention for the other fields of a rejected point: RS32 sets the
intensity to `NAN`; RSBP sets the intensity to 0 and the ring to -1. -/
def Model.sentinelConvention : Model → Point → Prop
  | .RS32, p => p.intensity = CFloat.NAN
  | .RSBP, p => p.intensity = CFloat.fin 0 ∧ p.ring = some (-1)

/-- A sentinel point: the three coordinates are `NAN`. -/
def Point.isSentinel (p : Point) : Prop :=
  p.x = CFloat.NAN ∧ p.y = CFloat.NAN ∧ p.z = CFloat.NAN

/-! ## Construction and sequences of calls -/

/-- The constructor `new_decoder`: the model's constructor body applied to the decoder
that `DecoderBase(param)` has built. -/
def new_decoder : Model → DecoderBase → DecoderBase
  | .RS32 => RS32.DecoderRS32
  | .RSBP => RSBP.DecoderRSBP

/-- The lower hard limit of the model's distance window. -/
def Model.hardMin : Model → ℚ
  | .RS32 => 4 / 10
  | .RSBP => 1 / 10

/-- The upper hard limit of the model's distance window. -/
def Model.hardMax : Model → ℚ
  | .RS32 => 200
  | .RSBP => 100

/-- One call of an entry point, with its arguments. -/
inductive Call where
  | msop (ops : DecoderBaseOps) (pkt : MsopPkt) (vec : List Point) (azimuth : Int)
  | difop (pkt : DifopPkt)

/-- The decoder after one call; `none` when the call does not return. -/
def Call.apply (m : Model) (s : DecoderBase) : Call → Option DecoderBase
  | .msop ops pkt vec az => some (decode_msop m ops s pkt vec az).decoder
  | .difop pkt => (decode_difop m s pkt).map (fun r => r.2)

/-- The decoder after a sequence of calls, each made on the decoder that the call before
it left; `none` when one of the calls does not return. -/
def runCalls (m : Model) : List Call → DecoderBase → Option DecoderBase
  | [], s => some s
  | c :: cs, s =>
    match c.apply m s with
    | none => none
    | some s' => runCalls m cs s'

/-- Two decoders that differ at most in `current_temperature_` and in the trigger
bookkeeping. -/
def sameGeometry (s s' : DecoderBase) : Prop :=
  s'.param_ = s.param_ ∧ s'.echo_mode_ = s.echo_mode_ ∧
  s'.pkts_per_frame_ = s.pkts_per_frame_ ∧ s'.rpm_ = s.rpm_ ∧
  s'.start_angle_ = s.start_angle_ ∧ s'.end_angle_ = s.end_angle_ ∧
  s'.angle_flag_ = s.angle_flag_ ∧ s'.difop_flag_ = s.difop_flag_ ∧
  s'.trigger_flag_ = s.trigger_flag_ ∧
  s'.vert_angle_list_ = s.vert_angle_list_ ∧ s'.hori_angle_list_ = s.hori_angle_list_ ∧
  s'.cos_lookup_table_ = s.cos_lookup_table_ ∧ s'.sin_lookup_table_ = s.sin_lookup_table_

/-- A lookup table cut down to the 36000 entries it has: every entry at an index outside
`[0, 36000)` is replaced by 0. -/
def restrictTable (t : Int → ℚ) : Int → ℚ :=
  fun i => if 0 ≤ i ∧ i < 36000 then t i else 0

/-! ## Sample decoder, tables and packets -/

/-- A rational stand-in for the sine table, indexed by hundredths of a degree:
Bhaskara's approximation, exact at the quadrant angles. -/
def sampleSin (i : Int) : ℚ :=
  let j : ℚ := ((i % 36000 : Int) : ℚ)
  if j ≤ 18000 then 4 * j * (18000 - j) / (405000000 - j * (18000 - j))
  else -(4 * (j - 18000) * (36000 - j) / (405000000 - (j - 18000) * (36000 - j)))

/-- The matching stand-in for the cosine table. -/
def sampleCos (i : Int) : ℚ := sampleSin (i + 9000)

def sampleOps : DecoderBaseOps :=
  { computeTemperature := fun raw => (raw.val : ℚ)
    checkTriggerAngle := fun a t _ => some (a, t)
    getTime := 0
    mktime := fun _ => 0
    calculateTimeYMD := fun _ => 0 }

/-- A decoder as `DecoderBase(param)` leaves it: echo mode STRONGEST, zero calibration,
nothing loaded, the full azimuth window. -/
def baseDecoder : DecoderBase :=
  { param_ := { max_distance := 200, min_distance := 2 / 10, start_angle := 0,
                end_angle := 360, use_lidar_clock := false }
    echo_mode_ := RSEchoMode.ECHO_STRONGEST
    pkts_per_frame_ := 84
    rpm_ := 600
    current_temperature_ := 0
    start_angle_ := 0
    end_angle_ := 36000
    angle_flag_ := true
    difop_flag_ := false
    trigger_flag_ := false
    trigger_state_ := none
    vert_angle_list_ := fun _ => 0
    hori_angle_list_ := fun _ => 0
    cos_lookup_table_ := sampleCos
    sin_lookup_table_ := sampleSin }

/-- A freshly constructed decoder of the model. -/
def freshDecoder : Model → DecoderBase
  | .RS32 => RS32.DecoderRS32 baseDecoder
  | .RSBP => RSBP.DecoderRSBP baseDecoder

/-- The 16-bit field, as the host reads it, that carries `n` in big-endian order. -/
def be16 (n : Nat) : U16 :=
  ⟨(n % 256 * 256 + n / 256 % 256) % 65536, Nat.mod_lt _ (by decide)⟩

/-- A block with a valid identifier, the given azimuth, and in every channel the given
raw distance and intensity 128. -/
def blockAt (azi dist : Nat) : MsopBlock :=
  { id := 0xEEFF, azimuth := be16 azi
    channels := fun _ => { distance := be16 dist, intensity := 128 } }

/-- A block with a valid identifier, azimuth 9000 (90 degrees), and in every channel the
raw distance 2000 (10 m) and intensity 128. -/
def sampleBlock : MsopBlock := blockAt 9000 2000

def sampleHeader : RSMsopHeader :=
  { id := 0xA050A55A0A05AA55
    timestamp := { year := 20, month := 1, day := 1, hour := 0, minute := 0, second := 0,
                   ms := 0, us := 0 }
    temp_raw := 0 }

/-- An MSOP packet with valid magic and twelve valid blocks. -/
def samplePkt : MsopPkt :=
  { header := sampleHeader, blocks := fun _ => sampleBlock }

/-- An MSOP packet with valid magic and twelve valid blocks of the given azimuth and raw
distance. -/
def pktAt (azi dist : Nat) : MsopPkt :=
  { header := sampleHeader, blocks := fun _ => blockAt azi dist }

/-- The sample MSOP packet with the identifier of block 3 overwritten. -/
def pktBadBlock3 : MsopPkt :=
  { header := sampleHeader
    blocks := fun b => if b.val = 3 then { sampleBlock with id := 0 } else sampleBlock }

/-- The sample MSOP packet with a wrong packet magic. -/
def pktBadMagic : MsopPkt :=
  { header := { sampleHeader with id := 0 }, blocks := fun _ => sampleBlock }

/-- A DIFOP packet with valid magic, the given `return_mode`, the rpm `r` in big-endian
order, and the given bytes in every 3-byte group of both calibration regions. -/
def sampleDifop (mode : U8) (r : Nat) (b0 b1 b2 : U8) : DifopPkt :=
  { id := 0x555511115A00FFA5, rpm := be16 r, return_mode := mode
    pitch_cali := fun i => if i.val % 3 = 0 then b0 else if i.val % 3 = 1 then b1 else b2
    yaw_cali := fun i => if i.val % 3 = 0 then b0 else if i.val % 3 = 1 then b1 else b2 }

/-- A decoder whose calibration has been loaded: the flag is set and the lists hold one
and two degrees. -/
def loadedDecoder : DecoderBase :=
  { baseDecoder with
    difop_flag_ := true, vert_angle_list_ := fun _ => 100, hori_angle_list_ := fun _ => 200 }

/-- A DIFOP packet with valid magic, `return_mode = 0x01`, rpm 600, in which every 3-byte
group of both calibration regions is `{2, 1, 0}` (sign byte 2, magnitude 256) except the
pitch group of channel 0, whose sign byte is `s0`. -/
def difopSign (s0 : U8) : DifopPkt :=
  { id := 0x555511115A00FFA5, rpm := be16 600, return_mode := 1
    pitch_cali := fun i =>
      if i.val = 0 then s0 else if i.val % 3 = 0 then 2 else if i.val % 3 = 1 then 1 else 0
    yaw_cali := fun i => if i.val % 3 = 0 then 2 else if i.val % 3 = 1 then 1 else 0 }

/-- An MSOP packet with valid magic and twelve valid blocks, block `b` with azimuth
`100 * b` (one degree per block), and in every channel the raw distance 2000. -/
def pktRamp : MsopPkt :=
  { header := sampleHeader, blocks := fun b => blockAt (100 * b.val) 2000 }

/-- A decoder that `DecoderBase(param)` has built from a configuration whose
`max_distance` (0.2) lies below both models' lower hard limits. -/
def lowMaxDecoder : DecoderBase :=
  { baseDecoder with
    param_ := { max_distance := 2 / 10, min_distance := 1 / 20, start_angle := 0,
                end_angle := 360, use_lidar_clock := false } }

/-- The decoder with both lookup tables cut down to the entries they have. -/
def restrictTables (s : DecoderBase) : DecoderBase :=
  { s with cos_lookup_table_ := restrictTable s.cos_lookup_table_
           sin_lookup_table_ := restrictTable s.sin_lookup_table_ }

/-- The decoder with its echo mode replaced, all other members equal. -/
def withEcho (s : DecoderBase) (e : RSEchoMode) : DecoderBase :=
  { s with echo_mode_ := e }

/-- A decoder that `DecoderBase(param)` has built from a configuration whose distance
window `[1, 90]` lies inside the hard limits of both models. -/
def insideDecoder : DecoderBase :=
  { baseDecoder with
    param_ := { max_distance := 90, min_distance := 1, start_angle := 0,
                end_angle := 360, use_lidar_clock := false } }

/-- The azimuth `A_b` of block `b`, read big-endian. -/
def blockAzimuth (pkt : MsopPkt) (b : Fin 12) : Int :=
  (RS_SWAP_SHORT (pkt.blocks b).azimuth : Int)

/-- An MSOP packet with valid magic and twelve valid blocks whose azimuth starts at
359.5 degrees and rises by one degree per block, passing through 360 degrees between
block 0 and block 1; every channel has the raw distance 2000. -/
def pktWrap : MsopPkt :=
  { header := sampleHeader
    blocks := fun b => blockAt ((35950 + 100 * b.val) % 36000) 2000 }

/-! ## Lemmas on lists and loops -/

theorem foldl_emplace {α β : Type} (f : α → β) (l : List α) (vec : List β) :
    l.foldl (fun v c => v ++ [f c]) vec = vec ++ l.map f := by
  induction l generalizing vec with
  | nil => simp
  | cons a l ih => simp [ih]

theorem length_flatMap_const {α β : Type} (f : α → List β) (n : Nat)
    (hf : ∀ a, (f a).length = n) (l : List α) :
    (l.flatMap f).length = n * l.length := by
  induction l with
  | nil => simp
  | cons a l ih => simp [List.flatMap_cons, ih, hf, Nat.mul_succ, Nat.add_comm]

theorem getElem?_flatMap_const {α β : Type} (f : α → List β) (n : Nat)
    (hf : ∀ a, (f a).length = n) (l : List α) (i j : Nat) (hj : j < n) :
    (l.flatMap f)[n * i + j]? = (l[i]?).bind (fun a => (f a)[j]?) := by
  induction l generalizing i with
  | nil => simp
  | cons a l ih =>
    cases i with
    | zero =>
      simp only [List.flatMap_cons, Nat.mul_zero, Nat.zero_add]
      rw [List.getElem?_append_left (by rw [hf]; exact hj)]
      simp
    | succ i =>
      simp only [List.flatMap_cons]
      rw [List.getElem?_append_right (by rw [hf, Nat.mul_succ]; omega)]
      have : n * (i + 1) + j - (f a).length = n * i + j := by
        rw [hf, Nat.mul_succ]; omega
      rw [this, ih]
      simp

theorem takeWhile_length_le {α : Type} (p : α → Bool) (l : List α) :
    (l.takeWhile p).length ≤ l.length := by
  induction l with
  | nil => simp
  | cons a l ih =>
    rw [List.takeWhile_cons]
    split
    · simpa using ih
    · simp

theorem takeWhile_getElem? {α : Type} (p : α → Bool) (l : List α) (i : Nat)
    (hi : i < (l.takeWhile p).length) :
    (l.takeWhile p)[i]? = l[i]? ∧ ∀ a, l[i]? = some a → p a = true := by
  induction l generalizing i with
  | nil => simp at hi
  | cons a l ih =>
    rw [List.takeWhile_cons] at hi ⊢
    by_cases hp : p a = true
    · simp only [hp, if_true] at hi ⊢
      cases i with
      | zero => simp [hp]
      | succ i =>
        simp only [List.length_cons, Nat.add_lt_add_iff_right] at hi
        simpa using ih i hi
    · simp [hp] at hi

theorem takeWhile_stop {α : Type} (p : α → Bool) (l : List α)
    (h : (l.takeWhile p).length < l.length) :
    ∀ a, l[(l.takeWhile p).length]? = some a → p a = false := by
  induction l with
  | nil => simp at h
  | cons a l ih =>
    rw [List.takeWhile_cons] at h ⊢
    by_cases hp : p a = true
    · simp only [hp, if_true, List.length_cons, Nat.add_lt_add_iff_right] at h ⊢
      simpa using ih h
    · simp [hp]

theorem getElem?_finRange_fin {n : Nat} (i : Fin n) : (List.finRange n)[i.val]? = some i := by
  rw [List.getElem?_eq_getElem (by simp)]
  simp

/-! ## The block loop -/

theorem rs32_blockLoop_eq (s : DecoderBase) (pkt : MsopPkt) (l : List (Fin 12))
    (vec : List Point) :
    RS32.blockLoop s pkt l vec = vec ++
      (l.takeWhile (fun b => decide ((pkt.blocks b).id = RS32.RS32_BLOCK_ID))).flatMap
        (fun b => (List.finRange 32).map (RS32.channelPoint s pkt b)) := by
  induction l generalizing vec with
  | nil => simp [RS32.blockLoop]
  | cons b l ih =>
    by_cases h : (pkt.blocks b).id = RS32.RS32_BLOCK_ID
    · simp [RS32.blockLoop, h, ih, foldl_emplace, List.takeWhile_cons]
    · simp [RS32.blockLoop, h, List.takeWhile_cons]

theorem rsbp_blockLoop_eq (s : DecoderBase) (pkt : MsopPkt) (l : List (Fin 12))
    (vec : List Point) :
    RSBP.blockLoop s pkt l vec = vec ++
      (l.takeWhile (fun b => decide ((pkt.blocks b).id = RSBP.RSBP_BLOCK_ID))).flatMap
        (fun b => (List.finRange 32).map (RSBP.channelPoint s pkt b)) := by
  induction l generalizing vec with
  | nil => simp [RSBP.blockLoop]
  | cons b l ih =>
    by_cases h : (pkt.blocks b).id = RSBP.RSBP_BLOCK_ID
    · simp [RSBP.blockLoop, h, ih, foldl_emplace, List.takeWhile_cons]
    · simp [RSBP.blockLoop, h, List.takeWhile_cons]

/-- With a valid packet magic the call returns `DECODE_OK` and the buffer afterwards is
the buffer before followed by the points of the decoded blocks, computed from the
decoder as it was before the call. -/
theorem decode_msop_valid (m : Model) (ops : DecoderBaseOps) (s : DecoderBase)
    (pkt : MsopPkt) (vec : List Point) (az : Int) (h : pkt.header.id = m.MSOP_ID) :
    (decode_msop m ops s pkt vec az).result = RSDecoderResult.DECODE_OK ∧
    (decode_msop m ops s pkt vec az).vec = vec ++ decodedPoints m s pkt := by
  cases m
  · simp only [Model.MSOP_ID] at h
    simp only [decode_msop, RS32.decodeMsopPkt, h, ne_eq, not_true_eq_false, if_false,
      rs32_blockLoop_eq, true_and]
    by_cases ht : s.trigger_flag_ = true <;> by_cases hc : s.param_.use_lidar_clock = true <;>
      simp only [ht, hc, if_true, if_false] <;> rfl
  · simp only [Model.MSOP_ID] at h
    simp only [decode_msop, RSBP.decodeMsopPkt, h, ne_eq, not_true_eq_false, if_false,
      rsbp_blockLoop_eq, true_and]
    by_cases ht : s.trigger_flag_ = true <;> by_cases hc : s.param_.use_lidar_clock = true <;>
      simp only [ht, hc, if_true, if_false] <;> rfl

theorem decodedPoints_length (m : Model) (s : DecoderBase) (pkt : MsopPkt) :
    (decodedPoints m s pkt).length = 32 * validBlocks m pkt := by
  unfold decodedPoints validBlocks
  exact length_flatMap_const _ 32 (fun a => by simp) _

theorem validBlocks_le (m : Model) (pkt : MsopPkt) : validBlocks m pkt ≤ 12 := by
  have := takeWhile_length_le (fun b => decide ((pkt.blocks b).id = m.BLOCK_ID))
    (List.finRange 12)
  simpa [validBlocks] using this

theorem validBlocks_valid (m : Model) (pkt : MsopPkt) (b : Fin 12)
    (hb : b.val < validBlocks m pkt) : (pkt.blocks b).id = m.BLOCK_ID := by
  have h := (takeWhile_getElem? (fun b => decide ((pkt.blocks b).id = m.BLOCK_ID))
    (List.finRange 12) b.val hb).2 b (getElem?_finRange_fin b)
  simpa using h

theorem validBlocks_stop (m : Model) (pkt : MsopPkt) (h : validBlocks m pkt < 12) :
    (pkt.blocks ⟨validBlocks m pkt, h⟩).id ≠ m.BLOCK_ID := by
  have h2 := takeWhile_stop (fun b => decide ((pkt.blocks b).id = m.BLOCK_ID))
    (List.finRange 12) (by simpa [validBlocks] using h) ⟨validBlocks m pkt, h⟩
    (getElem?_finRange_fin (⟨validBlocks m pkt, h⟩ : Fin 12))
  simpa using h2

theorem validBlocks_eq_12_iff (m : Model) (pkt : MsopPkt) :
    validBlocks m pkt = 12 ↔ ∀ b : Fin 12, (pkt.blocks b).id = m.BLOCK_ID := by
  constructor
  · intro h b
    exact validBlocks_valid m pkt b (by rw [h]; exact b.isLt)
  · intro h
    by_contra hne
    have hlt : validBlocks m pkt < 12 := lt_of_le_of_ne (validBlocks_le m pkt) hne
    exact validBlocks_stop m pkt hlt (h _)

/-- The point emitted for channel `c` of a decoded block `b` sits at offset
`32 * b + c` among the appended points. -/
theorem decodedPoints_getElem? (m : Model) (s : DecoderBase) (pkt : MsopPkt) (b : Fin 12)
    (c : Fin 32) (hb : b.val < validBlocks m pkt) :
    (decodedPoints m s pkt)[32 * b.val + c.val]? = some (m.channelPoint s pkt b c) := by
  unfold decodedPoints
  rw [getElem?_flatMap_const _ 32 (fun a => by simp) _ b.val c.val c.isLt]
  rw [(takeWhile_getElem? _ (List.finRange 12) b.val hb).1, getElem?_finRange_fin]
  simp [List.getElem?_map, getElem?_finRange_fin]

theorem mem_decodedPoints (m : Model) (s : DecoderBase) (pkt : MsopPkt) (p : Point)
    (hp : p ∈ decodedPoints m s pkt) :
    ∃ b c, (pkt.blocks b).id = m.BLOCK_ID ∧ p = m.channelPoint s pkt b c := by
  unfold decodedPoints at hp
  rw [List.mem_flatMap] at hp
  obtain ⟨b, hb, hp⟩ := hp
  rw [List.mem_map] at hp
  obtain ⟨c, -, hc⟩ := hp
  have := (List.mem_takeWhile_imp hb)
  exact ⟨b, c, by simpa using this, hc.symm⟩

theorem block_id_eq (m : Model) : m.BLOCK_ID = 0xEEFF := by
  cases m <;> rfl

/-- With a wrong packet magic the call returns `WRONG_PKT_HEADER` and leaves the buffer
and the decoder as they were. -/
theorem decode_msop_invalid (m : Model) (ops : DecoderBaseOps) (s : DecoderBase)
    (pkt : MsopPkt) (vec : List Point) (az : Int) (h : pkt.header.id ≠ m.MSOP_ID) :
    (decode_msop m ops s pkt vec az).result = RSDecoderResult.WRONG_PKT_HEADER ∧
    (decode_msop m ops s pkt vec az).vec = vec ∧
    (decode_msop m ops s pkt vec az).decoder = s := by
  cases m
  · simp only [Model.MSOP_ID] at h
    simp [decode_msop, RS32.decodeMsopPkt, h]
  · simp only [Model.MSOP_ID] at h
    simp [decode_msop, RSBP.decodeMsopPkt, h]

theorem validBlocks_pktBadBlock3 (m : Model) : validBlocks m pktBadBlock3 = 3 := by
  cases m <;> decide

/-! ## Packet validation and output length -/

/-- C1: for both models and every MSOP packet with a valid 8-byte packet magic,
`decode_msop` returns `DECODE_OK` and the buffer afterwards is the buffer before (left
untouched) followed by exactly `32 * k` new points, where `k ≤ 12` is the number of
leading blocks whose block magic is `0xEEFF`: every block before index `k` has the magic
and, when `k < 12`, block `k` is the first that has not.  Exactly 384 points are appended
if and only if all 12 block magics match. -/
theorem msop_appends_leading_valid_blocks (m : Model) (ops : DecoderBaseOps)
    (s : DecoderBase) (pkt : MsopPkt) (vec : List Point) (az : Int)
    (h : pkt.header.id = m.MSOP_ID) :
    (decode_msop m ops s pkt vec az).result = RSDecoderResult.DECODE_OK ∧
    ∃ new : List Point,
      (decode_msop m ops s pkt vec az).vec = vec ++ new ∧
      new.length = 32 * validBlocks m pkt ∧
      validBlocks m pkt ≤ 12 ∧
      (∀ b : Fin 12, b.val < validBlocks m pkt → (pkt.blocks b).id = 0xEEFF) ∧
      (∀ hk : validBlocks m pkt < 12, (pkt.blocks ⟨validBlocks m pkt, hk⟩).id ≠ 0xEEFF) ∧
      (new.length = 32 * 12 ↔ ∀ b : Fin 12, (pkt.blocks b).id = 0xEEFF) := by
  obtain ⟨hr, hv⟩ := decode_msop_valid m ops s pkt vec az h
  refine ⟨hr, decodedPoints m s pkt, hv, decodedPoints_length m s pkt, validBlocks_le m pkt,
    ?_, ?_, ?_⟩
  · intro b hb
    rw [← block_id_eq m]
    exact validBlocks_valid m pkt b hb
  · intro hk
    rw [← block_id_eq m]
    exact validBlocks_stop m pkt hk
  · rw [decodedPoints_length, ← block_id_eq m, ← validBlocks_eq_12_iff]
    omega

/-- C1, scenario S2: a packet with valid magic whose block 3 has a wrong block magic is
decoded by a fresh RS32 decoder with `DECODE_OK` and the buffer grows by `32 * 3 = 96`
points. -/
theorem msop_appends_leading_valid_blocks_witness :
    pktBadBlock3.header.id = Model.RS32.MSOP_ID ∧
      (decode_msop Model.RS32 sampleOps (freshDecoder Model.RS32) pktBadBlock3 [] 0).result
        = RSDecoderResult.DECODE_OK ∧
      (decode_msop Model.RS32 sampleOps (freshDecoder Model.RS32) pktBadBlock3 [] 0).vec.length
        = 96 := by
  have hid : pktBadBlock3.header.id = Model.RS32.MSOP_ID := by decide
  obtain ⟨hr, new, hv, hl, -⟩ :=
    msop_appends_leading_valid_blocks Model.RS32 sampleOps (freshDecoder Model.RS32)
      pktBadBlock3 [] 0 hid
  refine ⟨hid, hr, ?_⟩
  rw [hv, List.nil_append, hl, validBlocks_pktBadBlock3]

/-- C2: for both models and both entry points, a packet whose 8-byte magic differs from
the model's MSOP identifier (for `decode_msop`) or DIFOP identifier (for `decode_difop`)
makes the call return `WRONG_PKT_HEADER`, leaves the caller's point buffer unchanged and
leaves the decoder record, hence every field of it, equal to what it was. -/
theorem wrong_magic_rejected (m : Model) :
    (∀ (ops : DecoderBaseOps) (s : DecoderBase) (pkt : MsopPkt) (vec : List Point) (az : Int),
      pkt.header.id ≠ m.MSOP_ID →
        (decode_msop m ops s pkt vec az).result = RSDecoderResult.WRONG_PKT_HEADER ∧
        (decode_msop m ops s pkt vec az).vec = vec ∧
        (decode_msop m ops s pkt vec az).decoder = s) ∧
    (∀ (s : DecoderBase) (pkt : DifopPkt),
      pkt.id ≠ m.DIFOP_ID →
        decode_difop m s pkt = some (RSDecoderResult.WRONG_PKT_HEADER, s)) := by
  refine ⟨fun ops s pkt vec az h => decode_msop_invalid m ops s pkt vec az h, ?_⟩
  intro s pkt h
  cases m
  · simp only [Model.DIFOP_ID] at h
    simp [decode_difop, RS32.decodeDifopPkt, h]
  · simp only [Model.DIFOP_ID] at h
    simp [decode_difop, RSBP.decodeDifopPkt, h]

/-- C2, scenario S1: the sample MSOP packet with a wrong magic, and a DIFOP packet with a
wrong magic, are rejected by the RS32 decoder with buffer and decoder unchanged. -/
theorem wrong_magic_rejected_witness :
    (pktBadMagic.header.id ≠ Model.RS32.MSOP_ID ∧
      (decode_msop Model.RS32 sampleOps baseDecoder pktBadMagic [] 0).result
        = RSDecoderResult.WRONG_PKT_HEADER ∧
      (decode_msop Model.RS32 sampleOps baseDecoder pktBadMagic [] 0).vec = [] ∧
      (decode_msop Model.RS32 sampleOps baseDecoder pktBadMagic [] 0).decoder = baseDecoder) ∧
    (({ sampleDifop 0 600 0 0 0 with id := 0 } : DifopPkt).id ≠ Model.RS32.DIFOP_ID ∧
      decode_difop Model.RS32 baseDecoder { sampleDifop 0 600 0 0 0 with id := 0 }
        = some (RSDecoderResult.WRONG_PKT_HEADER, baseDecoder)) :=
  ⟨⟨by decide, (wrong_magic_rejected Model.RS32).1 sampleOps baseDecoder pktBadMagic [] 0
      (by decide)⟩,
   ⟨by decide, (wrong_magic_rejected Model.RS32).2 baseDecoder _ (by decide)⟩⟩

/-- C3, as stated, fails: the packet with valid magic whose block 3 has a wrong block
magic is not answered with `WRONG_PKT_HEADER`, yet the buffer has not grown by 384. -/
theorem msop_ok_growth_not_384 :
    (decode_msop Model.RS32 sampleOps baseDecoder pktBadBlock3 [] 0).result
      ≠ RSDecoderResult.WRONG_PKT_HEADER ∧
    (decode_msop Model.RS32 sampleOps baseDecoder pktBadBlock3 [] 0).vec.length
      ≠ ([] : List Point).length + 32 * 12 := by
  obtain ⟨hr, hv⟩ :=
    decode_msop_valid Model.RS32 sampleOps baseDecoder pktBadBlock3 [] 0 (by decide)
  rw [hr, hv, List.nil_append, decodedPoints_length, validBlocks_pktBadBlock3]
  decide

/-- C3 (amended): for both models and every MSOP packet, whenever `decode_msop` returns
anything other than `WRONG_PKT_HEADER` the buffer afterwards is the buffer before
followed by exactly `32 * k` new entries, where `k ≤ 12` is the number of leading blocks
whose block magic is `0xEEFF` (all 32 channels of a decoded block are present); the
growth is exactly `32 * 12 = 384` if and only if all 12 block magics match. -/
theorem msop_ok_growth (m : Model) (ops : DecoderBaseOps) (s : DecoderBase)
    (pkt : MsopPkt) (vec : List Point) (az : Int)
    (h : (decode_msop m ops s pkt vec az).result ≠ RSDecoderResult.WRONG_PKT_HEADER) :
    (∃ new : List Point, (decode_msop m ops s pkt vec az).vec = vec ++ new) ∧
    (decode_msop m ops s pkt vec az).vec.length = vec.length + 32 * validBlocks m pkt ∧
    validBlocks m pkt ≤ 12 ∧
    ((decode_msop m ops s pkt vec az).vec.length = vec.length + 32 * 12 ↔
      ∀ b : Fin 12, (pkt.blocks b).id = 0xEEFF) := by
  have hid : pkt.header.id = m.MSOP_ID := by
    by_contra hne
    exact h (decode_msop_invalid m ops s pkt vec az hne).1
  obtain ⟨-, hv⟩ := decode_msop_valid m ops s pkt vec az hid
  have hlen : (decode_msop m ops s pkt vec az).vec.length
      = vec.length + 32 * validBlocks m pkt := by
    rw [hv, List.length_append, decodedPoints_length]
  refine ⟨⟨_, hv⟩, hlen, validBlocks_le m pkt, ?_⟩
  rw [hlen, ← block_id_eq m, ← validBlocks_eq_12_iff]
  omega

/-- C3 (amended), at the sample packet for the RSBP decoder: the call does not return
`WRONG_PKT_HEADER`, and the buffer grows by 384 exactly when all block magics match. -/
theorem msop_ok_growth_witness :
    (decode_msop Model.RSBP sampleOps baseDecoder samplePkt [] 0).result
      ≠ RSDecoderResult.WRONG_PKT_HEADER ∧
    ((decode_msop Model.RSBP sampleOps baseDecoder samplePkt [] 0).vec.length
      = ([] : List Point).length + 32 * 12 ↔
      ∀ b : Fin 12, (samplePkt.blocks b).id = 0xEEFF) := by
  have hr : (decode_msop Model.RSBP sampleOps baseDecoder samplePkt [] 0).result
      ≠ RSDecoderResult.WRONG_PKT_HEADER := by
    rw [(decode_msop_valid Model.RSBP sampleOps baseDecoder samplePkt [] 0 (by decide)).1]
    decide
  exact ⟨hr, (msop_ok_growth Model.RSBP sampleOps baseDecoder samplePkt [] 0 hr).2.2.2⟩

/-! ## The channel loop body -/

/-- Both channel loops compute the same point from the same quantities: the sentinel of
the model when the admission test fails, and otherwise the projection with the model's
translation, the raw intensity byte and the model's ring. -/
theorem channelPoint_eq (m : Model) (s : DecoderBase) (pkt : MsopPkt) (b : Fin 12)
    (c : Fin 32) [Decidable (admitted m s pkt b c)] :
    m.channelPoint s pkt b c =
      if admitted m s pkt b c then
        { x := CFloat.fin
            (((rawDistance pkt b c : Int) : ℚ) * RS_RESOLUTION *
                s.cos_lookup_table_
                  (Int.tmod (Int.tmod (toInt (s.vert_angle_list_ c)) 36000 + 36000) 36000) *
                s.cos_lookup_table_ (azimuthCalibration s (channelAzimuth m s pkt b c) c) +
              m.RX * s.cos_lookup_table_
                (Int.tmod (toInt (channelAzimuth m s pkt b c + 36000)) 36000)),
          y := CFloat.fin
            (-(((rawDistance pkt b c : Int) : ℚ) * RS_RESOLUTION) *
                s.cos_lookup_table_
                  (Int.tmod (Int.tmod (toInt (s.vert_angle_list_ c)) 36000 + 36000) 36000) *
                s.sin_lookup_table_ (azimuthCalibration s (channelAzimuth m s pkt b c) c) -
              m.RX * s.sin_lookup_table_
                (Int.tmod (toInt (channelAzimuth m s pkt b c + 36000)) 36000)),
          z := CFloat.fin
            (((rawDistance pkt b c : Int) : ℚ) * RS_RESOLUTION *
                s.sin_lookup_table_
                  (Int.tmod (Int.tmod (toInt (s.vert_angle_list_ c)) 36000 + 36000) 36000) +
              m.RZ),
          intensity := CFloat.fin (((pkt.blocks b).channels c).intensity.val : ℚ),
          ring := m.ring c }
      else m.rejected := by
  cases m
  · simp only [Model.channelPoint, RS32.channelPoint]
    by_cases h : admitted Model.RS32 s pkt b c
    · rw [if_pos h]
      split
      · rfl
      · rename_i hc
        exact absurd h hc
    · rw [if_neg h]
      split
      · rename_i hc
        exact absurd hc h
      · rfl
  · simp only [Model.channelPoint, RSBP.channelPoint]
    by_cases h : admitted Model.RSBP s pkt b c
    · rw [if_pos h]
      split
      · rfl
      · rename_i hc
        exact absurd h hc
    · rw [if_neg h]
      split
      · rename_i hc
        exact absurd hc h
      · rfl

/-! ## Integer remainders, truncation and the table indices -/

theorem neg_lt_tmod (a : Int) : -36000 < Int.tmod a 36000 := by
  rcases le_or_lt 0 a with h | h
  · have := Int.tmod_nonneg 36000 h
    omega
  · have h1 := Int.tmod_def a 36000
    have h2 : 0 ≤ -a := by omega
    have h3 : Int.tdiv a 36000 = -(Int.tdiv (-a) 36000) := by
      rw [Int.neg_tdiv, neg_neg]
    have h4 := Int.tdiv_eq_ediv h2 (show (0 : Int) ≤ 36000 by norm_num)
    omega

theorem tmod_nonpos (a : Int) (h : a ≤ 0) : Int.tmod a 36000 ≤ 0 := by
  have h1 := Int.tmod_def a 36000
  have h2 : 0 ≤ -a := by omega
  have h3 : Int.tdiv a 36000 = -(Int.tdiv (-a) 36000) := by
    rw [Int.neg_tdiv, neg_neg]
  have h4 := Int.tdiv_eq_ediv h2 (show (0 : Int) ≤ 36000 by norm_num)
  omega

/-- The wrap `((x % 36000) + 36000) % 36000` with the C remainder lands in `[0, 36000)` and
is congruent to `x` modulo 36000. -/
theorem wrap_spec (x : Int) :
    0 ≤ Int.tmod (Int.tmod x 36000 + 36000) 36000 ∧
    Int.tmod (Int.tmod x 36000 + 36000) 36000 < 36000 ∧
    Int.tmod (Int.tmod x 36000 + 36000) 36000 = x % 36000 := by
  have h1 := neg_lt_tmod x
  have h2 : 0 ≤ Int.tmod x 36000 + 36000 := by omega
  have h3 := Int.tmod_eq_emod h2 (show (0 : Int) ≤ 36000 by norm_num)
  have h4 := Int.tmod_def x 36000
  omega

theorem toInt_of_nonneg (q : ℚ) (h : 0 ≤ q) : toInt q = ⌊q⌋ := by
  unfold toInt
  rw [Rat.floor_def, Int.tdiv_eq_ediv (Rat.num_nonneg.mpr h) (by positivity)]

theorem toInt_intCast (n : Int) : toInt (n : ℚ) = n := by
  simp [toInt]

theorem aziDiff_bounds (m : Model) (s : DecoderBase) (pkt : MsopPkt) (b : Fin 12) :
    -36000 < m.aziDiff s pkt b ∧ m.aziDiff s pkt b < 36000 := by
  cases m
  · simp only [Model.aziDiff, RS32.aziDiff]
    split_ifs <;> exact ⟨neg_lt_tmod _, Int.tmod_lt_of_pos _ (by norm_num)⟩
  · simp only [Model.aziDiff, RSBP.aziDiff]
    split_ifs <;> exact ⟨neg_lt_tmod _, Int.tmod_lt_of_pos _ (by norm_num)⟩

theorem channelAzimuth_lower (m : Model) (s : DecoderBase) (pkt : MsopPkt) (b : Fin 12)
    (c : Fin 32) : -32400 ≤ channelAzimuth m s pkt b c := by
  unfold channelAzimuth
  have hd : (-36000 : ℚ) < (m.aziDiff s pkt b : ℚ) := by
    have := (aziDiff_bounds m s pkt b).1
    exact_mod_cast this
  have hk : ((c.val % 16 : Nat) : ℚ) ≤ 15 := by
    have : c.val % 16 ≤ 15 := by omega
    exact_mod_cast this
  have hk0 : (0 : ℚ) ≤ ((c.val % 16 : Nat) : ℚ) := by positivity
  have hA : (0 : ℚ) ≤ (((RS_SWAP_SHORT (pkt.blocks b).azimuth : Nat) : Int) : ℚ) := by
    positivity
  have hprod : (-36000 : ℚ) * 15 ≤ (m.aziDiff s pkt b : ℚ) * ((c.val % 16 : Nat) : ℚ) := by
    nlinarith
  have e : (m.aziDiff s pkt b : ℚ) * 3 * ((c.val % 16 : Nat) : ℚ) / 50
      = (m.aziDiff s pkt b : ℚ) * ((c.val % 16 : Nat) : ℚ) * (3 / 50) := by ring
  rw [e]
  linarith

/-- The index `angle_horiz` that both channel loops compute from the azimuth before
calibration lies in `[0, 36000)` and is the floor of that azimuth modulo 36000. -/
theorem angle_horiz_spec (m : Model) (s : DecoderBase) (pkt : MsopPkt) (b : Fin 12)
    (c : Fin 32) :
    0 ≤ Int.tmod (toInt (channelAzimuth m s pkt b c + 36000)) 36000 ∧
    Int.tmod (toInt (channelAzimuth m s pkt b c + 36000)) 36000 < 36000 ∧
    Int.tmod (toInt (channelAzimuth m s pkt b c + 36000)) 36000
      = ⌊channelAzimuth m s pkt b c⌋ % 36000 := by
  have hl := channelAzimuth_lower m s pkt b c
  have h0 : (0 : ℚ) ≤ channelAzimuth m s pkt b c + 36000 := by linarith
  have hf : toInt (channelAzimuth m s pkt b c + 36000)
      = ⌊channelAzimuth m s pkt b c⌋ + 36000 := by
    rw [toInt_of_nonneg _ h0]
    simp
  have hfl : 0 ≤ ⌊channelAzimuth m s pkt b c⌋ + 36000 := by
    rw [← hf, toInt_of_nonneg _ h0]
    exact Int.floor_nonneg.mpr h0
  rw [hf, Int.tmod_eq_emod hfl (by norm_num)]
  omega

/-! ## The filter gate -/

theorem rejected_isSentinel (m : Model) : m.rejected.isSentinel := by
  cases m <;> exact ⟨rfl, rfl, rfl⟩

/-- The emitted point is the model's sentinel exactly when the admission test fails, and
then all three coordinates are `NAN`; when the test passes no coordinate is `NAN`. -/
theorem channelPoint_cases (m : Model) (s : DecoderBase) (pkt : MsopPkt) (b : Fin 12)
    (c : Fin 32) :
    (admitted m s pkt b c ∧
      (m.channelPoint s pkt b c).x ≠ CFloat.NAN ∧ (m.channelPoint s pkt b c).y ≠ CFloat.NAN ∧
      (m.channelPoint s pkt b c).z ≠ CFloat.NAN) ∨
    (¬ admitted m s pkt b c ∧ m.channelPoint s pkt b c = m.rejected) := by
  classical
  rw [channelPoint_eq]
  by_cases h : admitted m s pkt b c
  · left
    rw [if_pos h]
    exact ⟨h, by simp, by simp, by simp⟩
  · right
    rw [if_neg h]
    exact ⟨h, rfl⟩

/-- When the window flag holds exactly when `start_angle_ ≤ end_angle_`, the admission
test of the code is the distance window (both bounds included) together with the closed
azimuth interval, or with the two tails when the window wraps. -/
theorem admitted_iff (m : Model) (s : DecoderBase) (pkt : MsopPkt) (b : Fin 12) (c : Fin 32)
    (hflag : s.angle_flag_ = true ↔ s.start_angle_ ≤ s.end_angle_) :
    admitted m s pkt b c ↔
      (s.param_.min_distance ≤ (rawDistance pkt b c : ℚ) * (5 / 1000) ∧
        (rawDistance pkt b c : ℚ) * (5 / 1000) ≤ s.param_.max_distance) ∧
      ((s.start_angle_ ≤ s.end_angle_ ∧
          s.start_angle_ ≤ azimuthCalibration s (channelAzimuth m s pkt b c) c ∧
          azimuthCalibration s (channelAzimuth m s pkt b c) c ≤ s.end_angle_) ∨
       (s.start_angle_ > s.end_angle_ ∧
          (azimuthCalibration s (channelAzimuth m s pkt b c) c ≥ s.start_angle_ ∨
           azimuthCalibration s (channelAzimuth m s pkt b c) c ≤ s.end_angle_))) := by
  unfold admitted
  simp only [RS_RESOLUTION, Int.cast_natCast, ge_iff_le, gt_iff_lt]
  by_cases hle : s.start_angle_ ≤ s.end_angle_
  · have hf : s.angle_flag_ = true := hflag.mpr hle
    have hnl : ¬ s.end_angle_ < s.start_angle_ := by omega
    simp only [hf, hle, hnl, true_and, false_and, or_false, Bool.true_eq_false]
    tauto
  · have hf : s.angle_flag_ = false := by
      cases hfl : s.angle_flag_
      · rfl
      · exact absurd (hflag.mp hfl) hle
    have hlt : s.end_angle_ < s.start_angle_ := by omega
    simp only [hf, hle, hlt, true_and, false_and, false_or, Bool.false_eq_true]
    tauto

theorem getElem?_append_offset {α : Type} (l₁ l₂ : List α) (i : Nat) :
    (l₁ ++ l₂)[l₁.length + i]? = l₂[i]? := by
  rw [List.getElem?_append_right (by omega)]
  simp

/-- The point at offset `32 * b + c` behind the old buffer is the point of channel `c`
of the decoded block `b`. -/
theorem decode_msop_getElem? (m : Model) (ops : DecoderBaseOps) (s : DecoderBase)
    (pkt : MsopPkt) (vec : List Point) (az : Int) (b : Fin 12) (c : Fin 32)
    (hid : pkt.header.id = m.MSOP_ID) (hb : b.val < validBlocks m pkt) :
    (decode_msop m ops s pkt vec az).vec[vec.length + (32 * b.val + c.val)]?
      = some (m.channelPoint s pkt b c) := by
  rw [(decode_msop_valid m ops s pkt vec az hid).2, getElem?_append_offset,
    decodedPoints_getElem? m s pkt b c hb]

/-- C4: for both models, every decoder in which the window flag `angle_flag_` holds
exactly when `start_angle_ ≤ end_angle_`, and every channel `c` of every decoded block `b`
of a packet with valid magic: a point is emitted for the channel (at offset `32 * b + c`
behind the old buffer), and it is non-sentinel if and only if
`min_distance ≤ d ≤ max_distance` with `d = raw_distance × 0.005` (both bounds included)
and the calibrated azimuth `α` satisfies `start_angle ≤ α ≤ end_angle` when
`start_angle ≤ end_angle`, or `α ≥ start_angle ∨ α ≤ end_angle` when
`start_angle > end_angle`; otherwise it is the model's sentinel point. -/
theorem point_admitted_iff (m : Model) (ops : DecoderBaseOps) (s : DecoderBase)
    (pkt : MsopPkt) (vec : List Point) (az : Int) (b : Fin 12) (c : Fin 32)
    (hflag : s.angle_flag_ = true ↔ s.start_angle_ ≤ s.end_angle_)
    (hid : pkt.header.id = m.MSOP_ID) (hb : b.val < validBlocks m pkt) :
    ∃ p : Point,
      (decode_msop m ops s pkt vec az).vec[vec.length + (32 * b.val + c.val)]? = some p ∧
      (¬ p.isSentinel ↔
        (s.param_.min_distance ≤ (rawDistance pkt b c : ℚ) * (5 / 1000) ∧
          (rawDistance pkt b c : ℚ) * (5 / 1000) ≤ s.param_.max_distance) ∧
        ((s.start_angle_ ≤ s.end_angle_ ∧
            s.start_angle_ ≤ azimuthCalibration s (channelAzimuth m s pkt b c) c ∧
            azimuthCalibration s (channelAzimuth m s pkt b c) c ≤ s.end_angle_) ∨
         (s.start_angle_ > s.end_angle_ ∧
            (azimuthCalibration s (channelAzimuth m s pkt b c) c ≥ s.start_angle_ ∨
             azimuthCalibration s (channelAzimuth m s pkt b c) c ≤ s.end_angle_)))) ∧
      (p.isSentinel → p = m.rejected) := by
  refine ⟨m.channelPoint s pkt b c, decode_msop_getElem? m ops s pkt vec az b c hid hb, ?_, ?_⟩
  · rw [← admitted_iff m s pkt b c hflag]
    rcases channelPoint_cases m s pkt b c with ⟨ha, hx, -, -⟩ | ⟨hna, hp⟩
    · exact ⟨fun _ => ha, fun _ hs => hx hs.1⟩
    · rw [hp]
      exact ⟨fun h => absurd (rejected_isSentinel m) h, fun h => absurd h hna⟩
  · intro hs
    rcases channelPoint_cases m s pkt b c with ⟨-, hx, -, -⟩ | ⟨-, hp⟩
    · exact absurd hs.1 hx
    · exact hp

theorem rejected_convention (m : Model) : m.sentinelConvention m.rejected := by
  cases m
  · exact rfl
  · exact ⟨rfl, rfl⟩

/-- C5: every point that `decode_msop` appends either has `x = y = z = NAN`, and then
follows the convention of the model (intensity `NAN` for RS32; intensity 0 and ring -1 for
RSBP), or has none of the three coordinates `NAN`.  For channel `c` of a decoded block `b`
the first case is that of a rejected point and the second that of an admitted point. -/
theorem coordinates_sentinel_together (m : Model) (ops : DecoderBaseOps) (s : DecoderBase)
    (pkt : MsopPkt) (vec : List Point) (az : Int) :
    ∃ new : List Point,
      (decode_msop m ops s pkt vec az).vec = vec ++ new ∧
      (∀ p ∈ new,
        (p.x = CFloat.NAN ∧ p.y = CFloat.NAN ∧ p.z = CFloat.NAN ∧ m.sentinelConvention p) ∨
        (p.x ≠ CFloat.NAN ∧ p.y ≠ CFloat.NAN ∧ p.z ≠ CFloat.NAN)) ∧
      (∀ (b : Fin 12) (c : Fin 32), pkt.header.id = m.MSOP_ID → b.val < validBlocks m pkt →
        ∃ p : Point, new[32 * b.val + c.val]? = some p ∧
          (¬ admitted m s pkt b c →
            p.x = CFloat.NAN ∧ p.y = CFloat.NAN ∧ p.z = CFloat.NAN ∧ m.sentinelConvention p) ∧
          (admitted m s pkt b c →
            p.x ≠ CFloat.NAN ∧ p.y ≠ CFloat.NAN ∧ p.z ≠ CFloat.NAN)) := by
  by_cases hid : pkt.header.id = m.MSOP_ID
  · refine ⟨decodedPoints m s pkt, (decode_msop_valid m ops s pkt vec az hid).2, ?_, ?_⟩
    · intro p hp
      obtain ⟨b, c, -, rfl⟩ := mem_decodedPoints m s pkt p hp
      rcases channelPoint_cases m s pkt b c with ⟨-, hx, hy, hz⟩ | ⟨-, hrej⟩
      · exact Or.inr ⟨hx, hy, hz⟩
      · left
        rw [hrej]
        exact ⟨(rejected_isSentinel m).1, (rejected_isSentinel m).2.1,
          (rejected_isSentinel m).2.2, rejected_convention m⟩
    · intro b c _ hb
      refine ⟨m.channelPoint s pkt b c, decodedPoints_getElem? m s pkt b c hb, ?_, ?_⟩
      · intro hna
        rcases channelPoint_cases m s pkt b c with ⟨ha, -⟩ | ⟨-, hrej⟩
        · exact absurd ha hna
        · rw [hrej]
          exact ⟨(rejected_isSentinel m).1, (rejected_isSentinel m).2.1,
            (rejected_isSentinel m).2.2, rejected_convention m⟩
      · intro ha
        rcases channelPoint_cases m s pkt b c with ⟨-, h⟩ | ⟨hna, -⟩
        · exact h
        · exact absurd ha hna
  · refine ⟨[], by rw [(decode_msop_invalid m ops s pkt vec az hid).2.1, List.append_nil],
      ?_, ?_⟩
    · intro p hp
      cases hp
    · intro b c h
      exact absurd h hid

/-! ## Evaluation at the sample data -/

theorem swap_be16 (n : Nat) (h : n < 65536) : RS_SWAP_SHORT (be16 n) = n := by
  have hy : n / 256 < 256 := by omega
  have h1 : n / 256 % 256 = n / 256 := Nat.mod_eq_of_lt hy
  have h2 : (n % 256 * 256 + n / 256) % 65536 = n % 256 * 256 + n / 256 :=
    Nat.mod_eq_of_lt (by omega)
  simp only [RS_SWAP_SHORT, be16, h1, h2]
  omega

theorem rawDistance_pktAt (azi dist : Nat) (h : dist < 65536) (b : Fin 12) (c : Fin 32) :
    rawDistance (pktAt azi dist) b c = dist :=
  swap_be16 dist h

theorem azimuth_pktAt (azi dist : Nat) (h : azi < 65536) (b : Fin 12) :
    RS_SWAP_SHORT ((pktAt azi dist).blocks b).azimuth = azi :=
  swap_be16 azi h

theorem channelAzimuth_pktAt_zero (m : Model) (s : DecoderBase) (azi dist : Nat)
    (h : azi < 65536) (b : Fin 12) :
    channelAzimuth m s (pktAt azi dist) b 0 = ((azi : Int) : ℚ) := by
  simp [channelAzimuth, azimuth_pktAt azi dist h]

theorem fresh_rs32_min : (freshDecoder Model.RS32).param_.min_distance = 4 / 10 := by
  norm_num [freshDecoder, RS32.DecoderRS32, baseDecoder]

theorem fresh_rs32_max : (freshDecoder Model.RS32).param_.max_distance = 200 := by
  norm_num [freshDecoder, RS32.DecoderRS32, baseDecoder]

theorem fresh_rsbp_min : (freshDecoder Model.RSBP).param_.min_distance = 2 / 10 := by
  norm_num [freshDecoder, RSBP.DecoderRSBP, baseDecoder]

theorem fresh_rsbp_max : (freshDecoder Model.RSBP).param_.max_distance = 100 := by
  norm_num [freshDecoder, RSBP.DecoderRSBP, baseDecoder]

theorem fresh_hori (m : Model) (c : Fin 32) : (freshDecoder m).hori_angle_list_ c = 0 := by
  cases m <;> rfl

theorem fresh_vert (m : Model) (c : Fin 32) : (freshDecoder m).vert_angle_list_ c = 0 := by
  cases m <;> rfl

theorem fresh_window (m : Model) :
    (freshDecoder m).angle_flag_ = true ∧ (freshDecoder m).start_angle_ = 0 ∧
      (freshDecoder m).end_angle_ = 36000 := by
  cases m <;> exact ⟨rfl, rfl, rfl⟩

theorem fresh_tables (m : Model) :
    (freshDecoder m).cos_lookup_table_ = sampleCos ∧
      (freshDecoder m).sin_lookup_table_ = sampleSin := by
  cases m <;> exact ⟨rfl, rfl⟩

/-- With zero calibration, block azimuth 9000 and channel 0, the calibrated azimuth of
the sample packets is 9000. -/
theorem fresh_azimuth (m : Model) (dist : Nat) (b : Fin 12) :
    azimuthCalibration (freshDecoder m)
      (channelAzimuth m (freshDecoder m) (pktAt 9000 dist) b 0) 0 = 9000 := by
  rw [channelAzimuth_pktAt_zero m _ 9000 dist (by norm_num) b]
  simp only [azimuthCalibration, fresh_hori, add_zero, toInt_intCast]
  decide

theorem validBlocks_pktAt (m : Model) (azi dist : Nat) : validBlocks m (pktAt azi dist) = 12 := by
  rw [validBlocks_eq_12_iff]
  intro b
  cases m <;> rfl

/-- The sample packet with raw distance 80 (0.4 m, the lower bound of a fresh RS32
decoder) passes the admission test in block 0, channel 0. -/
theorem admitted_boundary :
    admitted Model.RS32 (freshDecoder Model.RS32) (pktAt 9000 80) 0 0 := by
  unfold admitted
  rw [fresh_azimuth, rawDistance_pktAt 9000 80 (by norm_num), fresh_rs32_min, fresh_rs32_max,
    (fresh_window Model.RS32).1, (fresh_window Model.RS32).2.1, (fresh_window Model.RS32).2.2]
  norm_num [RS_RESOLUTION]

/-- C4, at the lower distance bound: for a fresh RS32 decoder (window flag set, window
`[0, 36000]`, `min_distance = 0.4`) and the sample packet with raw distance 80, that is
`d = 0.4 = min_distance`, the point of block 0, channel 0 is emitted and is not the
sentinel. -/
theorem point_admitted_iff_witness :
    ((freshDecoder Model.RS32).angle_flag_ = true ↔
      (freshDecoder Model.RS32).start_angle_ ≤ (freshDecoder Model.RS32).end_angle_) ∧
    (pktAt 9000 80).header.id = Model.RS32.MSOP_ID ∧
    (0 : Fin 12).val < validBlocks Model.RS32 (pktAt 9000 80) ∧
    ∃ p : Point,
      (decode_msop Model.RS32 sampleOps (freshDecoder Model.RS32) (pktAt 9000 80) [] 0).vec[
        ([] : List Point).length + (32 * (0 : Fin 12).val + (0 : Fin 32).val)]? = some p ∧
      ¬ p.isSentinel := by
  have h1 : ((freshDecoder Model.RS32).angle_flag_ = true ↔
      (freshDecoder Model.RS32).start_angle_ ≤ (freshDecoder Model.RS32).end_angle_) := by
    decide
  have h2 : (pktAt 9000 80).header.id = Model.RS32.MSOP_ID := by decide
  have h3 : (0 : Fin 12).val < validBlocks Model.RS32 (pktAt 9000 80) := by
    rw [validBlocks_pktAt]
    decide
  obtain ⟨p, hp, hiff, -⟩ := point_admitted_iff Model.RS32 sampleOps (freshDecoder Model.RS32)
    (pktAt 9000 80) [] 0 0 0 h1 h2 h3
  exact ⟨h1, h2, h3, p, hp, hiff.mpr ((admitted_iff _ _ _ _ _ h1).mp admitted_boundary)⟩

/-! ## The projection -/

/-- C6: for both models and every admitted point of `decode_msop` (channel `c` of a
decoded block `b`, passing the admission test): `x = d·cosT[φ]·cosT[α] + Rx·cosT[α_raw]`,
`y = −d·cosT[φ]·sinT[α] − Rx·sinT[α_raw]`, `z = d·sinT[φ] + Rz` and the intensity is the raw
channel byte, where `d = raw_distance × 0.005`, `φ` is the vertical calibration of the
channel wrapped into `[0, 36000)`, `α` is the per-channel azimuth after horizontal
calibration, `α_raw` is the per-channel azimuth before horizontal calibration wrapped
into `[0, 36000)`, and `(Rx, Rz)` is `(0.03997, 0)` for RS32 and `(0.01473, 0.09427)` for
RSBP; `Ry` does not occur.  The three table indices lie in `[0, 36000)`. -/
theorem admitted_point_projection (m : Model) (ops : DecoderBaseOps) (s : DecoderBase)
    (pkt : MsopPkt) (vec : List Point) (az : Int) (b : Fin 12) (c : Fin 32)
    (d : ℚ) (φ α α_raw : Int) (Rx Rz : ℚ)
    (hid : pkt.header.id = m.MSOP_ID) (hb : b.val < validBlocks m pkt)
    (hadm : admitted m s pkt b c)
    (hd : d = (rawDistance pkt b c : ℚ) * (5 / 1000))
    (hφ : φ = Int.tmod (Int.tmod (toInt (s.vert_angle_list_ c)) 36000 + 36000) 36000)
    (hα : α = azimuthCalibration s (channelAzimuth m s pkt b c) c)
    (hαr : α_raw = Int.tmod (toInt (channelAzimuth m s pkt b c + 36000)) 36000)
    (hRx : Rx = match m with
      | Model.RS32 => 3997 / 100000
      | Model.RSBP => 1473 / 100000)
    (hRz : Rz = match m with
      | Model.RS32 => 0
      | Model.RSBP => 9427 / 100000) :
    ∃ p : Point,
      (decode_msop m ops s pkt vec az).vec[vec.length + (32 * b.val + c.val)]? = some p ∧
      p.x = CFloat.fin (d * s.cos_lookup_table_ φ * s.cos_lookup_table_ α +
        Rx * s.cos_lookup_table_ α_raw) ∧
      p.y = CFloat.fin (-d * s.cos_lookup_table_ φ * s.sin_lookup_table_ α -
        Rx * s.sin_lookup_table_ α_raw) ∧
      p.z = CFloat.fin (d * s.sin_lookup_table_ φ + Rz) ∧
      p.intensity = CFloat.fin (((pkt.blocks b).channels c).intensity.val : ℚ) ∧
      (0 ≤ φ ∧ φ < 36000 ∧ φ = toInt (s.vert_angle_list_ c) % 36000) ∧
      (0 ≤ α ∧ α < 36000 ∧
        α = toInt (channelAzimuth m s pkt b c + s.hori_angle_list_ c) % 36000) ∧
      (0 ≤ α_raw ∧ α_raw < 36000 ∧ α_raw = ⌊channelAzimuth m s pkt b c⌋ % 36000) := by
  classical
  refine ⟨m.channelPoint s pkt b c, decode_msop_getElem? m ops s pkt vec az b c hid hb, ?_⟩
  rw [channelPoint_eq, if_pos hadm]
  have hRx2 : m.RX = Rx := by
    rw [hRx]
    cases m <;> norm_num [Model.RX, RS32.RS32_RX, RSBP.RSBP_RX]
  have hRz2 : m.RZ = Rz := by
    rw [hRz]
    cases m <;> norm_num [Model.RZ, RS32.RS32_RZ, RSBP.RSBP_RZ]
  have hd2 : ((rawDistance pkt b c : Int) : ℚ) * RS_RESOLUTION = d := by
    rw [hd, RS_RESOLUTION, Int.cast_natCast]
  rw [hRx2, hRz2, hd2, ← hφ, ← hα, ← hαr]
  refine ⟨rfl, rfl, rfl, rfl, ?_, ?_, ?_⟩
  · rw [hφ]
    exact wrap_spec _
  · rw [hα]
    exact wrap_spec _
  · rw [hαr]
    exact angle_horiz_spec m s pkt b c

/-- The sample packet (raw distance 2000, that is 10 m) passes the admission test of a
fresh RS32 decoder in block 0, channel 0. -/
theorem admitted_sample :
    admitted Model.RS32 (freshDecoder Model.RS32) (pktAt 9000 2000) 0 0 := by
  unfold admitted
  rw [fresh_azimuth, rawDistance_pktAt 9000 2000 (by norm_num), fresh_rs32_min,
    fresh_rs32_max, (fresh_window Model.RS32).1, (fresh_window Model.RS32).2.1,
    (fresh_window Model.RS32).2.2]
  norm_num [RS_RESOLUTION]

/-- C6, scenario S3: a fresh RS32 decoder with zero calibration, block azimuth 9000,
channel 0 and raw distance 2000 emits as first point
`(10·cosT[0]·cosT[9000] + Rx·cosT[9000], −10·cosT[0]·sinT[9000] − Rx·sinT[9000],
10·sinT[0] + Rz)` with `Rx = 0.03997`, `Rz = 0` and intensity 128. -/
theorem admitted_point_projection_witness :
    (pktAt 9000 2000).header.id = Model.RS32.MSOP_ID ∧
    (0 : Fin 12).val < validBlocks Model.RS32 (pktAt 9000 2000) ∧
    admitted Model.RS32 (freshDecoder Model.RS32) (pktAt 9000 2000) 0 0 ∧
    (10 : ℚ) = (rawDistance (pktAt 9000 2000) 0 0 : ℚ) * (5 / 1000) ∧
    (0 : Int) = Int.tmod
      (Int.tmod (toInt ((freshDecoder Model.RS32).vert_angle_list_ 0)) 36000 + 36000) 36000 ∧
    (9000 : Int) = azimuthCalibration (freshDecoder Model.RS32)
      (channelAzimuth Model.RS32 (freshDecoder Model.RS32) (pktAt 9000 2000) 0 0) 0 ∧
    (9000 : Int) = Int.tmod (toInt
      (channelAzimuth Model.RS32 (freshDecoder Model.RS32) (pktAt 9000 2000) 0 0 + 36000))
      36000 ∧
    ∃ p : Point,
      (decode_msop Model.RS32 sampleOps (freshDecoder Model.RS32) (pktAt 9000 2000) [] 0).vec[
        ([] : List Point).length + (32 * (0 : Fin 12).val + (0 : Fin 32).val)]? = some p ∧
      p.x = CFloat.fin (10 * sampleCos 0 * sampleCos 9000 + 3997 / 100000 * sampleCos 9000) ∧
      p.y = CFloat.fin (-10 * sampleCos 0 * sampleSin 9000 - 3997 / 100000 * sampleSin 9000) ∧
      p.z = CFloat.fin (10 * sampleSin 0 + 0) ∧
      p.intensity = CFloat.fin 128 := by
  have h1 : (pktAt 9000 2000).header.id = Model.RS32.MSOP_ID := by decide
  have h2 : (0 : Fin 12).val < validBlocks Model.RS32 (pktAt 9000 2000) := by
    rw [validBlocks_pktAt]
    decide
  have h3 : (10 : ℚ) = (rawDistance (pktAt 9000 2000) 0 0 : ℚ) * (5 / 1000) := by
    rw [rawDistance_pktAt 9000 2000 (by norm_num)]
    norm_num
  have h4 : (0 : Int) = Int.tmod
      (Int.tmod (toInt ((freshDecoder Model.RS32).vert_angle_list_ 0)) 36000 + 36000)
      36000 := by
    rw [fresh_vert]
    have e : toInt 0 = 0 := by simpa using toInt_intCast 0
    rw [e]
    decide
  have h5 : (9000 : Int) = azimuthCalibration (freshDecoder Model.RS32)
      (channelAzimuth Model.RS32 (freshDecoder Model.RS32) (pktAt 9000 2000) 0 0) 0 :=
    (fresh_azimuth Model.RS32 2000 0).symm
  have h6 : (9000 : Int) = Int.tmod (toInt
      (channelAzimuth Model.RS32 (freshDecoder Model.RS32) (pktAt 9000 2000) 0 0 + 36000))
      36000 := by
    rw [channelAzimuth_pktAt_zero Model.RS32 _ 9000 2000 (by norm_num) 0]
    have e : (((9000 : Nat) : Int) : ℚ) + 36000 = ((45000 : Int) : ℚ) := by norm_num
    rw [e, toInt_intCast]
    decide
  obtain ⟨p, hp, hx, hy, hz, hi, -⟩ :=
    admitted_point_projection Model.RS32 sampleOps (freshDecoder Model.RS32) (pktAt 9000 2000)
      [] 0 0 0 10 0 9000 9000 (3997 / 100000) 0 h1 h2 admitted_sample h3 h4 h5 h6 rfl rfl
  exact ⟨h1, h2, admitted_sample, h3, h4, h5, h6, p, hp, hx, hy, hz, hi⟩

/-! ## The calibration loop -/

theorem rs32_caliStep_eq (pkt : DifopPkt) : RS32.caliStep pkt = caliStepS (1 / 10) pkt := by
  funext st i
  rfl

theorem rsbp_caliStep_eq (pkt : DifopPkt) : RSBP.caliStep pkt = caliStepS 1 pkt := by
  funext st i
  simp [RSBP.caliStep, caliStepS, negStep, signByte, magnitude]

theorem take_succ_finRange (n : Nat) (h : n < 32) :
    (List.finRange 32).take (n + 1) = (List.finRange 32).take n ++ [⟨n, h⟩] := by
  rw [List.take_succ, getElem?_finRange_fin (⟨n, h⟩ : Fin 32)]
  rfl

/-- The state of the calibration loop after its first `n` iterations: `neg` has gone
through the `n` sign updates, the entries below `n` hold the values parsed from the
packet and the entries from `n` on are still the old ones. -/
theorem caliLoop_take (scale : ℚ) (pkt : DifopPkt) (vert hori : Fin 32 → ℚ) (n : Nat)
    (hn : n ≤ 32) :
    (((List.finRange 32).take n).foldl (caliStepS scale pkt)
        { neg := 1, vert := vert, hori := hori }).neg
      = ((List.finRange 32).take n).foldl (negStep pkt) 1 ∧
    ∀ i : Fin 32,
      (i.val < n →
        (((List.finRange 32).take n).foldl (caliStepS scale pkt)
            { neg := 1, vert := vert, hori := hori }).vert i
          = ((((magnitude pkt.pitch_cali i : Nat) : Int) * pitchNeg pkt i : Int) : ℚ) * scale ∧
        (((List.finRange 32).take n).foldl (caliStepS scale pkt)
            { neg := 1, vert := vert, hori := hori }).hori i
          = ((((magnitude pkt.yaw_cali i : Nat) : Int) * yawNeg pkt i : Int) : ℚ) * scale) ∧
      (n ≤ i.val →
        (((List.finRange 32).take n).foldl (caliStepS scale pkt)
            { neg := 1, vert := vert, hori := hori }).vert i = vert i ∧
        (((List.finRange 32).take n).foldl (caliStepS scale pkt)
            { neg := 1, vert := vert, hori := hori }).hori i = hori i) := by
  induction n with
  | zero =>
    refine ⟨by simp, fun i => ⟨fun h => absurd h (Nat.not_lt_zero _), fun _ => by simp⟩⟩
  | succ n ih =>
    have hlt : n < 32 := by omega
    obtain ⟨ihneg, ihl⟩ := ih (by omega)
    rw [take_succ_finRange n hlt, List.foldl_append, List.foldl_append]
    simp only [List.foldl_cons, List.foldl_nil]
    have hin : negIn pkt ⟨n, hlt⟩ = ((List.finRange 32).take n).foldl (negStep pkt) 1 := rfl
    refine ⟨?_, fun i => ⟨fun hi => ?_, fun hi => ?_⟩⟩
    · simp only [caliStepS, ihneg]
    · by_cases hieq : i = ⟨n, hlt⟩
      · subst hieq
        simp only [caliStepS, Function.update_same, ihneg, ← hin]
        exact ⟨rfl, rfl⟩
      · have hi2 : i.val < n := by
          have : i.val ≠ n := fun h => hieq (Fin.ext h)
          omega
        simp only [caliStepS, Function.update_noteq hieq]
        exact (ihl i).1 hi2
    · have hieq : i ≠ ⟨n, hlt⟩ := by
        intro h
        rw [h] at hi
        simp at hi
      simp only [caliStepS, Function.update_noteq hieq]
      exact (ihl i).2 (by omega)

/-- The calibration loop of either model replaces both lists by the values parsed from
the packet, whatever the lists held before. -/
theorem caliLoop_full (m : Model) (pkt : DifopPkt) (vert hori : Fin 32 → ℚ) :
    ((List.finRange 32).foldl (caliStepS m.caliScale pkt)
        { neg := 1, vert := vert, hori := hori }).vert = loadedVert m pkt ∧
    ((List.finRange 32).foldl (caliStepS m.caliScale pkt)
        { neg := 1, vert := vert, hori := hori }).hori = loadedHori m pkt := by
  have h := (caliLoop_take m.caliScale pkt vert hori 32 (le_refl _)).2
  have ht : (List.finRange 32).take 32 = List.finRange 32 :=
    List.take_of_length_le (by simp)
  rw [ht] at h
  exact ⟨funext fun i => ((h i).1 i.isLt).1, funext fun i => ((h i).1 i.isLt).2⟩

theorem ceil_natCast (q : Nat) : (toInt (ceil (q : ℚ))).toNat = q := by
  unfold ceil
  rw [Int.ceil_natCast, toInt_intCast]
  simp

/-! ## DIFOP ingest -/

theorem idiv_zero (a : Nat) : idiv a 0 = none := rfl

theorem idiv_pos (a b : Nat) (h : b ≠ 0) : idiv a b = some (a / b) := by
  simp [idiv, h]

/-- With a valid packet magic `decode_difop` has undefined behaviour when the rpm field is
zero (division of integers by zero), and otherwise returns `DECODE_OK` and leaves the
decoder `difopAfter`. -/
theorem decode_difop_valid (m : Model) (s : DecoderBase) (pkt : DifopPkt)
    (hid : pkt.id = m.DIFOP_ID) :
    decode_difop m s pkt =
      if RS_SWAP_SHORT pkt.rpm = 0 then none
      else some (RSDecoderResult.DECODE_OK, difopAfter m s pkt) := by
  cases m
  · simp only [Model.DIFOP_ID] at hid
    have hl := caliLoop_full Model.RS32 pkt s.vert_angle_list_ s.hori_angle_list_
    simp only [Model.caliScale, one_div] at hl
    by_cases hr : RS_SWAP_SHORT pkt.rpm = 0
    · simp only [decode_difop, RS32.decodeDifopPkt, hid, hr, ne_eq, not_true_eq_false,
        if_false, if_true]
      by_cases h0 : pkt.return_mode.val = 0 <;> by_cases h1 : pkt.return_mode.val = 1 <;>
        by_cases h2 : pkt.return_mode.val = 2 <;>
        by_cases hd : s.echo_mode_ = RSEchoMode.ECHO_DUAL <;>
        simp [h0, h1, h2, hd, idiv_zero]
    · simp only [decode_difop, RS32.decodeDifopPkt, hid, hr, ne_eq, not_true_eq_false,
        if_false, rs32_caliStep_eq, difopAfter, echoAfter]
      by_cases h0 : pkt.return_mode.val = 0 <;> by_cases h1 : pkt.return_mode.val = 1 <;>
        by_cases h2 : pkt.return_mode.val = 2 <;>
        by_cases hd : s.echo_mode_ = RSEchoMode.ECHO_DUAL <;>
        by_cases hf : s.difop_flag_ = true <;>
        by_cases he : caliEmpty pkt.pitch_cali = true <;>
        simp [h0, h1, h2, hd, hf, he, hr, hl, ceil_natCast, RS32.RS32_PKT_RATE, idiv_pos]
  · simp only [Model.DIFOP_ID] at hid
    have hl := caliLoop_full Model.RSBP pkt s.vert_angle_list_ s.hori_angle_list_
    simp only [Model.caliScale] at hl
    by_cases hr : RS_SWAP_SHORT pkt.rpm = 0
    · simp only [decode_difop, RSBP.decodeDifopPkt, hid, hr, ne_eq, not_true_eq_false,
        if_false, if_true]
      by_cases h0 : pkt.return_mode.val = 0 <;> by_cases h1 : pkt.return_mode.val = 1 <;>
        by_cases h2 : pkt.return_mode.val = 2 <;>
        by_cases hd : s.echo_mode_ = RSEchoMode.ECHO_DUAL <;>
        simp [h0, h1, h2, hd, idiv_zero]
    · simp only [decode_difop, RSBP.decodeDifopPkt, hid, hr, ne_eq, not_true_eq_false,
        if_false, rsbp_caliStep_eq, difopAfter, echoAfter]
      by_cases h0 : pkt.return_mode.val = 0 <;> by_cases h1 : pkt.return_mode.val = 1 <;>
        by_cases h2 : pkt.return_mode.val = 2 <;>
        by_cases hd : s.echo_mode_ = RSEchoMode.ECHO_DUAL <;>
        by_cases hf : s.difop_flag_ = true <;>
        by_cases he : caliEmpty pkt.pitch_cali = true <;>
        simp [h0, h1, h2, hd, hf, he, hr, hl, ceil_natCast, RSBP.RSBP_PKT_RATE, idiv_pos]

theorem difop_rpm_sample (mode : U8) (r : Nat) (b0 b1 b2 : U8) (h : r < 65536) :
    RS_SWAP_SHORT (sampleDifop mode r b0 b1 b2).rpm = r :=
  swap_be16 r h

theorem difop_id_sample (m : Model) (mode : U8) (r : Nat) (b0 b1 b2 : U8) :
    (sampleDifop mode r b0 b1 b2).id = m.DIFOP_ID := by
  cases m <;> rfl

/-- The call returns, with `DECODE_OK`, whenever the magic is valid and the rpm field is
not zero. -/
theorem decode_difop_returns (m : Model) (s : DecoderBase) (pkt : DifopPkt)
    (hid : pkt.id = m.DIFOP_ID) (hr : RS_SWAP_SHORT pkt.rpm ≠ 0) :
    decode_difop m s pkt = some (RSDecoderResult.DECODE_OK, difopAfter m s pkt) := by
  rw [decode_difop_valid m s pkt hid, if_neg hr]

/-- Whenever the call returns for a packet with valid magic, it returns `DECODE_OK` and
the decoder `difopAfter`. -/
theorem decode_difop_some (m : Model) (s : DecoderBase) (pkt : DifopPkt)
    (hid : pkt.id = m.DIFOP_ID) (r : RSDecoderResult) (s' : DecoderBase)
    (h : decode_difop m s pkt = some (r, s')) :
    r = RSDecoderResult.DECODE_OK ∧ s' = difopAfter m s pkt := by
  rw [decode_difop_valid m s pkt hid] at h
  by_cases hr : RS_SWAP_SHORT pkt.rpm = 0
  · rw [if_pos hr] at h
    cases h
  · rw [if_neg hr] at h
    cases h
    exact ⟨rfl, rfl⟩

/-- C7, at a failing input: for both models a DIFOP packet with valid magic,
`return_mode = 0x01` and rpm field 700 leaves `pkts_per_frame_ = 128`, the integer quotient
`1500 * 60 / 700`, whereas the ceiling of the exact quotient `1 · 1500 · 60 / 700` is 129. -/
theorem pkts_per_frame_truncated :
    RS_SWAP_SHORT (sampleDifop 1 700 0 0 0).rpm = 700 ∧
    (decode_difop Model.RS32 baseDecoder (sampleDifop 1 700 0 0 0)).map
      (fun r => (r.2.echo_mode_, r.2.pkts_per_frame_))
      = some (RSEchoMode.ECHO_STRONGEST, 128) ∧
    (decode_difop Model.RSBP baseDecoder (sampleDifop 1 700 0 0 0)).map
      (fun r => (r.2.echo_mode_, r.2.pkts_per_frame_))
      = some (RSEchoMode.ECHO_STRONGEST, 128) ∧
    ⌈((1 * 1500 * 60 : ℚ) / 700)⌉ = 129 := by
  have hr : RS_SWAP_SHORT (sampleDifop 1 700 0 0 0).rpm = 700 :=
    difop_rpm_sample 1 700 0 0 0 (by norm_num)
  refine ⟨hr, ?_, ?_, ?_⟩
  · rw [decode_difop_returns Model.RS32 _ _ (difop_id_sample _ _ _ _ _ _) (by rw [hr]; decide)]
    simp only [Option.map_some', difopAfter, echoAfter, hr]
    decide
  · rw [decode_difop_returns Model.RSBP _ _ (difop_id_sample _ _ _ _ _ _) (by rw [hr]; decide)]
    simp only [Option.map_some', difopAfter, echoAfter, hr]
    decide
  · rw [Int.ceil_eq_iff]
    norm_num

/-- The count the code stores is the integer quotient, for every packet with valid magic
and non-zero rpm field `r`: `K * 1500 * 60 / r` rounded down, with `K = 2` when the echo
mode after the update is DUAL and `K = 1` otherwise. -/
theorem pkts_per_frame_floor (m : Model) (s : DecoderBase) (pkt : DifopPkt)
    (hid : pkt.id = m.DIFOP_ID) (hr : RS_SWAP_SHORT pkt.rpm ≠ 0) :
    ∃ s', decode_difop m s pkt = some (RSDecoderResult.DECODE_OK, s') ∧
      (s'.pkts_per_frame_ : Int) =
        ⌊(((if s'.echo_mode_ = RSEchoMode.ECHO_DUAL then 2 else 1) * 1500 * 60 : Nat) : ℚ) /
          (RS_SWAP_SHORT pkt.rpm : ℚ)⌋ := by
  refine ⟨_, decode_difop_returns m s pkt hid hr, ?_⟩
  rw [Rat.floor_natCast_div_natCast]
  simp only [difopAfter]
  split_ifs <;> rfl

/-- C8: for both models and every DIFOP packet with valid magic, the call returns (with
`DECODE_OK`) whenever the rpm field is not zero, and whenever it returns the echo mode
afterwards is DUAL if `return_mode = 0x00`, STRONGEST if `return_mode = 0x01`, LAST if
`return_mode = 0x02`, and for every other `return_mode` byte (0x03..0xFF) the echo mode
the decoder had before the call. -/
theorem echo_mode_from_return_mode (m : Model) (s : DecoderBase) (pkt : DifopPkt)
    (hid : pkt.id = m.DIFOP_ID) :
    (RS_SWAP_SHORT pkt.rpm ≠ 0 →
      ∃ s', decode_difop m s pkt = some (RSDecoderResult.DECODE_OK, s')) ∧
    ∀ (r : RSDecoderResult) (s' : DecoderBase), decode_difop m s pkt = some (r, s') →
      (pkt.return_mode.val = 0x00 → s'.echo_mode_ = RSEchoMode.ECHO_DUAL) ∧
      (pkt.return_mode.val = 0x01 → s'.echo_mode_ = RSEchoMode.ECHO_STRONGEST) ∧
      (pkt.return_mode.val = 0x02 → s'.echo_mode_ = RSEchoMode.ECHO_LAST) ∧
      (0x03 ≤ pkt.return_mode.val ∧ pkt.return_mode.val ≤ 0xFF →
        s'.echo_mode_ = s.echo_mode_) := by
  refine ⟨fun hr => ⟨_, decode_difop_returns m s pkt hid hr⟩, ?_⟩
  intro r s' h
  obtain ⟨-, rfl⟩ := decode_difop_some m s pkt hid r s' h
  simp only [difopAfter, echoAfter]
  refine ⟨fun h0 => by simp [h0], fun h1 => by simp [h1], fun h2 => by simp [h2], ?_⟩
  rintro ⟨h3, -⟩
  have n0 : pkt.return_mode.val ≠ 0 := by omega
  have n1 : pkt.return_mode.val ≠ 1 := by omega
  have n2 : pkt.return_mode.val ≠ 2 := by omega
  simp [n0, n1, n2]

/-- C8, at a sample packet: `return_mode = 0x00` with rpm 600 takes the RS32 decoder from
STRONGEST to DUAL. -/
theorem echo_mode_from_return_mode_witness :
    (sampleDifop 0 600 0 0 0).id = Model.RS32.DIFOP_ID ∧
    baseDecoder.echo_mode_ = RSEchoMode.ECHO_STRONGEST ∧
    ∃ s', decode_difop Model.RS32 baseDecoder (sampleDifop 0 600 0 0 0)
        = some (RSDecoderResult.DECODE_OK, s') ∧
      s'.echo_mode_ = RSEchoMode.ECHO_DUAL := by
  have hid : (sampleDifop 0 600 0 0 0).id = Model.RS32.DIFOP_ID := by decide
  obtain ⟨hret, hecho⟩ :=
    echo_mode_from_return_mode Model.RS32 baseDecoder (sampleDifop 0 600 0 0 0) hid
  obtain ⟨s', hs'⟩ := hret (by rw [difop_rpm_sample 0 600 0 0 0 (by norm_num)]; decide)
  exact ⟨hid, rfl, s', hs', (hecho _ s' hs').1 (by decide)⟩

/-- C9, at a failing input: the RSBP decoder, holding `rpm_ = 600`, is given a DIFOP
packet with valid magic whose rpm field reads 1200; the call returns `DECODE_OK` and
`rpm_` is still 600.  The RS32 decoder, given the same packet, stores 1200. -/
theorem rsbp_rpm_not_updated :
    RS_SWAP_SHORT (sampleDifop 1 1200 0 0 0).rpm = 1200 ∧
    baseDecoder.rpm_ = 600 ∧
    (decode_difop Model.RSBP baseDecoder (sampleDifop 1 1200 0 0 0)).map
      (fun r => (r.1, r.2.rpm_)) = some (RSDecoderResult.DECODE_OK, 600) ∧
    (decode_difop Model.RS32 baseDecoder (sampleDifop 1 1200 0 0 0)).map
      (fun r => (r.1, r.2.rpm_)) = some (RSDecoderResult.DECODE_OK, 1200) := by
  have hr : RS_SWAP_SHORT (sampleDifop 1 1200 0 0 0).rpm = 1200 :=
    difop_rpm_sample 1 1200 0 0 0 (by norm_num)
  refine ⟨hr, rfl, ?_, ?_⟩
  · rw [decode_difop_returns Model.RSBP _ _ (difop_id_sample _ _ _ _ _ _) (by rw [hr]; decide)]
    rfl
  · rw [decode_difop_returns Model.RS32 _ _ (difop_id_sample _ _ _ _ _ _) (by rw [hr]; decide)]
    simp only [Option.map_some', difopAfter, hr]

/-- The RS32 decoder stores the rpm field, read big-endian, for every packet with valid
magic and non-zero rpm field; the RSBP decoder keeps the `rpm_` it had. -/
theorem rpm_after_difop (s : DecoderBase) (pkt : DifopPkt)
    (hr : RS_SWAP_SHORT pkt.rpm ≠ 0) :
    (pkt.id = Model.RS32.DIFOP_ID →
      ∃ s', decode_difop Model.RS32 s pkt = some (RSDecoderResult.DECODE_OK, s') ∧
        s'.rpm_ = RS_SWAP_SHORT pkt.rpm) ∧
    (pkt.id = Model.RSBP.DIFOP_ID →
      ∃ s', decode_difop Model.RSBP s pkt = some (RSDecoderResult.DECODE_OK, s') ∧
        s'.rpm_ = s.rpm_) :=
  ⟨fun hid => ⟨_, decode_difop_returns Model.RS32 s pkt hid hr, rfl⟩,
   fun hid => ⟨_, decode_difop_returns Model.RSBP s pkt hid hr, rfl⟩⟩

/-! ## Calibration ingest -/

theorem updNeg_unit (lsb : U8) (neg : Int) (h : neg = 1 ∨ neg = -1) :
    updNeg lsb neg = 1 ∨ updNeg lsb neg = -1 := by
  unfold updNeg
  split_ifs
  · exact Or.inl rfl
  · exact Or.inr rfl
  · exact h

theorem foldl_negStep_unit (pkt : DifopPkt) (l : List (Fin 32)) (neg : Int)
    (h : neg = 1 ∨ neg = -1) :
    l.foldl (negStep pkt) neg = 1 ∨ l.foldl (negStep pkt) neg = -1 := by
  induction l generalizing neg with
  | nil => exact h
  | cons a l ih => exact ih _ (updNeg_unit _ _ (updNeg_unit _ _ h))

theorem pitchNeg_unit (pkt : DifopPkt) (i : Fin 32) : pitchNeg pkt i = 1 ∨ pitchNeg pkt i = -1 :=
  updNeg_unit _ _ (foldl_negStep_unit pkt _ 1 (Or.inl rfl))

theorem yawNeg_unit (pkt : DifopPkt) (i : Fin 32) : yawNeg pkt i = 1 ∨ yawNeg pkt i = -1 :=
  updNeg_unit _ _ (pitchNeg_unit pkt i)

theorem caliEmpty_iff (cali : Fin 96 → U8) :
    caliEmpty cali = true ↔
      ((cali 0).val = 0x00 ∨ (cali 0).val = 0xFF) ∧ ((cali 1).val = 0x00 ∨ (cali 1).val = 0xFF) ∧
      ((cali 2).val = 0x00 ∨ (cali 2).val = 0xFF) := by
  simp [caliEmpty, and_assoc]

/-- C10: for both models, every decoder with `difop_flag_ = false` and every DIFOP packet
with valid magic, the call returns (with `DECODE_OK`) whenever the rpm field is not zero,
and whenever it returns: `difop_flag_` is false afterwards if and only if each of the
first three bytes of `pitch_cali` is `0x00` or `0xFF`; in that case both calibration lists
are what they were; otherwise `difop_flag_` is true and every one of the 32 entries of
both lists holds a value parsed from the packet, whatever it held before: the magnitude
`msb * 256 + lsb` of the channel's group, with a sign `+1` or `-1` fixed by the packet,
times the model's scale (`0.1` for RS32, `1` for RSBP). -/
theorem calibration_loaded_iff (m : Model) (s : DecoderBase) (pkt : DifopPkt)
    (hid : pkt.id = m.DIFOP_ID) (hfl : s.difop_flag_ = false) :
    (RS_SWAP_SHORT pkt.rpm ≠ 0 →
      ∃ s', decode_difop m s pkt = some (RSDecoderResult.DECODE_OK, s')) ∧
    ∀ (r : RSDecoderResult) (s' : DecoderBase), decode_difop m s pkt = some (r, s') →
      (s'.difop_flag_ = false ↔
        ((pkt.pitch_cali 0).val = 0x00 ∨ (pkt.pitch_cali 0).val = 0xFF) ∧
        ((pkt.pitch_cali 1).val = 0x00 ∨ (pkt.pitch_cali 1).val = 0xFF) ∧
        ((pkt.pitch_cali 2).val = 0x00 ∨ (pkt.pitch_cali 2).val = 0xFF)) ∧
      (s'.difop_flag_ = false →
        s'.vert_angle_list_ = s.vert_angle_list_ ∧ s'.hori_angle_list_ = s.hori_angle_list_) ∧
      (s'.difop_flag_ ≠ false →
        s'.difop_flag_ = true ∧
        ∀ i : Fin 32,
          s'.vert_angle_list_ i
            = ((magnitude pkt.pitch_cali i : Int) * pitchNeg pkt i : Int) * m.caliScale ∧
          s'.hori_angle_list_ i
            = ((magnitude pkt.yaw_cali i : Int) * yawNeg pkt i : Int) * m.caliScale ∧
          (pitchNeg pkt i = 1 ∨ pitchNeg pkt i = -1) ∧
          (yawNeg pkt i = 1 ∨ yawNeg pkt i = -1)) := by
  refine ⟨fun hr => ⟨_, decode_difop_returns m s pkt hid hr⟩, ?_⟩
  intro r s' h
  obtain ⟨-, rfl⟩ := decode_difop_some m s pkt hid r s' h
  rw [← caliEmpty_iff]
  by_cases he : caliEmpty pkt.pitch_cali = true
  · simp [difopAfter, hfl, he]
  · have he2 : caliEmpty pkt.pitch_cali = false := by simpa using he
    simp only [difopAfter, hfl, he2, Bool.not_false, Bool.false_or, and_self, if_true,
      Bool.true_eq_false, Bool.false_eq_true, false_iff, not_false_eq_true, false_imp_iff,
      ne_eq, true_and, forall_true_left]
    intro i
    exact ⟨rfl, rfl, pitchNeg_unit pkt i, yawNeg_unit pkt i⟩

/-- C10, scenario S5: a DIFOP packet whose `pitch_cali` starts `0xFF, 0xFF, 0xFF` leaves
`difop_flag_` false and both calibration lists unchanged. -/
theorem calibration_loaded_iff_witness :
    (sampleDifop 1 600 0xFF 0xFF 0xFF).id = Model.RS32.DIFOP_ID ∧
    baseDecoder.difop_flag_ = false ∧
    ∃ s', decode_difop Model.RS32 baseDecoder (sampleDifop 1 600 0xFF 0xFF 0xFF)
        = some (RSDecoderResult.DECODE_OK, s') ∧
      s'.difop_flag_ = false ∧
      s'.vert_angle_list_ = baseDecoder.vert_angle_list_ ∧
      s'.hori_angle_list_ = baseDecoder.hori_angle_list_ := by
  have hid : (sampleDifop 1 600 0xFF 0xFF 0xFF).id = Model.RS32.DIFOP_ID := by decide
  obtain ⟨hret, hafter⟩ := calibration_loaded_iff Model.RS32 baseDecoder
    (sampleDifop 1 600 0xFF 0xFF 0xFF) hid rfl
  obtain ⟨s', hs'⟩ :=
    hret (by rw [difop_rpm_sample 1 600 0xFF 0xFF 0xFF (by norm_num)]; decide)
  obtain ⟨hiff, hkeep, -⟩ := hafter _ s' hs'
  have hflag : s'.difop_flag_ = false := hiff.mpr (by decide)
  exact ⟨hid, rfl, s', hs', hflag, hkeep hflag⟩

/-- The sample packet with raw distance 0 fails the admission test of a fresh RSBP
decoder, whose `min_distance` is 0.2. -/
theorem not_admitted_zero :
    ¬ admitted Model.RSBP (freshDecoder Model.RSBP) (pktAt 9000 0) 0 0 := by
  unfold admitted
  rw [rawDistance_pktAt 9000 0 (by norm_num), fresh_rsbp_min, fresh_rsbp_max]
  norm_num [RS_RESOLUTION]

/-- C5, at a rejected point of model B: a fresh RSBP decoder emits for block 0, channel 0
of the sample packet with raw distance 0 a point with `x = y = z = NAN`, intensity 0 and
ring -1. -/
theorem coordinates_sentinel_together_witness :
    (pktAt 9000 0).header.id = Model.RSBP.MSOP_ID ∧
    (0 : Fin 12).val < validBlocks Model.RSBP (pktAt 9000 0) ∧
    ¬ admitted Model.RSBP (freshDecoder Model.RSBP) (pktAt 9000 0) 0 0 ∧
    ∃ new : List Point,
      (decode_msop Model.RSBP sampleOps (freshDecoder Model.RSBP) (pktAt 9000 0) [] 0).vec
        = [] ++ new ∧
      ∃ p : Point, new[32 * (0 : Fin 12).val + (0 : Fin 32).val]? = some p ∧
        p.x = CFloat.NAN ∧ p.y = CFloat.NAN ∧ p.z = CFloat.NAN ∧
        p.intensity = CFloat.fin 0 ∧ p.ring = some (-1) := by
  have h1 : (pktAt 9000 0).header.id = Model.RSBP.MSOP_ID := by decide
  have h2 : (0 : Fin 12).val < validBlocks Model.RSBP (pktAt 9000 0) := by
    rw [validBlocks_pktAt]
    decide
  obtain ⟨new, hv, -, hch⟩ := coordinates_sentinel_together Model.RSBP sampleOps
    (freshDecoder Model.RSBP) (pktAt 9000 0) [] 0
  obtain ⟨p, hp, hrej, -⟩ := hch 0 0 h1 h2
  obtain ⟨hx, hy, hz, hi, hring⟩ := hrej not_admitted_zero
  exact ⟨h1, h2, not_admitted_zero, new, hv, p, hp, hx, hy, hz, hi, hring⟩


/-! ## What the entry points leave alone -/

/-- The entry point `decode_msop` writes `current_temperature_` and the trigger
bookkeeping, and no other member. -/
theorem decode_msop_sameGeometry (m : Model) (ops : DecoderBaseOps) (s : DecoderBase)
    (pkt : MsopPkt) (vec : List Point) (az : Int) :
    sameGeometry s (decode_msop m ops s pkt vec az).decoder := by
  cases m
  · by_cases hid : pkt.header.id = RS32.RS32_MSOP_ID <;>
      by_cases ht : s.trigger_flag_ = true <;>
      by_cases hc : s.param_.use_lidar_clock = true <;>
      simp [decode_msop, RS32.decodeMsopPkt, sameGeometry, hid, ht, hc]
  · by_cases hid : pkt.header.id = RSBP.RSBP_MSOP_ID <;>
      by_cases ht : s.trigger_flag_ = true <;>
      by_cases hc : s.param_.use_lidar_clock = true <;>
      simp [decode_msop, RSBP.decodeMsopPkt, sameGeometry, hid, ht, hc]

/-- With a wrong packet magic `decode_difop` returns `WRONG_PKT_HEADER` and the decoder
as it was. -/
theorem decode_difop_invalid (m : Model) (s : DecoderBase) (pkt : DifopPkt)
    (hid : pkt.id ≠ m.DIFOP_ID) :
    decode_difop m s pkt = some (RSDecoderResult.WRONG_PKT_HEADER, s) := by
  cases m
  · simp only [Model.DIFOP_ID] at hid
    simp [decode_difop, RS32.decodeDifopPkt, hid]
  · simp only [Model.DIFOP_ID] at hid
    simp [decode_difop, RSBP.decodeDifopPkt, hid]

/-- Whenever `decode_difop` returns on a decoder whose `difop_flag_` is set, the flag is
still set and both calibration lists are what they were. -/
theorem decode_difop_loaded (m : Model) (s : DecoderBase) (pkt : DifopPkt)
    (hfl : s.difop_flag_ = true) (r : RSDecoderResult) (s' : DecoderBase)
    (h : decode_difop m s pkt = some (r, s')) :
    s'.difop_flag_ = true ∧ s'.vert_angle_list_ = s.vert_angle_list_ ∧
      s'.hori_angle_list_ = s.hori_angle_list_ := by
  by_cases hid : pkt.id = m.DIFOP_ID
  · obtain ⟨-, rfl⟩ := decode_difop_some m s pkt hid r s' h
    simp [difopAfter, hfl]
  · rw [decode_difop_invalid m s pkt hid] at h
    cases h
    exact ⟨hfl, rfl, rfl⟩

theorem call_apply_loaded (m : Model) (s s' : DecoderBase) (c : Call)
    (hfl : s.difop_flag_ = true) (h : c.apply m s = some s') :
    s'.difop_flag_ = true ∧ s'.vert_angle_list_ = s.vert_angle_list_ ∧
      s'.hori_angle_list_ = s.hori_angle_list_ := by
  cases c with
  | msop ops pkt vec az =>
    simp only [Call.apply, Option.some.injEq] at h
    subst h
    have hg := decode_msop_sameGeometry m ops s pkt vec az
    exact ⟨hg.2.2.2.2.2.2.2.1.trans hfl, hg.2.2.2.2.2.2.2.2.2.1, hg.2.2.2.2.2.2.2.2.2.2.1⟩
  | difop pkt =>
    simp only [Call.apply, Option.map_eq_some'] at h
    obtain ⟨⟨r, s''⟩, hd, rfl⟩ := h
    exact decode_difop_loaded m s pkt hfl r s'' hd

theorem runCalls_loaded (m : Model) (calls : List Call) (s s' : DecoderBase)
    (hfl : s.difop_flag_ = true) (h : runCalls m calls s = some s') :
    s'.difop_flag_ = true ∧ s'.vert_angle_list_ = s.vert_angle_list_ ∧
      s'.hori_angle_list_ = s.hori_angle_list_ := by
  induction calls generalizing s with
  | nil =>
    simp only [runCalls, Option.some.injEq] at h
    subst h
    exact ⟨hfl, rfl, rfl⟩
  | cons c cs ih =>
    simp only [runCalls] at h
    cases hc : c.apply m s with
    | none => rw [hc] at h; cases h
    | some s1 =>
      rw [hc] at h
      obtain ⟨h1, h2, h3⟩ := call_apply_loaded m s s1 c hfl hc
      obtain ⟨h4, h5, h6⟩ := ih s1 h1 h
      exact ⟨h4, h5.trans h2, h6.trans h3⟩

/-- C11: `difop_flag_` is monotonic and the calibration is populated once.  For both
models and every decoder with `difop_flag_ = true`: after `decode_msop` on any packet the
flag is still true and both calibration lists are identical; `decode_difop` returns on
every packet with an invalid magic or a non-zero rpm field, and whenever it returns (any
magic, any calibration bytes) the flag is still true and both lists are identical.
Hence after any sequence of returning calls, from the moment the flag is true, it is true
and the lists are the ones held at that moment: the flag goes from false to true at most
once and never reverts. -/
theorem difop_flag_monotonic (m : Model) (s : DecoderBase) (hfl : s.difop_flag_ = true) :
    (∀ (ops : DecoderBaseOps) (pkt : MsopPkt) (vec : List Point) (az : Int),
      (decode_msop m ops s pkt vec az).decoder.difop_flag_ = true ∧
      (decode_msop m ops s pkt vec az).decoder.vert_angle_list_ = s.vert_angle_list_ ∧
      (decode_msop m ops s pkt vec az).decoder.hori_angle_list_ = s.hori_angle_list_) ∧
    (∀ pkt : DifopPkt, pkt.id ≠ m.DIFOP_ID ∨ RS_SWAP_SHORT pkt.rpm ≠ 0 →
      ∃ r s', decode_difop m s pkt = some (r, s')) ∧
    (∀ (pkt : DifopPkt) (r : RSDecoderResult) (s' : DecoderBase),
      decode_difop m s pkt = some (r, s') →
        s'.difop_flag_ = true ∧ s'.vert_angle_list_ = s.vert_angle_list_ ∧
        s'.hori_angle_list_ = s.hori_angle_list_) ∧
    (∀ (calls : List Call) (s' : DecoderBase), runCalls m calls s = some s' →
      s'.difop_flag_ = true ∧ s'.vert_angle_list_ = s.vert_angle_list_ ∧
      s'.hori_angle_list_ = s.hori_angle_list_) := by
  refine ⟨fun ops pkt vec az => ?_, fun pkt h => ?_,
    fun pkt r s' h => decode_difop_loaded m s pkt hfl r s' h,
    fun calls s' h => runCalls_loaded m calls s s' hfl h⟩
  · have hg := decode_msop_sameGeometry m ops s pkt vec az
    exact ⟨hg.2.2.2.2.2.2.2.1.trans hfl, hg.2.2.2.2.2.2.2.2.2.1, hg.2.2.2.2.2.2.2.2.2.2.1⟩
  · by_cases hid : pkt.id = m.DIFOP_ID
    · rcases h with h | h
      · exact absurd hid h
      · exact ⟨_, _, decode_difop_returns m s pkt hid h⟩
    · exact ⟨_, _, decode_difop_invalid m s pkt hid⟩

/-- C11, at a sample input: a decoder whose flag is set keeps flag and lists through a
DIFOP packet with valid magic and populated calibration regions. -/
theorem difop_flag_monotonic_witness :
    loadedDecoder.difop_flag_ = true ∧
    ∃ r s', decode_difop Model.RS32 loadedDecoder (sampleDifop 1 600 1 2 3) = some (r, s') ∧
      s'.difop_flag_ = true ∧
      s'.vert_angle_list_ = loadedDecoder.vert_angle_list_ ∧
      s'.hori_angle_list_ = loadedDecoder.hori_angle_list_ := by
  obtain ⟨-, hret, hkeep, -⟩ := difop_flag_monotonic Model.RS32 loadedDecoder rfl
  obtain ⟨r, s', h⟩ := hret (sampleDifop 1 600 1 2 3)
    (Or.inr (by rw [difop_rpm_sample 1 600 1 2 3 (by norm_num)]; decide))
  exact ⟨rfl, r, s', h, hkeep _ r s' h⟩


/-! ## Parsed calibration values -/

/-- A sign byte that is 0 or 1 fixes `neg`, whatever it was: 0 gives `+1`, 1 gives `-1`. -/
theorem updNeg_of_le_one (lsb : U8) (neg : Int) (h : lsb.val = 0 ∨ lsb.val = 1) :
    updNeg lsb neg = if lsb.val = 0 then 1 else -1 := by
  unfold updNeg
  rcases h with h | h
  · simp [h]
  · simp [h]

/-- The lists that a populated packet leaves in a decoder whose flag was clear. -/
theorem difopAfter_lists (m : Model) (s : DecoderBase) (pkt : DifopPkt)
    (hfl : s.difop_flag_ = false) (hpop : caliEmpty pkt.pitch_cali = false) (i : Fin 32) :
    (difopAfter m s pkt).vert_angle_list_ i
      = ((magnitude pkt.pitch_cali i : Int) * pitchNeg pkt i : Int) * m.caliScale ∧
    (difopAfter m s pkt).hori_angle_list_ i
      = ((magnitude pkt.yaw_cali i : Int) * yawNeg pkt i : Int) * m.caliScale := by
  simp only [difopAfter, hfl, hpop, and_self, if_true]
  exact ⟨rfl, rfl⟩

theorem caliScale_eq (m : Model) :
    m.caliScale = (match m with
      | Model.RS32 => 1 / 10
      | Model.RSBP => 1) := by
  cases m <;> rfl

theorem caliEmpty_eq_false (cali : Fin 96 → U8)
    (h : ¬ (((cali 0).val = 0x00 ∨ (cali 0).val = 0xFF) ∧
      ((cali 1).val = 0x00 ∨ (cali 1).val = 0xFF) ∧
      ((cali 2).val = 0x00 ∨ (cali 2).val = 0xFF))) :
    caliEmpty cali = false := by
  rw [← caliEmpty_iff] at h
  simpa using h

/-- C12: for every DIFOP packet with valid magic that passes the populated check (not
all of the first three `pitch_cali` bytes are `0x00` or `0xFF`), received while
`difop_flag_` is false, and in which every sign byte of `pitch_cali` and `yaw_cali` is 0
or 1: the call returns whenever the rpm field is not zero, and whenever it returns, for
every channel `i` in 0..31, with the sign byte at offset `3 i` and the magnitude
`msb * 256 + lsb` from the bytes at offsets `3 i + 1` and `3 i + 2`, the entry
`vert_angle_list_[i]` is the magnitude if the sign byte is 0 and minus the magnitude if it
is 1, taken from `pitch_cali`, and `hori_angle_list_[i]` likewise from `yaw_cali`, both
times the scale of the model: 1 for RSBP, 0.1 for RS32. -/
theorem calibration_values_signed (m : Model) (s : DecoderBase) (pkt : DifopPkt)
    (hid : pkt.id = m.DIFOP_ID) (hfl : s.difop_flag_ = false)
    (hpop : ¬ (((pkt.pitch_cali 0).val = 0x00 ∨ (pkt.pitch_cali 0).val = 0xFF) ∧
      ((pkt.pitch_cali 1).val = 0x00 ∨ (pkt.pitch_cali 1).val = 0xFF) ∧
      ((pkt.pitch_cali 2).val = 0x00 ∨ (pkt.pitch_cali 2).val = 0xFF)))
    (hsign : ∀ i : Fin 32,
      ((pkt.pitch_cali ⟨i.val * 3, by omega⟩).val = 0 ∨
        (pkt.pitch_cali ⟨i.val * 3, by omega⟩).val = 1) ∧
      ((pkt.yaw_cali ⟨i.val * 3, by omega⟩).val = 0 ∨
        (pkt.yaw_cali ⟨i.val * 3, by omega⟩).val = 1)) :
    (RS_SWAP_SHORT pkt.rpm ≠ 0 →
      ∃ s', decode_difop m s pkt = some (RSDecoderResult.DECODE_OK, s')) ∧
    ∀ (r : RSDecoderResult) (s' : DecoderBase), decode_difop m s pkt = some (r, s') →
      ∀ i : Fin 32,
        s'.vert_angle_list_ i =
          (if (pkt.pitch_cali ⟨i.val * 3, by omega⟩).val = 0
            then (((pkt.pitch_cali ⟨i.val * 3 + 1, by omega⟩).val * 256 +
              (pkt.pitch_cali ⟨i.val * 3 + 2, by omega⟩).val : Nat) : ℚ)
            else -(((pkt.pitch_cali ⟨i.val * 3 + 1, by omega⟩).val * 256 +
              (pkt.pitch_cali ⟨i.val * 3 + 2, by omega⟩).val : Nat) : ℚ)) *
          (match m with
            | Model.RS32 => 1 / 10
            | Model.RSBP => 1) ∧
        s'.hori_angle_list_ i =
          (if (pkt.yaw_cali ⟨i.val * 3, by omega⟩).val = 0
            then (((pkt.yaw_cali ⟨i.val * 3 + 1, by omega⟩).val * 256 +
              (pkt.yaw_cali ⟨i.val * 3 + 2, by omega⟩).val : Nat) : ℚ)
            else -(((pkt.yaw_cali ⟨i.val * 3 + 1, by omega⟩).val * 256 +
              (pkt.yaw_cali ⟨i.val * 3 + 2, by omega⟩).val : Nat) : ℚ)) *
          (match m with
            | Model.RS32 => 1 / 10
            | Model.RSBP => 1) := by
  refine ⟨fun hr => ⟨_, decode_difop_returns m s pkt hid hr⟩, ?_⟩
  intro r s' h i
  obtain ⟨-, rfl⟩ := decode_difop_some m s pkt hid r s' h
  obtain ⟨hv, hh⟩ := difopAfter_lists m s pkt hfl (caliEmpty_eq_false _ hpop) i
  have hp : pitchNeg pkt i = if (pkt.pitch_cali ⟨i.val * 3, by omega⟩).val = 0 then 1 else -1 :=
    updNeg_of_le_one _ _ (hsign i).1
  have hy : yawNeg pkt i = if (pkt.yaw_cali ⟨i.val * 3, by omega⟩).val = 0 then 1 else -1 :=
    updNeg_of_le_one _ _ (hsign i).2
  rw [hv, hh, hp, hy, caliScale_eq m]
  constructor
  · congr 1
    split_ifs <;> simp [magnitude]
  · congr 1
    split_ifs <;> simp [magnitude]

/-- C12, at a sample packet: every group of both regions is `{1, 2, 3}`, sign byte 1 and
magnitude `2 * 256 + 3 = 515`; the RSBP decoder stores -515 in entry 5 of both lists and
the RS32 decoder stores -51.5. -/
theorem calibration_values_signed_witness :
    (sampleDifop 1 600 1 2 3).id = Model.RSBP.DIFOP_ID ∧
    baseDecoder.difop_flag_ = false ∧
    (∃ s', decode_difop Model.RSBP baseDecoder (sampleDifop 1 600 1 2 3)
        = some (RSDecoderResult.DECODE_OK, s') ∧
      s'.vert_angle_list_ 5 = -515 ∧ s'.hori_angle_list_ 5 = -515) ∧
    (∃ s', decode_difop Model.RS32 baseDecoder (sampleDifop 1 600 1 2 3)
        = some (RSDecoderResult.DECODE_OK, s') ∧
      s'.vert_angle_list_ 5 = -515 / 10 ∧ s'.hori_angle_list_ 5 = -515 / 10) := by
  have hpop : ¬ ((((sampleDifop 1 600 1 2 3).pitch_cali 0).val = 0x00 ∨
        ((sampleDifop 1 600 1 2 3).pitch_cali 0).val = 0xFF) ∧
      (((sampleDifop 1 600 1 2 3).pitch_cali 1).val = 0x00 ∨
        ((sampleDifop 1 600 1 2 3).pitch_cali 1).val = 0xFF) ∧
      (((sampleDifop 1 600 1 2 3).pitch_cali 2).val = 0x00 ∨
        ((sampleDifop 1 600 1 2 3).pitch_cali 2).val = 0xFF)) := by decide
  have hsign : ∀ i : Fin 32,
      (((sampleDifop 1 600 1 2 3).pitch_cali ⟨i.val * 3, by omega⟩).val = 0 ∨
        ((sampleDifop 1 600 1 2 3).pitch_cali ⟨i.val * 3, by omega⟩).val = 1) ∧
      (((sampleDifop 1 600 1 2 3).yaw_cali ⟨i.val * 3, by omega⟩).val = 0 ∨
        ((sampleDifop 1 600 1 2 3).yaw_cali ⟨i.val * 3, by omega⟩).val = 1) := by decide
  have hr : RS_SWAP_SHORT (sampleDifop 1 600 1 2 3).rpm ≠ 0 := by
    rw [difop_rpm_sample 1 600 1 2 3 (by norm_num)]
    decide
  have p0 : ((sampleDifop 1 600 1 2 3).pitch_cali ⟨(5 : Fin 32).val * 3, by omega⟩).val = 1 := by
    decide
  have p1 : ((sampleDifop 1 600 1 2 3).pitch_cali ⟨(5 : Fin 32).val * 3 + 1, by omega⟩).val
      = 2 := by decide
  have p2 : ((sampleDifop 1 600 1 2 3).pitch_cali ⟨(5 : Fin 32).val * 3 + 2, by omega⟩).val
      = 3 := by decide
  have y0 : ((sampleDifop 1 600 1 2 3).yaw_cali ⟨(5 : Fin 32).val * 3, by omega⟩).val = 1 := by
    decide
  have y1 : ((sampleDifop 1 600 1 2 3).yaw_cali ⟨(5 : Fin 32).val * 3 + 1, by omega⟩).val
      = 2 := by decide
  have y2 : ((sampleDifop 1 600 1 2 3).yaw_cali ⟨(5 : Fin 32).val * 3 + 2, by omega⟩).val
      = 3 := by decide
  refine ⟨by decide, rfl, ?_, ?_⟩
  · obtain ⟨hret, hval⟩ := calibration_values_signed Model.RSBP baseDecoder
      (sampleDifop 1 600 1 2 3) (by decide) rfl hpop hsign
    obtain ⟨s', hs'⟩ := hret hr
    obtain ⟨hv, hh⟩ := hval _ s' hs' 5
    rw [p0, p1, p2] at hv
    rw [y0, y1, y2] at hh
    refine ⟨s', hs', ?_, ?_⟩
    · rw [hv]
      norm_num
    · rw [hh]
      norm_num
  · obtain ⟨hret, hval⟩ := calibration_values_signed Model.RS32 baseDecoder
      (sampleDifop 1 600 1 2 3) (by decide) rfl hpop hsign
    obtain ⟨s', hs'⟩ := hret hr
    obtain ⟨hv, hh⟩ := hval _ s' hs' 5
    rw [p0, p1, p2] at hv
    rw [y0, y1, y2] at hh
    refine ⟨s', hs', ?_, ?_⟩
    · rw [hv]
      norm_num
    · rw [hh]
      norm_num

/-- C13, as stated, fails.  With sign byte 2 in the pitch group `{2, 1, 0}` of channel 0
the RSBP decoder stores `+256`, not `256 × (-1)`.  And the two packets `difopSign 0` and
`difopSign 1`, which carry the same three pitch bytes `{2, 1, 0}` for channel 1 and differ
only in the sign byte of channel 0, leave different values in `vert_angle_list_[1]`. -/
theorem calibration_value_not_own_bytes :
    (∃ s', decode_difop Model.RSBP baseDecoder (difopSign 2)
        = some (RSDecoderResult.DECODE_OK, s') ∧
      ((difopSign 2).pitch_cali ⟨(0 : Fin 32).val * 3, by omega⟩).val = 2 ∧
      ((difopSign 2).pitch_cali ⟨(0 : Fin 32).val * 3 + 1, by omega⟩).val * 256 +
        ((difopSign 2).pitch_cali ⟨(0 : Fin 32).val * 3 + 2, by omega⟩).val = 256 ∧
      s'.vert_angle_list_ 0 = 256 ∧ s'.vert_angle_list_ 0 ≠ 256 * (-1)) ∧
    (∃ s0 s1,
      decode_difop Model.RSBP baseDecoder (difopSign 0)
        = some (RSDecoderResult.DECODE_OK, s0) ∧
      decode_difop Model.RSBP baseDecoder (difopSign 1)
        = some (RSDecoderResult.DECODE_OK, s1) ∧
      (∀ k : Fin 3, (difopSign 0).pitch_cali ⟨(1 : Fin 32).val * 3 + k.val, by omega⟩
        = (difopSign 1).pitch_cali ⟨(1 : Fin 32).val * 3 + k.val, by omega⟩) ∧
      s0.vert_angle_list_ 1 = 256 ∧ s1.vert_angle_list_ 1 = -256) := by
  have hr : ∀ s0 : U8, RS_SWAP_SHORT (difopSign s0).rpm ≠ 0 := by
    intro s0
    have : RS_SWAP_SHORT (difopSign s0).rpm = 600 := swap_be16 600 (by norm_num)
    rw [this]
    decide
  have hret : ∀ s0 : U8, decode_difop Model.RSBP baseDecoder (difopSign s0)
      = some (RSDecoderResult.DECODE_OK, difopAfter Model.RSBP baseDecoder (difopSign s0)) :=
    fun s0 => decode_difop_returns Model.RSBP baseDecoder (difopSign s0) rfl (hr s0)
  have v2 := (difopAfter_lists Model.RSBP baseDecoder (difopSign 2) rfl (by decide) 0).1
  have v0 := (difopAfter_lists Model.RSBP baseDecoder (difopSign 0) rfl (by decide) 1).1
  have v1 := (difopAfter_lists Model.RSBP baseDecoder (difopSign 1) rfl (by decide) 1).1
  have m2 : magnitude (difopSign 2).pitch_cali 0 = 256 := by decide
  have n2 : pitchNeg (difopSign 2) 0 = 1 := by decide
  have m0 : magnitude (difopSign 0).pitch_cali 1 = 256 := by decide
  have n0 : pitchNeg (difopSign 0) 1 = 1 := by decide
  have m1 : magnitude (difopSign 1).pitch_cali 1 = 256 := by decide
  have n1 : pitchNeg (difopSign 1) 1 = -1 := by decide
  rw [m2, n2] at v2
  rw [m0, n0] at v0
  rw [m1, n1] at v1
  refine ⟨⟨_, hret 2, by decide, by decide, ?_, ?_⟩, ⟨_, _, hret 0, hret 1, by decide, ?_, ?_⟩⟩
  · rw [v2]
    norm_num [Model.caliScale]
  · rw [v2]
    norm_num [Model.caliScale]
  · rw [v0]
    norm_num [Model.caliScale]
  · rw [v1]
    norm_num [Model.caliScale]

/-- C13 (amended): for every DIFOP packet with valid magic that populates the calibration
(flag clear, populated check passed) and every channel `i` in 0..31, with no restriction
on the sign bytes of the other groups: whenever the call returns, a pitch group of channel
`i` whose own sign byte is 0 leaves `vert_angle_list_[i] = (msb * 256 + lsb) × scale` and
one whose own sign byte is 1 leaves `-(msb * 256 + lsb) × scale`, and the yaw group does
the same for `hori_angle_list_[i]` (scale 1 for RSBP, 0.1 for RS32); so for a sign byte
0 or 1 the stored value is fixed by the three bytes of the channel's own group. -/
theorem calibration_value_own_bytes (m : Model) (s : DecoderBase) (pkt : DifopPkt)
    (i : Fin 32) (hid : pkt.id = m.DIFOP_ID) (hfl : s.difop_flag_ = false)
    (hpop : ¬ (((pkt.pitch_cali 0).val = 0x00 ∨ (pkt.pitch_cali 0).val = 0xFF) ∧
      ((pkt.pitch_cali 1).val = 0x00 ∨ (pkt.pitch_cali 1).val = 0xFF) ∧
      ((pkt.pitch_cali 2).val = 0x00 ∨ (pkt.pitch_cali 2).val = 0xFF))) :
    (RS_SWAP_SHORT pkt.rpm ≠ 0 →
      ∃ s', decode_difop m s pkt = some (RSDecoderResult.DECODE_OK, s')) ∧
    ∀ (r : RSDecoderResult) (s' : DecoderBase), decode_difop m s pkt = some (r, s') →
      ((pkt.pitch_cali ⟨i.val * 3, by omega⟩).val = 0 →
        s'.vert_angle_list_ i =
          (((pkt.pitch_cali ⟨i.val * 3 + 1, by omega⟩).val * 256 +
            (pkt.pitch_cali ⟨i.val * 3 + 2, by omega⟩).val : Nat) : ℚ) * m.caliScale) ∧
      ((pkt.pitch_cali ⟨i.val * 3, by omega⟩).val = 1 →
        s'.vert_angle_list_ i =
          -(((pkt.pitch_cali ⟨i.val * 3 + 1, by omega⟩).val * 256 +
            (pkt.pitch_cali ⟨i.val * 3 + 2, by omega⟩).val : Nat) : ℚ) * m.caliScale) ∧
      ((pkt.yaw_cali ⟨i.val * 3, by omega⟩).val = 0 →
        s'.hori_angle_list_ i =
          (((pkt.yaw_cali ⟨i.val * 3 + 1, by omega⟩).val * 256 +
            (pkt.yaw_cali ⟨i.val * 3 + 2, by omega⟩).val : Nat) : ℚ) * m.caliScale) ∧
      ((pkt.yaw_cali ⟨i.val * 3, by omega⟩).val = 1 →
        s'.hori_angle_list_ i =
          -(((pkt.yaw_cali ⟨i.val * 3 + 1, by omega⟩).val * 256 +
            (pkt.yaw_cali ⟨i.val * 3 + 2, by omega⟩).val : Nat) : ℚ) * m.caliScale) := by
  refine ⟨fun hr => ⟨_, decode_difop_returns m s pkt hid hr⟩, ?_⟩
  intro r s' h
  obtain ⟨-, rfl⟩ := decode_difop_some m s pkt hid r s' h
  obtain ⟨hv, hh⟩ := difopAfter_lists m s pkt hfl (caliEmpty_eq_false _ hpop) i
  rw [hv, hh]
  refine ⟨fun h0 => ?_, fun h1 => ?_, fun h0 => ?_, fun h1 => ?_⟩
  · have hs : (signByte pkt.pitch_cali i).val = 0 := h0
    have hp : pitchNeg pkt i = 1 := by
      unfold pitchNeg
      rw [updNeg_of_le_one _ _ (Or.inl hs), hs]
      rfl
    rw [hp]
    simp [magnitude]
  · have hs : (signByte pkt.pitch_cali i).val = 1 := h1
    have hp : pitchNeg pkt i = -1 := by
      unfold pitchNeg
      rw [updNeg_of_le_one _ _ (Or.inr hs), hs]
      rfl
    rw [hp]
    simp [magnitude]
  · have hs : (signByte pkt.yaw_cali i).val = 0 := h0
    have hp : yawNeg pkt i = 1 := by
      unfold yawNeg
      rw [updNeg_of_le_one _ _ (Or.inl hs), hs]
      rfl
    rw [hp]
    simp [magnitude]
  · have hs : (signByte pkt.yaw_cali i).val = 1 := h1
    have hp : yawNeg pkt i = -1 := by
      unfold yawNeg
      rw [updNeg_of_le_one _ _ (Or.inr hs), hs]
      rfl
    rw [hp]
    simp [magnitude]

/-- C13 (amended), at a sample packet: in `difopSign 1` the pitch group of channel 0 is
`{1, 1, 0}` and every other group has sign byte 2; the RSBP decoder stores -256 in
`vert_angle_list_[0]`. -/
theorem calibration_value_own_bytes_witness :
    (difopSign 1).id = Model.RSBP.DIFOP_ID ∧
    baseDecoder.difop_flag_ = false ∧
    ((difopSign 1).pitch_cali ⟨(0 : Fin 32).val * 3, by omega⟩).val = 1 ∧
    ∃ s', decode_difop Model.RSBP baseDecoder (difopSign 1)
        = some (RSDecoderResult.DECODE_OK, s') ∧
      s'.vert_angle_list_ 0 = -256 := by
  have hr : RS_SWAP_SHORT (difopSign 1).rpm ≠ 0 := by
    have : RS_SWAP_SHORT (difopSign 1).rpm = 600 := swap_be16 600 (by norm_num)
    rw [this]
    decide
  have h1 : ((difopSign 1).pitch_cali ⟨(0 : Fin 32).val * 3, by omega⟩).val = 1 := by decide
  obtain ⟨hret, hval⟩ := calibration_value_own_bytes Model.RSBP baseDecoder (difopSign 1) 0
    (by decide) rfl (by decide)
  obtain ⟨s', hs'⟩ := hret hr
  have hv := (hval _ s' hs').2.1 h1
  have b1 : ((difopSign 1).pitch_cali ⟨(0 : Fin 32).val * 3 + 1, by omega⟩).val = 1 := by
    decide
  have b2 : ((difopSign 1).pitch_cali ⟨(0 : Fin 32).val * 3 + 2, by omega⟩).val = 0 := by
    decide
  rw [b1, b2] at hv
  refine ⟨by decide, rfl, h1, s', hs', ?_⟩
  rw [hv]
  norm_num [Model.caliScale]

/-- With a valid magic and a zero rpm field the call does not return: the quotient in the
`pkts_per_frame_` assignment divides integers by zero. -/
theorem decode_difop_rpm_zero (m : Model) (s : DecoderBase) (pkt : DifopPkt)
    (hid : pkt.id = m.DIFOP_ID) (hr : RS_SWAP_SHORT pkt.rpm = 0) :
    decode_difop m s pkt = none := by
  rw [decode_difop_valid m s pkt hid, if_pos hr]

/-- C14, at a failing input: a DIFOP packet with valid magic and rpm field 0 makes both
decoders divide by zero; the call has no result. -/
theorem difop_zero_rpm_divides_by_zero :
    (sampleDifop 1 0 0 0 0).id = Model.RS32.DIFOP_ID ∧
    (sampleDifop 1 0 0 0 0).id = Model.RSBP.DIFOP_ID ∧
    RS_SWAP_SHORT (sampleDifop 1 0 0 0 0).rpm = 0 ∧
    decode_difop Model.RS32 baseDecoder (sampleDifop 1 0 0 0 0) = none ∧
    decode_difop Model.RSBP baseDecoder (sampleDifop 1 0 0 0 0) = none := by
  have hr : RS_SWAP_SHORT (sampleDifop 1 0 0 0 0).rpm = 0 :=
    difop_rpm_sample 1 0 0 0 0 (by norm_num)
  exact ⟨rfl, rfl, hr, decode_difop_rpm_zero Model.RS32 _ _ rfl hr,
    decode_difop_rpm_zero Model.RSBP _ _ rfl hr⟩

/-! ## Table indices -/


theorem restrictTable_of_mem (t : Int → ℚ) (i : Int) (h : 0 ≤ i ∧ i < 36000) :
    restrictTable t i = t i := by
  simp [restrictTable, h.1, h.2]

/-- Cutting the tables down to `[0, 36000)` changes no emitted point, because every index
the channel loop computes lies in that range. -/
theorem channelPoint_restrictTables (m : Model) (s : DecoderBase) (pkt : MsopPkt)
    (b : Fin 12) (c : Fin 32) :
    m.channelPoint (restrictTables s) pkt b c = m.channelPoint s pkt b c := by
  have hv := wrap_spec (toInt (s.vert_angle_list_ c))
  have hh := angle_horiz_spec m s pkt b c
  have ha : 0 ≤ azimuthCalibration s (channelAzimuth m s pkt b c) c ∧
      azimuthCalibration s (channelAzimuth m s pkt b c) c < 36000 :=
    ⟨(wrap_spec _).1, (wrap_spec _).2.1⟩
  classical
  rw [channelPoint_eq, channelPoint_eq]
  have hadm : admitted m (restrictTables s) pkt b c ↔ admitted m s pkt b c := by
    cases m <;> exact Iff.rfl
  by_cases h : admitted m s pkt b c
  · rw [if_pos h, if_pos (hadm.mpr h)]
    have e1 : channelAzimuth m (restrictTables s) pkt b c = channelAzimuth m s pkt b c := by
      cases m <;> rfl
    have e2 : ∀ q, azimuthCalibration (restrictTables s) q c = azimuthCalibration s q c :=
      fun q => rfl
    have e3 : (restrictTables s).vert_angle_list_ = s.vert_angle_list_ := rfl
    have e4 : (restrictTables s).cos_lookup_table_ = restrictTable s.cos_lookup_table_ := rfl
    have e5 : (restrictTables s).sin_lookup_table_ = restrictTable s.sin_lookup_table_ := rfl
    simp only [e1, e2, e3, e4, e5, restrictTable_of_mem _ _ ⟨hv.1, hv.2.1⟩,
      restrictTable_of_mem _ _ ⟨hh.1, hh.2.1⟩, restrictTable_of_mem _ _ ha]
  · rw [if_neg h, if_neg (fun h' => h (hadm.mp h'))]

/-- C15: for both models, every decoder (either echo mode, any calibration lists) and
every MSOP packet, with the block azimuth fields ranging over all 16-bit values: for every
channel `c` of every block `b` the three indices with which the channel loop reads the
sine and cosine tables, the vertical-angle index `angle_vert`, the pre-calibration azimuth
index `angle_horiz` and the calibrated azimuth index (the wrap of the raw azimuth plus
`hori_angle_list_[c]`), are integers in `[0, 36000)`; accordingly `decode_msop` appends
the same points when both tables are cut down to their entries at indices in
`[0, 36000)`. -/
theorem table_indices_in_range (m : Model) (ops : DecoderBaseOps) (s : DecoderBase)
    (pkt : MsopPkt) (vec : List Point) (az : Int) :
    (∀ (b : Fin 12) (c : Fin 32),
      (0 ≤ Int.tmod (Int.tmod (toInt (s.vert_angle_list_ c)) 36000 + 36000) 36000 ∧
        Int.tmod (Int.tmod (toInt (s.vert_angle_list_ c)) 36000 + 36000) 36000 < 36000) ∧
      (0 ≤ Int.tmod (toInt (channelAzimuth m s pkt b c + 36000)) 36000 ∧
        Int.tmod (toInt (channelAzimuth m s pkt b c + 36000)) 36000 < 36000) ∧
      (0 ≤ azimuthCalibration s (channelAzimuth m s pkt b c) c ∧
        azimuthCalibration s (channelAzimuth m s pkt b c) c < 36000)) ∧
    (decode_msop m ops (restrictTables s) pkt vec az).vec
      = (decode_msop m ops s pkt vec az).vec := by
  constructor
  · intro b c
    have hv := wrap_spec (toInt (s.vert_angle_list_ c))
    have hh := angle_horiz_spec m s pkt b c
    exact ⟨⟨hv.1, hv.2.1⟩, ⟨hh.1, hh.2.1⟩, (wrap_spec _).1, (wrap_spec _).2.1⟩
  · by_cases hid : pkt.header.id = m.MSOP_ID
    · rw [(decode_msop_valid m ops _ pkt vec az hid).2,
        (decode_msop_valid m ops s pkt vec az hid).2]
      congr 1
      unfold decodedPoints
      congr 1
      funext b
      congr 1
      funext c
      exact channelPoint_restrictTables m s pkt b c
    · rw [(decode_msop_invalid m ops _ pkt vec az hid).2.1,
        (decode_msop_invalid m ops s pkt vec az hid).2.1]

/-! ## Echo mode and azimuth interpolation -/


/-- In DUAL mode the step of a block below index 10 is measured to the block two
further on. -/
theorem aziDiff_dual (m : Model) (s : DecoderBase) (pkt : MsopPkt) (b : Fin 12)
    (h : b.val < 10) :
    m.aziDiff (withEcho s RSEchoMode.ECHO_DUAL) pkt b =
      Int.tmod (36000 + (RS_SWAP_SHORT (pkt.blocks ⟨b.val + 2, by omega⟩).azimuth : Int) -
        (RS_SWAP_SHORT (pkt.blocks b).azimuth : Int)) 36000 := by
  cases m
  · simp [Model.aziDiff, RS32.aziDiff, withEcho, RS32.RS32_BLOCKS_PER_PKT, h]
  · simp [Model.aziDiff, RSBP.aziDiff, withEcho, RSBP.RSBP_BLOCKS_PER_PKT, h]

/-- In the other two modes the step of a block below index 11 is measured to the next
block. -/
theorem aziDiff_single (m : Model) (s : DecoderBase) (e : RSEchoMode)
    (he : e ≠ RSEchoMode.ECHO_DUAL) (pkt : MsopPkt) (b : Fin 12) (h : b.val < 11) :
    m.aziDiff (withEcho s e) pkt b =
      Int.tmod (36000 + (RS_SWAP_SHORT (pkt.blocks ⟨b.val + 1, by omega⟩).azimuth : Int) -
        (RS_SWAP_SHORT (pkt.blocks b).azimuth : Int)) 36000 := by
  cases m
  · simp [Model.aziDiff, RS32.aziDiff, withEcho, RS32.RS32_BLOCKS_PER_PKT, h, he]
  · simp [Model.aziDiff, RSBP.aziDiff, withEcho, RSBP.RSBP_BLOCKS_PER_PKT, h, he]

/-- C16, as stated, fails.  In the sample packet, whose blocks all carry azimuth 9000,
channel 1 of block 0 (not the last block) gets the same pre-calibration azimuth in DUAL and
in STRONGEST mode; and in the packet whose azimuth rises by one degree per block, channel 0
of block 0 gets the same pre-calibration azimuth in both modes. -/
theorem echo_modes_same_azimuth :
    (pktAt 9000 2000).header.id = Model.RS32.MSOP_ID ∧
    validBlocks Model.RS32 (pktAt 9000 2000) = 12 ∧
    channelAzimuth Model.RS32 (withEcho baseDecoder RSEchoMode.ECHO_DUAL) (pktAt 9000 2000) 0 1
      = channelAzimuth Model.RS32 (withEcho baseDecoder RSEchoMode.ECHO_STRONGEST)
          (pktAt 9000 2000) 0 1 ∧
    validBlocks Model.RS32 pktRamp = 12 ∧
    channelAzimuth Model.RS32 (withEcho baseDecoder RSEchoMode.ECHO_DUAL) pktRamp 0 0
      = channelAzimuth Model.RS32 (withEcho baseDecoder RSEchoMode.ECHO_STRONGEST)
          pktRamp 0 0 := by
  refine ⟨by decide, validBlocks_pktAt _ _ _, ?_, by decide, ?_⟩
  · have hd := aziDiff_dual Model.RS32 baseDecoder (pktAt 9000 2000) 0 (by decide)
    have hs := aziDiff_single Model.RS32 baseDecoder RSEchoMode.ECHO_STRONGEST (by decide)
      (pktAt 9000 2000) 0 (by decide)
    rw [azimuth_pktAt 9000 2000 (by norm_num), azimuth_pktAt 9000 2000 (by norm_num)] at hd hs
    unfold channelAzimuth
    rw [hd, hs]
  · unfold channelAzimuth
    simp

/-- C16 (amended): for both models and every MSOP packet, decoding with echo mode DUAL
and with echo mode STRONGEST or LAST, all other members equal: the pre-calibration
azimuth of channel `c` of block `b` differs between the two exactly when `c mod 16 ≠ 0` and
the azimuth steps of the block differ; for a block `b ≤ 9` the step is
`(36000 + A_{b+2} − A_b) % 36000` in DUAL mode (stride 2) and
`(36000 + A_{b+1} − A_b) % 36000` in the other modes (stride 1). -/
theorem echo_modes_azimuth_differ_iff (m : Model) (s : DecoderBase) (e : RSEchoMode)
    (he : e ≠ RSEchoMode.ECHO_DUAL) (pkt : MsopPkt) (b : Fin 12) (c : Fin 32) :
    (channelAzimuth m (withEcho s RSEchoMode.ECHO_DUAL) pkt b c
        ≠ channelAzimuth m (withEcho s e) pkt b c ↔
      c.val % 16 ≠ 0 ∧
        m.aziDiff (withEcho s RSEchoMode.ECHO_DUAL) pkt b ≠ m.aziDiff (withEcho s e) pkt b) ∧
    (∀ h : b.val < 10,
      m.aziDiff (withEcho s RSEchoMode.ECHO_DUAL) pkt b =
        Int.tmod (36000 + (RS_SWAP_SHORT (pkt.blocks ⟨b.val + 2, by omega⟩).azimuth : Int) -
          (RS_SWAP_SHORT (pkt.blocks b).azimuth : Int)) 36000 ∧
      m.aziDiff (withEcho s e) pkt b =
        Int.tmod (36000 + (RS_SWAP_SHORT (pkt.blocks ⟨b.val + 1, by omega⟩).azimuth : Int) -
          (RS_SWAP_SHORT (pkt.blocks b).azimuth : Int)) 36000) := by
  refine ⟨?_, fun h => ⟨aziDiff_dual m s pkt b h, aziDiff_single m s e he pkt b (by omega)⟩⟩
  unfold channelAzimuth
  constructor
  · intro hne
    constructor
    · intro hk
      apply hne
      rw [hk]
      simp
    · intro hd
      apply hne
      rw [hd]
  · rintro ⟨hk, hd⟩ heq
    have h1 : (m.aziDiff (withEcho s RSEchoMode.ECHO_DUAL) pkt b : ℚ) * 3 *
        ((c.val % 16 : Nat) : ℚ) / 50
        = (m.aziDiff (withEcho s e) pkt b : ℚ) * 3 * ((c.val % 16 : Nat) : ℚ) / 50 :=
      add_left_cancel heq
    field_simp at h1
    rcases h1 with h1 | h1
    · exact hd h1
    · exact hk h1

/-- C16 (amended), at a sample packet: with the azimuth rising by one degree per block,
channel 1 of block 0 gets the pre-calibration azimuth `0 + 200 · 3 / 50 = 12` in DUAL mode
and `0 + 100 · 3 / 50 = 6` in STRONGEST mode. -/
theorem echo_modes_azimuth_differ_iff_witness :
    RSEchoMode.ECHO_STRONGEST ≠ RSEchoMode.ECHO_DUAL ∧
    (0 : Fin 12).val < 10 ∧
    channelAzimuth Model.RS32 (withEcho baseDecoder RSEchoMode.ECHO_DUAL) pktRamp 0 1 = 12 ∧
    channelAzimuth Model.RS32 (withEcho baseDecoder RSEchoMode.ECHO_STRONGEST) pktRamp 0 1
      = 6 ∧
    channelAzimuth Model.RS32 (withEcho baseDecoder RSEchoMode.ECHO_DUAL) pktRamp 0 1
      ≠ channelAzimuth Model.RS32 (withEcho baseDecoder RSEchoMode.ECHO_STRONGEST)
          pktRamp 0 1 := by
  have he : RSEchoMode.ECHO_STRONGEST ≠ RSEchoMode.ECHO_DUAL := by decide
  obtain ⟨hiff, hstep⟩ := echo_modes_azimuth_differ_iff Model.RS32 baseDecoder
    RSEchoMode.ECHO_STRONGEST he pktRamp 0 1
  obtain ⟨hd, hs⟩ := hstep (by decide)
  have a0 : RS_SWAP_SHORT (pktRamp.blocks 0).azimuth = 0 := swap_be16 0 (by norm_num)
  have a1 : RS_SWAP_SHORT (pktRamp.blocks ⟨(0 : Fin 12).val + 1, by decide⟩).azimuth = 100 :=
    swap_be16 100 (by norm_num)
  have a2 : RS_SWAP_SHORT (pktRamp.blocks ⟨(0 : Fin 12).val + 2, by decide⟩).azimuth = 200 :=
    swap_be16 200 (by norm_num)
  rw [a0, a2] at hd
  rw [a0, a1] at hs
  have hd' : Model.RS32.aziDiff (withEcho baseDecoder RSEchoMode.ECHO_DUAL) pktRamp 0 = 200 := by
    rw [hd]
    decide
  have hs' : Model.RS32.aziDiff (withEcho baseDecoder RSEchoMode.ECHO_STRONGEST) pktRamp 0
      = 100 := by
    rw [hs]
    decide
  refine ⟨he, by decide, ?_, ?_, hiff.mpr ⟨by decide, by rw [hd', hs']; decide⟩⟩
  · unfold channelAzimuth
    rw [hd', a0]
    norm_num
  · unfold channelAzimuth
    rw [hs', a0]
    norm_num

/-! ## Ring index -/

/-- The sample packet (raw distance 2000, that is 10 m) passes the admission test of a
fresh RSBP decoder in block 0, channel 0. -/
theorem admitted_sample_rsbp :
    admitted Model.RSBP (freshDecoder Model.RSBP) (pktAt 9000 2000) 0 0 := by
  unfold admitted
  rw [fresh_azimuth, rawDistance_pktAt 9000 2000 (by norm_num), fresh_rsbp_min,
    fresh_rsbp_max, (fresh_window Model.RSBP).1, (fresh_window Model.RSBP).2.1,
    (fresh_window Model.RSBP).2.2]
  norm_num [RS_RESOLUTION]

/-- C17: the RSBP beam-ring table is a permutation of `{0, …, 31}`: every entry lies in
0..31, no two channel indices map to the same ring index, and every ring index in 0..31 is
the entry of some channel; and every admitted RSBP point of channel `c` carries
`ring = beam_ring_table_[c]`. -/
theorem beam_ring_permutation :
    (∀ c : Fin 32, 0 ≤ RSBP.beam_ring_table_ c ∧ RSBP.beam_ring_table_ c ≤ 31) ∧
    (∀ c c' : Fin 32, RSBP.beam_ring_table_ c = RSBP.beam_ring_table_ c' → c = c') ∧
    (∀ r : Fin 32, ∃ c : Fin 32, RSBP.beam_ring_table_ c = (r.val : Int)) ∧
    (∀ (ops : DecoderBaseOps) (s : DecoderBase) (pkt : MsopPkt) (vec : List Point) (az : Int)
      (b : Fin 12) (c : Fin 32),
      pkt.header.id = Model.RSBP.MSOP_ID → b.val < validBlocks Model.RSBP pkt →
      admitted Model.RSBP s pkt b c →
      ∃ p : Point,
        (decode_msop Model.RSBP ops s pkt vec az).vec[vec.length + (32 * b.val + c.val)]?
          = some p ∧
        p.ring = some (RSBP.beam_ring_table_ c)) := by
  refine ⟨by decide, by decide, by decide, ?_⟩
  intro ops s pkt vec az b c hid hb hadm
  classical
  refine ⟨Model.RSBP.channelPoint s pkt b c,
    decode_msop_getElem? Model.RSBP ops s pkt vec az b c hid hb, ?_⟩
  rw [channelPoint_eq, if_pos hadm]
  rfl

/-- C17, at a sample input: the first point a fresh RSBP decoder emits for the sample
packet, channel 0 of block 0, carries ring 31. -/
theorem beam_ring_permutation_witness :
    (pktAt 9000 2000).header.id = Model.RSBP.MSOP_ID ∧
    (0 : Fin 12).val < validBlocks Model.RSBP (pktAt 9000 2000) ∧
    admitted Model.RSBP (freshDecoder Model.RSBP) (pktAt 9000 2000) 0 0 ∧
    ∃ p : Point,
      (decode_msop Model.RSBP sampleOps (freshDecoder Model.RSBP) (pktAt 9000 2000) [] 0).vec[
        ([] : List Point).length + (32 * (0 : Fin 12).val + (0 : Fin 32).val)]? = some p ∧
      p.ring = some 31 := by
  have h1 : (pktAt 9000 2000).header.id = Model.RSBP.MSOP_ID := by decide
  have h2 : (0 : Fin 12).val < validBlocks Model.RSBP (pktAt 9000 2000) := by
    rw [validBlocks_pktAt]
    decide
  obtain ⟨p, hp, hring⟩ := beam_ring_permutation.2.2.2 sampleOps (freshDecoder Model.RSBP)
    (pktAt 9000 2000) [] 0 0 0 h1 h2 admitted_sample_rsbp
  exact ⟨h1, h2, admitted_sample_rsbp, p, hp, hring⟩

/-! ## The constructor and the distance window -/

/-- The distance window the constructor leaves: `max_distance` is lowered to the upper
hard limit when it exceeds it, and `min_distance` is replaced by the lower hard limit when
it is below that limit or above the resulting `max_distance`. -/
theorem new_decoder_param (m : Model) (s0 : DecoderBase) :
    (new_decoder m s0).param_.max_distance
      = (if s0.param_.max_distance > m.hardMax then m.hardMax else s0.param_.max_distance) ∧
    (new_decoder m s0).param_.min_distance
      = (if s0.param_.min_distance < m.hardMin ∨
            s0.param_.min_distance >
              (if s0.param_.max_distance > m.hardMax then m.hardMax
                else s0.param_.max_distance)
          then m.hardMin else s0.param_.min_distance) := by
  cases m
  · simp only [new_decoder, RS32.DecoderRS32, Model.hardMax, Model.hardMin]
    by_cases h1 : s0.param_.max_distance > 200
    · simp only [h1, if_true]
      split_ifs <;> exact ⟨rfl, rfl⟩
    · simp only [h1, if_false]
      split_ifs <;> exact ⟨rfl, rfl⟩
  · simp only [new_decoder, RSBP.DecoderRSBP, Model.hardMax, Model.hardMin]
    by_cases h1 : s0.param_.max_distance > 100
    · simp only [h1, if_true]
      split_ifs <;> exact ⟨rfl, rfl⟩
    · simp only [h1, if_false]
      split_ifs <;> exact ⟨rfl, rfl⟩

theorem hardMin_pos (m : Model) : 0 < m.hardMin := by
  cases m <;> norm_num [Model.hardMin]

/-- After construction `min_distance` is at least the lower hard limit, hence positive. -/
theorem new_decoder_min (m : Model) (s0 : DecoderBase) :
    m.hardMin ≤ (new_decoder m s0).param_.min_distance := by
  rw [(new_decoder_param m s0).2]
  by_cases h : s0.param_.min_distance < m.hardMin ∨
      s0.param_.min_distance >
        (if s0.param_.max_distance > m.hardMax then m.hardMax else s0.param_.max_distance)
  · rw [if_pos h]
  · rw [if_neg h]
    push_neg at h
    exact h.1

/-- Neither entry point writes the configuration `param_`. -/
theorem call_apply_param (m : Model) (s s' : DecoderBase) (c : Call)
    (h : c.apply m s = some s') : s'.param_ = s.param_ := by
  cases c with
  | msop ops pkt vec az =>
    simp only [Call.apply, Option.some.injEq] at h
    subst h
    exact (decode_msop_sameGeometry m ops s pkt vec az).1
  | difop pkt =>
    simp only [Call.apply, Option.map_eq_some'] at h
    obtain ⟨⟨r, s''⟩, hd, rfl⟩ := h
    by_cases hid : pkt.id = m.DIFOP_ID
    · obtain ⟨-, rfl⟩ := decode_difop_some m s pkt hid r s'' hd
      rfl
    · rw [decode_difop_invalid m s pkt hid] at hd
      cases hd
      rfl

theorem runCalls_param (m : Model) (calls : List Call) (s s' : DecoderBase)
    (h : runCalls m calls s = some s') : s'.param_ = s.param_ := by
  induction calls generalizing s with
  | nil =>
    simp only [runCalls, Option.some.injEq] at h
    subst h
    rfl
  | cons c cs ih =>
    simp only [runCalls] at h
    cases hc : c.apply m s with
    | none => rw [hc] at h; cases h
    | some s1 =>
      rw [hc] at h
      exact (ih s1 h).trans (call_apply_param m s s1 c hc)

/-- A channel with raw distance 0 fails the admission test of every decoder whose
`min_distance` is positive. -/
theorem not_admitted_of_zero (m : Model) (s : DecoderBase) (pkt : MsopPkt) (b : Fin 12)
    (c : Fin 32) (hmin : 0 < s.param_.min_distance) (hz : rawDistance pkt b c = 0) :
    ¬ admitted m s pkt b c := by
  unfold admitted
  rw [hz]
  rintro ⟨⟨-, h⟩, -⟩
  simp only [Nat.cast_zero, Int.cast_zero, zero_mul, ge_iff_le] at h
  exact absurd hmin (not_lt.mpr h)

/-- C18: for both models and every configuration passed to the constructor, the
constructed decoder has `min_distance` strictly greater than 0, and it keeps that
`min_distance` through every sequence of returning calls; hence for every MSOP packet with
valid magic a channel of a decoded block whose raw distance field is 0 is emitted by
`decode_msop` as the sentinel point of the model, with `x = y = z = NAN`. -/
theorem zero_distance_is_sentinel (m : Model) (s0 : DecoderBase) (calls : List Call)
    (s : DecoderBase) (ops : DecoderBaseOps) (pkt : MsopPkt) (vec : List Point) (az : Int)
    (b : Fin 12) (c : Fin 32)
    (hrun : runCalls m calls (new_decoder m s0) = some s)
    (hid : pkt.header.id = m.MSOP_ID) (hb : b.val < validBlocks m pkt)
    (hz : RS_SWAP_SHORT ((pkt.blocks b).channels c).distance = 0) :
    0 < (new_decoder m s0).param_.min_distance ∧
    0 < s.param_.min_distance ∧
    ∃ p : Point,
      (decode_msop m ops s pkt vec az).vec[vec.length + (32 * b.val + c.val)]? = some p ∧
      p = m.rejected ∧ p.x = CFloat.NAN ∧ p.y = CFloat.NAN ∧ p.z = CFloat.NAN := by
  have h0 : 0 < (new_decoder m s0).param_.min_distance :=
    lt_of_lt_of_le (hardMin_pos m) (new_decoder_min m s0)
  have hs : 0 < s.param_.min_distance := by
    rw [runCalls_param m calls _ s hrun]
    exact h0
  refine ⟨h0, hs, m.channelPoint s pkt b c,
    decode_msop_getElem? m ops s pkt vec az b c hid hb, ?_⟩
  rcases channelPoint_cases m s pkt b c with ⟨ha, -⟩ | ⟨-, hrej⟩
  · exact absurd ha (not_admitted_of_zero m s pkt b c hs hz)
  · rw [hrej]
    exact ⟨rfl, (rejected_isSentinel m).1, (rejected_isSentinel m).2.1,
      (rejected_isSentinel m).2.2⟩

/-- C18, scenario S6: the RS32 decoder constructed from a configuration with
`min_distance = 0.05` and `max_distance = 0.2`, after one DIFOP packet, emits the sentinel
for block 0, channel 0 of the sample packet with raw distance 0. -/
theorem zero_distance_is_sentinel_witness :
    (pktAt 9000 0).header.id = Model.RS32.MSOP_ID ∧
    (0 : Fin 12).val < validBlocks Model.RS32 (pktAt 9000 0) ∧
    RS_SWAP_SHORT (((pktAt 9000 0).blocks 0).channels 0).distance = 0 ∧
    ∃ s, runCalls Model.RS32 [Call.difop (sampleDifop 1 600 1 2 3)]
        (new_decoder Model.RS32 lowMaxDecoder) = some s ∧
      ∃ p : Point,
        (decode_msop Model.RS32 sampleOps s (pktAt 9000 0) [] 0).vec[
          ([] : List Point).length + (32 * (0 : Fin 12).val + (0 : Fin 32).val)]? = some p ∧
        p.x = CFloat.NAN ∧ p.y = CFloat.NAN ∧ p.z = CFloat.NAN := by
  have h1 : (pktAt 9000 0).header.id = Model.RS32.MSOP_ID := by decide
  have h2 : (0 : Fin 12).val < validBlocks Model.RS32 (pktAt 9000 0) := by
    rw [validBlocks_pktAt]
    decide
  have h3 : RS_SWAP_SHORT (((pktAt 9000 0).blocks 0).channels 0).distance = 0 :=
    rawDistance_pktAt 9000 0 (by norm_num) 0 0
  have hr : RS_SWAP_SHORT (sampleDifop 1 600 1 2 3).rpm ≠ 0 := by
    rw [difop_rpm_sample 1 600 1 2 3 (by norm_num)]
    decide
  have hrun : runCalls Model.RS32 [Call.difop (sampleDifop 1 600 1 2 3)]
      (new_decoder Model.RS32 lowMaxDecoder)
      = some (difopAfter Model.RS32 (new_decoder Model.RS32 lowMaxDecoder)
          (sampleDifop 1 600 1 2 3)) := by
    simp only [runCalls, Call.apply]
    rw [decode_difop_returns Model.RS32 _ _ rfl hr]
    rfl
  obtain ⟨-, -, p, hp, -, hx, hy, hz⟩ := zero_distance_is_sentinel Model.RS32 lowMaxDecoder
    [Call.difop (sampleDifop 1 600 1 2 3)] _ sampleOps (pktAt 9000 0) [] 0 0 0 hrun h1 h2 h3
  exact ⟨h1, h2, h3, _, hrun, p, hp, hx, hy, hz⟩

/-- C19, as stated, fails: from the configuration `min_distance = 0.05`,
`max_distance = 0.2` the RS32 constructor builds a decoder with `min_distance = 0.4` and
`max_distance = 0.2`, so `hard_min ≤ min_distance ≤ max_distance ≤ hard_max` does not
hold. -/
theorem constructed_window_not_ordered :
    lowMaxDecoder.param_.min_distance = 1 / 20 ∧
    lowMaxDecoder.param_.max_distance = 2 / 10 ∧
    (new_decoder Model.RS32 lowMaxDecoder).param_.min_distance = 4 / 10 ∧
    (new_decoder Model.RS32 lowMaxDecoder).param_.max_distance = 2 / 10 ∧
    ¬ ((4 : ℚ) / 10 ≤ (new_decoder Model.RS32 lowMaxDecoder).param_.min_distance ∧
      (new_decoder Model.RS32 lowMaxDecoder).param_.min_distance
        ≤ (new_decoder Model.RS32 lowMaxDecoder).param_.max_distance ∧
      (new_decoder Model.RS32 lowMaxDecoder).param_.max_distance ≤ 200) := by
  have hmin : (new_decoder Model.RS32 lowMaxDecoder).param_.min_distance = 4 / 10 := by
    rw [(new_decoder_param Model.RS32 lowMaxDecoder).2]
    norm_num [lowMaxDecoder, Model.hardMin, Model.hardMax]
  have hmax : (new_decoder Model.RS32 lowMaxDecoder).param_.max_distance = 2 / 10 := by
    rw [(new_decoder_param Model.RS32 lowMaxDecoder).1]
    norm_num [lowMaxDecoder, Model.hardMin, Model.hardMax]
  refine ⟨rfl, rfl, hmin, hmax, ?_⟩
  rw [hmin, hmax]
  norm_num

/-- C19 (amended): for every configuration the decoder built by `new_decoder` has
`hard_min ≤ min_distance` and `max_distance ≤ hard_max`, with
`(hard_min, hard_max) = (0.4, 200)` for RS32 and `(0.1, 100)` for RSBP; when the
configured `max_distance` is at least `hard_min`, also `min_distance ≤ max_distance`; and a
configured window already inside the limits with `min ≤ max` is kept unchanged. -/
theorem constructed_window (m : Model) (s0 : DecoderBase) :
    (Model.RS32.hardMin = 4 / 10 ∧ Model.RS32.hardMax = 200 ∧
      Model.RSBP.hardMin = 1 / 10 ∧ Model.RSBP.hardMax = 100) ∧
    m.hardMin ≤ (new_decoder m s0).param_.min_distance ∧
    (new_decoder m s0).param_.max_distance ≤ m.hardMax ∧
    (m.hardMin ≤ s0.param_.max_distance →
      (new_decoder m s0).param_.min_distance ≤ (new_decoder m s0).param_.max_distance) ∧
    (m.hardMin ≤ s0.param_.min_distance ∧
        s0.param_.min_distance ≤ s0.param_.max_distance ∧
        s0.param_.max_distance ≤ m.hardMax →
      (new_decoder m s0).param_.min_distance = s0.param_.min_distance ∧
      (new_decoder m s0).param_.max_distance = s0.param_.max_distance) := by
  obtain ⟨hmax, hmin⟩ := new_decoder_param m s0
  have hlim : m.hardMin ≤ m.hardMax := by
    cases m <;> norm_num [Model.hardMin, Model.hardMax]
  refine ⟨⟨rfl, rfl, rfl, rfl⟩, new_decoder_min m s0, ?_, ?_, ?_⟩
  · rw [hmax]
    split_ifs with h
    · exact le_refl _
    · exact not_lt.mp h
  · intro hcfg
    have hM : m.hardMin ≤ (new_decoder m s0).param_.max_distance := by
      rw [hmax]
      split_ifs
      · exact hlim
      · exact hcfg
    rw [hmin, ← hmax]
    by_cases h : s0.param_.min_distance < m.hardMin ∨
        s0.param_.min_distance > (new_decoder m s0).param_.max_distance
    · rw [if_pos h]
      exact hM
    · rw [if_neg h]
      push_neg at h
      exact h.2
  · rintro ⟨h1, h2, h3⟩
    have e : (new_decoder m s0).param_.max_distance = s0.param_.max_distance := by
      rw [hmax, if_neg (not_lt.mpr h3)]
    refine ⟨?_, e⟩
    rw [hmin, ← hmax, e, if_neg]
    push_neg
    exact ⟨h1, h2⟩

/-- C19 (amended), at a sample configuration inside the limits: the window `[1, 90]` is
kept by both constructors. -/
theorem constructed_window_witness :
    (Model.RS32.hardMin ≤ insideDecoder.param_.max_distance ∧
      Model.RS32.hardMin ≤ insideDecoder.param_.min_distance ∧
      insideDecoder.param_.min_distance ≤ insideDecoder.param_.max_distance ∧
      insideDecoder.param_.max_distance ≤ Model.RS32.hardMax) ∧
    (new_decoder Model.RS32 insideDecoder).param_.min_distance = 1 ∧
    (new_decoder Model.RS32 insideDecoder).param_.max_distance = 90 ∧
    (new_decoder Model.RS32 insideDecoder).param_.min_distance
      ≤ (new_decoder Model.RS32 insideDecoder).param_.max_distance := by
  have h0 : Model.RS32.hardMin ≤ insideDecoder.param_.max_distance := by
    norm_num [Model.hardMin, insideDecoder]
  have h1 : Model.RS32.hardMin ≤ insideDecoder.param_.min_distance := by
    norm_num [Model.hardMin, insideDecoder]
  have h2 : insideDecoder.param_.min_distance ≤ insideDecoder.param_.max_distance := by
    norm_num [insideDecoder]
  have h3 : insideDecoder.param_.max_distance ≤ Model.RS32.hardMax := by
    norm_num [Model.hardMax, insideDecoder]
  obtain ⟨-, -, -, hord, hkeep⟩ := constructed_window Model.RS32 insideDecoder
  obtain ⟨e1, e2⟩ := hkeep ⟨h1, h2, h3⟩
  exact ⟨⟨h0, h1, h2, h3⟩, e1, e2, hord h0⟩

/-! ## Decoding a packet again -/

/-- The points of the decoded blocks depend on the decoder only through the members that
`sameGeometry` compares. -/
theorem decodedPoints_congr (m : Model) (s s' : DecoderBase) (pkt : MsopPkt)
    (h : sameGeometry s s') : decodedPoints m s' pkt = decodedPoints m s pkt := by
  obtain ⟨p, e, n, r, t, sa, ea, af, df, tf, ts, v, ho, co, si⟩ := s
  obtain ⟨p', e', n', r', t', sa', ea', af', df', tf', ts', v', ho', co', si'⟩ := s'
  simp only [sameGeometry] at h
  obtain ⟨rfl, rfl, rfl, rfl, rfl, rfl, rfl, rfl, rfl, rfl, rfl, rfl, rfl⟩ := h
  cases m <;> rfl

/-- C20: `decode_msop` does not disturb what determines its output.  For both models,
every decoder and every MSOP packet `p` (valid magic or not), the call leaves the echo
mode, both calibration lists, `difop_flag_`, `rpm_`, `pkts_per_frame_` and the
configuration (`param_`, the azimuth window and its flag, the lookup tables) unchanged;
and decoding `p` again on the decoder the first call left, into any buffer and at any
clock reading, appends exactly the sequence of points the first call appended, field for
field. -/
theorem msop_redecode_identical (m : Model) (ops ops' : DecoderBaseOps) (s : DecoderBase)
    (pkt : MsopPkt) (vec vec' : List Point) (az az' : Int) :
    ((decode_msop m ops s pkt vec az).decoder.echo_mode_ = s.echo_mode_ ∧
      (decode_msop m ops s pkt vec az).decoder.vert_angle_list_ = s.vert_angle_list_ ∧
      (decode_msop m ops s pkt vec az).decoder.hori_angle_list_ = s.hori_angle_list_ ∧
      (decode_msop m ops s pkt vec az).decoder.difop_flag_ = s.difop_flag_ ∧
      (decode_msop m ops s pkt vec az).decoder.rpm_ = s.rpm_ ∧
      (decode_msop m ops s pkt vec az).decoder.pkts_per_frame_ = s.pkts_per_frame_ ∧
      (decode_msop m ops s pkt vec az).decoder.param_ = s.param_ ∧
      (decode_msop m ops s pkt vec az).decoder.start_angle_ = s.start_angle_ ∧
      (decode_msop m ops s pkt vec az).decoder.end_angle_ = s.end_angle_ ∧
      (decode_msop m ops s pkt vec az).decoder.angle_flag_ = s.angle_flag_ ∧
      (decode_msop m ops s pkt vec az).decoder.cos_lookup_table_ = s.cos_lookup_table_ ∧
      (decode_msop m ops s pkt vec az).decoder.sin_lookup_table_ = s.sin_lookup_table_) ∧
    ∃ new : List Point,
      (decode_msop m ops s pkt vec az).vec = vec ++ new ∧
      (decode_msop m ops' (decode_msop m ops s pkt vec az).decoder pkt vec' az').vec
        = vec' ++ new ∧
      (decode_msop m ops' (decode_msop m ops s pkt vec az).decoder pkt
          (decode_msop m ops s pkt vec az).vec az').vec
        = vec ++ new ++ new := by
  have hg := decode_msop_sameGeometry m ops s pkt vec az
  obtain ⟨g1, g2, g3, g4, g5, g6, g7, g8, -, g10, g11, g12, g13⟩ := hg
  refine ⟨⟨g2, g10, g11, g8, g4, g3, g1, g5, g6, g7, g12, g13⟩, ?_⟩
  by_cases hid : pkt.header.id = m.MSOP_ID
  · have hc := decodedPoints_congr m s _ pkt (decode_msop_sameGeometry m ops s pkt vec az)
    have h1 := (decode_msop_valid m ops s pkt vec az hid).2
    refine ⟨decodedPoints m s pkt, h1, ?_, ?_⟩
    · rw [(decode_msop_valid m ops' _ pkt vec' az' hid).2, hc]
    · rw [(decode_msop_valid m ops' _ pkt _ az' hid).2, hc, h1]
  · have h1 := (decode_msop_invalid m ops s pkt vec az hid).2.1
    refine ⟨[], by rw [h1, List.append_nil], ?_, ?_⟩
    · rw [(decode_msop_invalid m ops' _ pkt vec' az' hid).2.1, List.append_nil]
    · rw [(decode_msop_invalid m ops' _ pkt _ az' hid).2.1, h1, List.append_nil,
        List.append_nil]

/-! ## The azimuth step -/

/-- When both azimuths lie in `[0, 36000)` the C remainder of `36000 + x - y` is the
non-negative remainder of `x - y`. -/
theorem tmod_step (x y : Int) (hx : 0 ≤ x) (hx' : x < 36000) (hy : 0 ≤ y) (hy' : y < 36000) :
    Int.tmod (36000 + x - y) 36000 = (x - y) % 36000 := by
  rw [Int.tmod_eq_emod (by omega) (by norm_num)]
  omega

/-- The four cases of `azi_diff`, as the block loop of either model computes them. -/
theorem aziDiff_cases (m : Model) (s : DecoderBase) (pkt : MsopPkt) (b : Fin 12) :
    (s.echo_mode_ = RSEchoMode.ECHO_DUAL → ∀ h : b.val < 10,
      m.aziDiff s pkt b =
        Int.tmod (36000 + blockAzimuth pkt ⟨b.val + 2, by omega⟩ - blockAzimuth pkt b) 36000) ∧
    (s.echo_mode_ = RSEchoMode.ECHO_DUAL → ∀ h : 10 ≤ b.val,
      m.aziDiff s pkt b =
        Int.tmod (36000 + blockAzimuth pkt b - blockAzimuth pkt ⟨b.val - 2, by omega⟩) 36000) ∧
    (s.echo_mode_ ≠ RSEchoMode.ECHO_DUAL → ∀ h : b.val < 11,
      m.aziDiff s pkt b =
        Int.tmod (36000 + blockAzimuth pkt ⟨b.val + 1, by omega⟩ - blockAzimuth pkt b) 36000) ∧
    (s.echo_mode_ ≠ RSEchoMode.ECHO_DUAL → ∀ h : 11 ≤ b.val,
      m.aziDiff s pkt b =
        Int.tmod (36000 + blockAzimuth pkt b - blockAzimuth pkt ⟨b.val - 1, by omega⟩) 36000) := by
  cases m
  · refine ⟨fun he h => ?_, fun he h => ?_, fun he h => ?_, fun he h => ?_⟩
    · simp [Model.aziDiff, RS32.aziDiff, RS32.RS32_BLOCKS_PER_PKT, blockAzimuth, he, h]
    · have h' : ¬ b.val < 10 := by omega
      simp [Model.aziDiff, RS32.aziDiff, RS32.RS32_BLOCKS_PER_PKT, blockAzimuth, he, h']
    · simp [Model.aziDiff, RS32.aziDiff, RS32.RS32_BLOCKS_PER_PKT, blockAzimuth, he, h]
    · have h' : ¬ b.val < 11 := by omega
      simp [Model.aziDiff, RS32.aziDiff, RS32.RS32_BLOCKS_PER_PKT, blockAzimuth, he, h']
  · refine ⟨fun he h => ?_, fun he h => ?_, fun he h => ?_, fun he h => ?_⟩
    · simp [Model.aziDiff, RSBP.aziDiff, RSBP.RSBP_BLOCKS_PER_PKT, blockAzimuth, he, h]
    · have h' : ¬ b.val < 10 := by omega
      simp [Model.aziDiff, RSBP.aziDiff, RSBP.RSBP_BLOCKS_PER_PKT, blockAzimuth, he, h']
    · simp [Model.aziDiff, RSBP.aziDiff, RSBP.RSBP_BLOCKS_PER_PKT, blockAzimuth, he, h]
    · have h' : ¬ b.val < 11 := by omega
      simp [Model.aziDiff, RSBP.aziDiff, RSBP.RSBP_BLOCKS_PER_PKT, blockAzimuth, he, h']

/-- C21: for both models and every MSOP packet whose block azimuths `A_0..A_11`, read
big-endian, all lie in `[0, 36000)`: with `stride = 2` when the echo mode is DUAL and
`stride = 1` otherwise, the azimuth step of block `b` is
`azi_diff = (A_{b+stride} − A_b) mod 36000` for `b < 12 − stride` and
`azi_diff = (A_b − A_{b−stride}) mod 36000` for the last `stride` blocks, where `mod` is
the non-negative remainder; the neighbour block `b ± stride` is a block of the packet
(an index in 0..11); and `0 ≤ azi_diff < 36000`, also when the azimuth passes through
360 degrees between the two blocks. -/
theorem azi_diff_modular (m : Model) (s : DecoderBase) (pkt : MsopPkt) (b : Fin 12)
    (stride : Nat)
    (hstride : stride = if s.echo_mode_ = RSEchoMode.ECHO_DUAL then 2 else 1)
    (hA : ∀ i : Fin 12, 0 ≤ blockAzimuth pkt i ∧ blockAzimuth pkt i < 36000) :
    (b.val < 12 - stride →
      ∃ n : Fin 12, n.val = b.val + stride ∧
        m.aziDiff s pkt b = (blockAzimuth pkt n - blockAzimuth pkt b) % 36000) ∧
    (12 - stride ≤ b.val →
      ∃ n : Fin 12, n.val + stride = b.val ∧
        m.aziDiff s pkt b = (blockAzimuth pkt b - blockAzimuth pkt n) % 36000) ∧
    0 ≤ m.aziDiff s pkt b ∧ m.aziDiff s pkt b < 36000 := by
  obtain ⟨c1, c2, c3, c4⟩ := aziDiff_cases m s pkt b
  have hfwd : b.val < 12 - stride →
      ∃ n : Fin 12, n.val = b.val + stride ∧
        m.aziDiff s pkt b = (blockAzimuth pkt n - blockAzimuth pkt b) % 36000 := by
    intro hb
    by_cases he : s.echo_mode_ = RSEchoMode.ECHO_DUAL
    · rw [if_pos he] at hstride
      subst hstride
      have h : b.val < 10 := by omega
      refine ⟨⟨b.val + 2, by omega⟩, rfl, ?_⟩
      rw [c1 he h]
      exact tmod_step _ _ (hA _).1 (hA _).2 (hA _).1 (hA _).2
    · rw [if_neg he] at hstride
      subst hstride
      have h : b.val < 11 := by omega
      refine ⟨⟨b.val + 1, by omega⟩, rfl, ?_⟩
      rw [c3 he h]
      exact tmod_step _ _ (hA _).1 (hA _).2 (hA _).1 (hA _).2
  have hbwd : 12 - stride ≤ b.val →
      ∃ n : Fin 12, n.val + stride = b.val ∧
        m.aziDiff s pkt b = (blockAzimuth pkt b - blockAzimuth pkt n) % 36000 := by
    intro hb
    by_cases he : s.echo_mode_ = RSEchoMode.ECHO_DUAL
    · rw [if_pos he] at hstride
      subst hstride
      have h : 10 ≤ b.val := by omega
      refine ⟨⟨b.val - 2, by omega⟩, by simp only []; omega, ?_⟩
      rw [c2 he h]
      exact tmod_step _ _ (hA _).1 (hA _).2 (hA _).1 (hA _).2
    · rw [if_neg he] at hstride
      subst hstride
      have h : 11 ≤ b.val := by omega
      refine ⟨⟨b.val - 1, by omega⟩, by simp only []; omega, ?_⟩
      rw [c4 he h]
      exact tmod_step _ _ (hA _).1 (hA _).2 (hA _).1 (hA _).2
  refine ⟨hfwd, hbwd, ?_⟩
  by_cases hb : b.val < 12 - stride
  · obtain ⟨n, -, hn⟩ := hfwd hb
    rw [hn]
    omega
  · obtain ⟨n, -, hn⟩ := hbwd (by omega)
    rw [hn]
    omega

/-- The block azimuths of the packet that passes through 360 degrees. -/
theorem blockAzimuth_pktWrap (b : Fin 12) :
    blockAzimuth pktWrap b = (((35950 + 100 * b.val) % 36000 : Nat) : Int) := by
  have h : RS_SWAP_SHORT (pktWrap.blocks b).azimuth = (35950 + 100 * b.val) % 36000 :=
    swap_be16 _ (by omega)
  simp only [blockAzimuth, h]

/-- C21, across the 360-degree wrap: in the packet whose blocks carry the azimuths
35950, 50, 150, …, a decoder in STRONGEST mode (stride 1) uses for block 0 the step
`(50 − 35950) mod 36000 = 100`, and a decoder in DUAL mode (stride 2) uses for the last
block the step `(1050 − 850) mod 36000 = 200`. -/
theorem azi_diff_modular_witness :
    (∀ i : Fin 12, 0 ≤ blockAzimuth pktWrap i ∧ blockAzimuth pktWrap i < 36000) ∧
    blockAzimuth pktWrap 0 = 35950 ∧ blockAzimuth pktWrap 1 = 50 ∧
    Model.RS32.aziDiff (withEcho baseDecoder RSEchoMode.ECHO_STRONGEST) pktWrap 0 = 100 ∧
    blockAzimuth pktWrap 9 = 850 ∧ blockAzimuth pktWrap 11 = 1050 ∧
    Model.RSBP.aziDiff (withEcho baseDecoder RSEchoMode.ECHO_DUAL) pktWrap 11 = 200 := by
  have hA : ∀ i : Fin 12, 0 ≤ blockAzimuth pktWrap i ∧ blockAzimuth pktWrap i < 36000 := by
    intro i
    rw [blockAzimuth_pktWrap]
    omega
  have a0 : blockAzimuth pktWrap 0 = 35950 := by rw [blockAzimuth_pktWrap]; decide
  have a1 : blockAzimuth pktWrap 1 = 50 := by rw [blockAzimuth_pktWrap]; decide
  have a9 : blockAzimuth pktWrap 9 = 850 := by rw [blockAzimuth_pktWrap]; decide
  have a11 : blockAzimuth pktWrap 11 = 1050 := by rw [blockAzimuth_pktWrap]; decide
  refine ⟨hA, a0, a1, ?_, a9, a11, ?_⟩
  · obtain ⟨hfwd, -, -⟩ := azi_diff_modular Model.RS32
      (withEcho baseDecoder RSEchoMode.ECHO_STRONGEST) pktWrap 0 1 (by decide) hA
    obtain ⟨n, hn, hd⟩ := hfwd (by decide)
    have : n = 1 := Fin.ext (by rw [hn]; decide)
    subst this
    rw [hd, a0, a1]
    decide
  · obtain ⟨-, hbwd, -⟩ := azi_diff_modular Model.RSBP
      (withEcho baseDecoder RSEchoMode.ECHO_DUAL) pktWrap 11 2 (by decide) hA
    obtain ⟨n, hn, hd⟩ := hbwd (by decide)
    have : n = 9 := Fin.ext (by
      have h11 : (11 : Fin 12).val = 11 := rfl
      have h9 : (9 : Fin 12).val = 9 := rfl
      omega)
    subst this
    rw [hd, a9, a11]
    decide

/-! ## The per-channel azimuth -/

/-- The per-channel azimuth before calibration, with the factors in the order of the
specification. -/
theorem channelAzimuth_formula (m : Model) (s : DecoderBase) (pkt : MsopPkt) (b : Fin 12)
    (c : Fin 32) :
    channelAzimuth m s pkt b c =
      (blockAzimuth pkt b : ℚ) + (m.aziDiff s pkt b : ℚ) * ((c.val % 16 : Nat) : ℚ) * 3 / 50 := by
  unfold channelAzimuth blockAzimuth
  ring

/-- C22: for both models, every block `b` and every channel `c` in 0..31, the
pre-calibration per-channel azimuth is `A_b + azi_diff × (c mod 16) × 3 / 50`; hence for
every `c` in 0..15 the channels `c` and `c + 16` receive the same pre-calibration azimuth,
the channels 0 and 16 receive exactly the block azimuth `A_b`, and when `azi_diff ≥ 0` the
azimuth is non-decreasing in `c` over 0..15.  For a decoded block of a packet with valid
magic, the point emitted for an admitted channel is rotated by the calibration of that
azimuth and translated by the table entries at its wrap. -/
theorem channel_azimuth_interpolation (m : Model) (s : DecoderBase) (pkt : MsopPkt)
    (b : Fin 12) :
    (∀ c : Fin 32, channelAzimuth m s pkt b c =
      (blockAzimuth pkt b : ℚ) +
        (m.aziDiff s pkt b : ℚ) * ((c.val % 16 : Nat) : ℚ) * 3 / 50) ∧
    (∀ (c : Fin 32) (h : c.val < 16),
      channelAzimuth m s pkt b ⟨c.val + 16, by omega⟩ = channelAzimuth m s pkt b c) ∧
    (channelAzimuth m s pkt b 0 = (blockAzimuth pkt b : ℚ) ∧
      channelAzimuth m s pkt b 16 = (blockAzimuth pkt b : ℚ)) ∧
    (0 ≤ m.aziDiff s pkt b → ∀ c c' : Fin 32, c.val ≤ c'.val → c'.val < 16 →
      channelAzimuth m s pkt b c ≤ channelAzimuth m s pkt b c') ∧
    (∀ (ops : DecoderBaseOps) (vec : List Point) (az : Int) (c : Fin 32) (a : ℚ),
      a = (blockAzimuth pkt b : ℚ) +
        (m.aziDiff s pkt b : ℚ) * ((c.val % 16 : Nat) : ℚ) * 3 / 50 →
      pkt.header.id = m.MSOP_ID → b.val < validBlocks m pkt → admitted m s pkt b c →
      ∃ p : Point,
        (decode_msop m ops s pkt vec az).vec[vec.length + (32 * b.val + c.val)]? = some p ∧
        p.x = CFloat.fin
          ((rawDistance pkt b c : ℚ) * (5 / 1000) *
              s.cos_lookup_table_
                (Int.tmod (Int.tmod (toInt (s.vert_angle_list_ c)) 36000 + 36000) 36000) *
              s.cos_lookup_table_ (azimuthCalibration s a c) +
            m.RX * s.cos_lookup_table_ (Int.tmod (toInt (a + 36000)) 36000)) ∧
        p.y = CFloat.fin
          (-((rawDistance pkt b c : ℚ) * (5 / 1000)) *
              s.cos_lookup_table_
                (Int.tmod (Int.tmod (toInt (s.vert_angle_list_ c)) 36000 + 36000) 36000) *
              s.sin_lookup_table_ (azimuthCalibration s a c) -
            m.RX * s.sin_lookup_table_ (Int.tmod (toInt (a + 36000)) 36000))) := by
  refine ⟨fun c => channelAzimuth_formula m s pkt b c, ?_, ?_, ?_, ?_⟩
  · intro c h
    have e : (c.val + 16) % 16 = c.val % 16 := by omega
    simp only [channelAzimuth, e]
  · constructor
    · simp [channelAzimuth, blockAzimuth]
    · have e : ((16 : Fin 32).val % 16 : Nat) = 0 := by decide
      simp only [channelAzimuth, blockAzimuth, e]
      simp
  · intro hd c c' hcc hc'
    have e1 : c.val % 16 = c.val := Nat.mod_eq_of_lt (by omega)
    have e2 : c'.val % 16 = c'.val := Nat.mod_eq_of_lt hc'
    have hq : (0 : ℚ) ≤ (m.aziDiff s pkt b : ℚ) := by exact_mod_cast hd
    have hc : ((c.val : Nat) : ℚ) ≤ ((c'.val : Nat) : ℚ) := by exact_mod_cast hcc
    simp only [channelAzimuth, e1, e2]
    have : (m.aziDiff s pkt b : ℚ) * 3 * (c.val : ℚ) / 50
        ≤ (m.aziDiff s pkt b : ℚ) * 3 * (c'.val : ℚ) / 50 := by
      apply div_le_div_of_nonneg_right _ (by norm_num)
      exact mul_le_mul_of_nonneg_left hc (by positivity)
    linarith
  · intro ops vec az c a ha hid hb hadm
    classical
    refine ⟨m.channelPoint s pkt b c, decode_msop_getElem? m ops s pkt vec az b c hid hb, ?_⟩
    have ea : channelAzimuth m s pkt b c = a := by
      rw [ha]
      exact channelAzimuth_formula m s pkt b c
    rw [channelPoint_eq, if_pos hadm, ea]
    constructor <;> simp [RS_RESOLUTION]

/-- The block azimuths of the packet whose azimuth rises by one degree per block. -/
theorem blockAzimuth_pktRamp (b : Fin 12) :
    blockAzimuth pktRamp b = ((100 * b.val : Nat) : Int) := by
  have h : RS_SWAP_SHORT (pktRamp.blocks b).azimuth = 100 * b.val := swap_be16 _ (by omega)
  simp only [blockAzimuth, h]

/-- A fresh RS32 decoder (echo mode STRONGEST) uses the step 100 for block 0 of the packet
whose azimuth rises by one degree per block. -/
theorem aziDiff_pktRamp_zero :
    Model.RS32.aziDiff (freshDecoder Model.RS32) pktRamp 0 = 100 := by
  have h := (aziDiff_cases Model.RS32 (freshDecoder Model.RS32) pktRamp 0).2.2.1
    (by decide) (by decide)
  rw [h, blockAzimuth_pktRamp, blockAzimuth_pktRamp]
  decide

/-- Channel 1 of block 0 of that packet passes the admission test of a fresh RS32
decoder. -/
theorem admitted_ramp :
    admitted Model.RS32 (freshDecoder Model.RS32) pktRamp 0 1 := by
  have hca : channelAzimuth Model.RS32 (freshDecoder Model.RS32) pktRamp 0 1
      = ((6 : Int) : ℚ) := by
    rw [channelAzimuth_formula, aziDiff_pktRamp_zero, blockAzimuth_pktRamp]
    norm_num
  have hd : rawDistance pktRamp 0 1 = 2000 := swap_be16 2000 (by norm_num)
  have haz : azimuthCalibration (freshDecoder Model.RS32) ((6 : Int) : ℚ) 1 = 6 := by
    simp only [azimuthCalibration, fresh_hori, add_zero, toInt_intCast]
    decide
  unfold admitted
  rw [hca, haz, hd, fresh_rs32_min, fresh_rs32_max, (fresh_window Model.RS32).1,
    (fresh_window Model.RS32).2.1, (fresh_window Model.RS32).2.2]
  norm_num [RS_RESOLUTION]

/-- C22, at a sample packet: with block azimuth 0 and azimuth step 100 (one degree per
block, STRONGEST mode) the channels 1 and 2 of block 0 get the pre-calibration azimuths
`0 + 100 · 1 · 3 / 50 = 6` and `0 + 100 · 2 · 3 / 50 = 12`, channel 17 gets the azimuth of
channel 1, and the point emitted for channel 1 is computed from the azimuth 6. -/
theorem channel_azimuth_interpolation_witness :
    0 ≤ Model.RS32.aziDiff (freshDecoder Model.RS32) pktRamp 0 ∧
    channelAzimuth Model.RS32 (freshDecoder Model.RS32) pktRamp 0 1 = 6 ∧
    channelAzimuth Model.RS32 (freshDecoder Model.RS32) pktRamp 0 2 = 12 ∧
    channelAzimuth Model.RS32 (freshDecoder Model.RS32) pktRamp 0 1
      ≤ channelAzimuth Model.RS32 (freshDecoder Model.RS32) pktRamp 0 2 ∧
    channelAzimuth Model.RS32 (freshDecoder Model.RS32) pktRamp 0
        ⟨(1 : Fin 32).val + 16, by decide⟩
      = channelAzimuth Model.RS32 (freshDecoder Model.RS32) pktRamp 0 1 ∧
    pktRamp.header.id = Model.RS32.MSOP_ID ∧
    (0 : Fin 12).val < validBlocks Model.RS32 pktRamp ∧
    admitted Model.RS32 (freshDecoder Model.RS32) pktRamp 0 1 ∧
    ∃ p : Point,
      (decode_msop Model.RS32 sampleOps (freshDecoder Model.RS32) pktRamp [] 0).vec[
        ([] : List Point).length + (32 * (0 : Fin 12).val + (1 : Fin 32).val)]? = some p ∧
      p.x = CFloat.fin
        ((rawDistance pktRamp 0 1 : ℚ) * (5 / 1000) *
            (freshDecoder Model.RS32).cos_lookup_table_
              (Int.tmod (Int.tmod
                (toInt ((freshDecoder Model.RS32).vert_angle_list_ 1)) 36000 + 36000) 36000) *
            (freshDecoder Model.RS32).cos_lookup_table_
              (azimuthCalibration (freshDecoder Model.RS32) 6 1) +
          Model.RS32.RX *
            (freshDecoder Model.RS32).cos_lookup_table_ (Int.tmod (toInt (6 + 36000)) 36000)) := by
  obtain ⟨hform, hpair, -, hmono, hpoint⟩ :=
    channel_azimuth_interpolation Model.RS32 (freshDecoder Model.RS32) pktRamp 0
  have hd0 : (0 : Int) ≤ Model.RS32.aziDiff (freshDecoder Model.RS32) pktRamp 0 := by
    rw [aziDiff_pktRamp_zero]
    decide
  have h1 : channelAzimuth Model.RS32 (freshDecoder Model.RS32) pktRamp 0 1 = 6 := by
    rw [hform, aziDiff_pktRamp_zero, blockAzimuth_pktRamp]
    norm_num
  have h2 : channelAzimuth Model.RS32 (freshDecoder Model.RS32) pktRamp 0 2 = 12 := by
    rw [hform, aziDiff_pktRamp_zero, blockAzimuth_pktRamp]
    norm_num
  have ha : (6 : ℚ) = (blockAzimuth pktRamp 0 : ℚ) +
      (Model.RS32.aziDiff (freshDecoder Model.RS32) pktRamp 0 : ℚ) *
        (((1 : Fin 32).val % 16 : Nat) : ℚ) * 3 / 50 := by
    rw [aziDiff_pktRamp_zero, blockAzimuth_pktRamp]
    norm_num
  have hid : pktRamp.header.id = Model.RS32.MSOP_ID := by decide
  have hb : (0 : Fin 12).val < validBlocks Model.RS32 pktRamp := by decide
  obtain ⟨p, hp, hx, -⟩ := hpoint sampleOps [] 0 1 6 ha hid hb admitted_ramp
  exact ⟨hd0, h1, h2, hmono hd0 1 2 (by decide) (by decide), hpair 1 (by decide), hid, hb,
    admitted_ramp, p, hp, hx⟩

end robosense.lidar
